import Mathlib

/-!
# RTP payloader / depayloader for JPEG 2000 codestreams

A shallow embedding of `gstrtpj2kpay.cpp`, `gstrtpj2kdepay.cpp` and the buffer
utilities of `rtp-sim.cpp`.

Conventions of the embedding.

* A byte buffer is a `List Nat` (each entry a byte value).
* `guint` arithmetic is `Nat` arithmetic reduced modulo `2^32`; the bit fields
  of `RtpJ2KHeader` are reduced modulo their width when they are written to
  the wire.
* Loops are driven by an explicit fuel argument.  A run ends in
  `Except.ok`, in `Fault.fuel` (the loop was still running when the fuel ran
  out), in `Fault.undefined` (the source reads or writes outside an array,
  reads an uninitialised byte or divides by zero) or in `Fault.assertion`
  (an `assert` of the source fails).
* Buffers are values: reference counts and the sharing of memory between
  buffers are not part of the embedding.
-/

namespace RtpJ2K

/-- The ways in which a run of the embedded code can fail to return a value. -/
inductive Fault where
  | undefined
  | fuel
  | assertion
  deriving DecidableEq, Repr

/-- Two to the power 32: the modulus of `guint` arithmetic. -/
def U32 : Nat := 4294967296

def J2K_MARKER : Nat := 0xFF
def J2K_MARKER_SOC : Nat := 0x4F
def J2K_MARKER_SOT : Nat := 0x90
def J2K_MARKER_SOP : Nat := 0x91
def J2K_MARKER_EPH : Nat := 0x92
def J2K_MARKER_SOD : Nat := 0x93
def J2K_MARKER_EOC : Nat := 0xD9
def HEADER_SIZE : Nat := 8

/-- Unsigned 32-bit subtraction `a - b`. -/
def sub32 (a b : Nat) : Nat := (a + U32 - b % U32) % U32

/-- Unsigned 32-bit addition `a + b`. -/
def add32 (a b : Nat) : Nat := (a + b) % U32

/-- Read of `data[i]`; reading outside the buffer is undefined behaviour. -/
def rd (data : List Nat) (i : Nat) : Except Fault Nat :=
  match data.get? i with
  | some b => pure b
  | none => throw Fault.undefined

/-- The bit-field record `RtpJ2KHeader`. -/
structure RtpJ2KHeader where
  tp : Nat
  MHF : Nat
  mh_id : Nat
  T : Nat
  priority : Nat
  tile : Nat
  offset : Nat
  deriving DecidableEq, Repr

/-- The scanner state `RtpJ2KState`. -/
structure RtpJ2KState where
  header : RtpJ2KHeader
  bitstream : Bool
  n_tiles : Nat
  next_sot : Nat
  force_packet : Bool
  deriving DecidableEq, Repr

/-- Source function `gst_rtp_j2k_pay_header_size`: `data[offset] << 8 | data[offset + 1]`. -/
def gst_rtp_j2k_pay_header_size (data : List Nat) (offset : Nat) : Except Fault Nat := do
  let hi ← rd data offset
  let lo ← rd data (offset + 1)
  pure ((hi <<< 8) ||| lo)

/-- Source function `GST_READ_UINT16_BE` at `data + i`. -/
def GST_READ_UINT16_BE (data : List Nat) (i : Nat) : Except Fault Nat := do
  let b0 ← rd data i
  let b1 ← rd data (i + 1)
  pure ((b0 <<< 8) ||| b1)

/-- Source function `GST_READ_UINT32_BE` at `data + i`. -/
def GST_READ_UINT32_BE (data : List Nat) (i : Nat) : Except Fault Nat := do
  let b0 ← rd data i
  let b1 ← rd data (i + 1)
  let b2 ← rd data (i + 2)
  let b3 ← rd data (i + 3)
  pure (((b0 <<< 24) ||| (b1 <<< 16) ||| (b2 <<< 8) ||| b3) % U32)

/-- The loop `while ((data[(*offset)++] != J2K_MARKER) && ((*offset) < size));`
of `gst_rtp_j2k_pay_scan_marker`; the result is the cursor after the loop. -/
def scan_loop : Nat → List Nat → Nat → Nat → Except Fault Nat
  | 0, _, _, _ => throw Fault.fuel
  | fuel + 1, data, size, offset => do
    let b ← rd data offset
    let offset1 := add32 offset 1
    if b ≠ J2K_MARKER ∧ offset1 < size then scan_loop fuel data size offset1
    else pure offset1

/-- Source function `gst_rtp_j2k_pay_scan_marker`: the marker found and the advanced cursor. -/
def gst_rtp_j2k_pay_scan_marker (fuel : Nat) (data : List Nat) (size offset : Nat) :
    Except Fault (Nat × Nat) := do
  let offset1 ← scan_loop fuel data size offset
  if offset1 ≥ size then pure (J2K_MARKER_EOC, offset1)
  else do
    let marker ← rd data offset1
    pure (marker, add32 offset1 1)

/-- The `while (offset < size)` loop of `find_pu_end`, with the local
`cut_sop` as an argument.  Returns the offset returned by the source together
with the updated scanner state. -/
def find_pu_end_loop : Nat → List Nat → Nat → Nat → Bool → RtpJ2KState →
    Except Fault (Nat × RtpJ2KState)
  | 0, _, _, _, _, _ => throw Fault.fuel
  | fuel + 1, data, size, offset, cut_sop, state =>
    if ¬ offset < size then pure (size, state)
    else do
      let (marker, offset) ← gst_rtp_j2k_pay_scan_marker (fuel + 1) data size offset
      if state.bitstream then
        if marker = J2K_MARKER_SOP then
          if cut_sop then pure (sub32 offset 2, state)
          else find_pu_end_loop fuel data size offset true state
        else if marker = J2K_MARKER_EPH then
          find_pu_end_loop fuel data size offset cut_sop state
        else if offset ≥ state.next_sot then
          let state1 := { state with bitstream := false, force_packet := true }
          if marker = J2K_MARKER_EOC ∧ add32 state.next_sot 2 ≤ size then
            pure (add32 state.next_sot 2, state1)
          else pure (state.next_sot, state1)
        else find_pu_end_loop fuel data size offset cut_sop state
      else
        if marker = J2K_MARKER_SOC then
          find_pu_end_loop fuel data size offset cut_sop
            { state with header := { state.header with MHF := 1 } }
        else if marker = J2K_MARKER_SOT then
          if state.header.MHF ≠ 0 then
            pure (sub32 offset 2, { state with force_packet := true })
          else do
            let len ← gst_rtp_j2k_pay_header_size data offset
            if len < 8 then pure (size, state)
            else if add32 offset len ≥ size then pure (size, state)
            else do
              let T := if state.n_tiles = 0 then 0 else 1
              let tile ← GST_READ_UINT16_BE data (offset + 2)
              let Psot ← GST_READ_UINT32_BE data (offset + 4)
              let next_sot := if Psot = 0 then size else add32 (sub32 offset 2) Psot
              find_pu_end_loop fuel data size (add32 offset len) cut_sop
                { state with
                  header := { state.header with T := T, tile := tile % 65536 },
                  n_tiles := add32 state.n_tiles 1,
                  next_sot := next_sot }
        else if marker = J2K_MARKER_SOD then
          find_pu_end_loop fuel data size offset true
            { state with n_tiles := 0, bitstream := true, force_packet := true }
        else if marker = J2K_MARKER_EOC then pure (offset, state)
        else do
          let len ← gst_rtp_j2k_pay_header_size data offset
          find_pu_end_loop fuel data size (add32 offset len) cut_sop state

/-- Source function `find_pu_end`: scan from `offset` for the end of the packetization unit. -/
def find_pu_end (fuel : Nat) (data : List Nat) (size offset : Nat) (state : RtpJ2KState) :
    Except Fault (Nat × RtpJ2KState) :=
  find_pu_end_loop fuel data size offset false state

/-- One RTP packet of the emitted buffer list: the payload bytes (the 8-byte
header followed by the codestream slice) and the value of the marker flag of
the `GstRTPBuffer` through which the packet was written. -/
structure Packet where
  payload : List Nat
  marker : Bool
  deriving DecidableEq, Repr

/-- The eight header bytes `header[0] .. header[7]` written for a packet. -/
def header_bytes (h : RtpJ2KHeader) : List Nat :=
  [ ((h.tp <<< 6) ||| (h.MHF <<< 4) ||| (h.mh_id <<< 1) ||| h.T) % 256,
    h.priority % 256,
    (h.tile >>> 8) % 256,
    (h.tile &&& 0xff) % 256,
    0,
    (h.offset >>> 16) % 256,
    ((h.offset >>> 8) &&& 0xff) % 256,
    (h.offset &&& 0xff) % 256 ]

/-- Source function `gst_buffer_copy_region` on a parent holding one memory of `parent.length`
bytes: the `(offset, size)` window of the sub-buffer, or `none` when the
sub-buffer is left without memory. -/
def gst_buffer_copy_region (parent : List Nat) (offset size : Nat) : Option (Nat × Nat) :=
  if parent.length < offset then none
  else some (offset, min size parent.length)

/-- Source function `gst_buffer_append (outbuf, paybuf)` for the header buffer and the
sub-buffer window: the bytes of the merged buffer.  Copying a window that
is not inside the parent memory is undefined behaviour. -/
def gst_buffer_append (hdr : List Nat) (parent : List Nat) (win : Option (Nat × Nat)) :
    Except Fault (List Nat) :=
  match win with
  | none => pure hdr
  | some (off, sz) =>
    if off + sz ≤ parent.length then pure (hdr ++ (parent.drop off).take sz)
    else throw Fault.undefined

/-- The inner `do { ... } while (TRUE)` loop of `gst_rtp_j2k_pay_handle_buffer`
("try to pack as much as we can").  Returns `(pu_size, pos, end, state)`. -/
def pack_loop : Nat → List Nat → Nat → Nat → Nat → Nat → RtpJ2KState →
    Except Fault (Nat × Nat × Nat × RtpJ2KState)
  | 0, _, _, _, _, _, _ => throw Fault.fuel
  | fuel + 1, data, max_size, offset, pos, end_, state =>
    let pu_size := sub32 end_ offset
    if state.force_packet then
      pure (pu_size, end_, end_, { state with force_packet := false })
    else if pu_size > max_size then
      if pos ≠ offset then pure (sub32 pos offset, pos, end_, state)
      else pure (pu_size, end_, end_, state)
    else if end_ = data.length then pure (pu_size, end_, end_, state)
    else do
      let (e, state1) ← find_pu_end (fuel + 1) data (data.length % U32) end_ state
      pack_loop fuel data max_size offset end_ e state1

/-- The `while (pu_size > 0)` loop of `gst_rtp_j2k_pay_handle_buffer`, which
builds the packets of one packetization unit.  `rtp_marker` is the marker
flag of the local `GstRTPBuffer rtp`.  Returns the state and the list. -/
def emit_loop : Nat → List Nat → Nat → Nat → Nat → Nat → Bool → RtpJ2KState → List Packet →
    Except Fault (RtpJ2KState × List Packet)
  | 0, _, _, _, _, _, _, _, _ => throw Fault.fuel
  | fuel + 1, data, mtu, end_, pu_size, offset, rtp_marker, state, list =>
    if pu_size = 0 then pure (state, list)
    else do
      let packet_size0 := add32 pu_size HEADER_SIZE
      let packet_size := if packet_size0 > mtu then mtu else packet_size0
      let payload_size := packet_size
      let data_size := sub32 payload_size HEADER_SIZE
      let pu_size1 := sub32 pu_size data_size
      let MHF1 :=
        if pu_size1 = 0 ∧ state.header.MHF ≠ 0 then (if offset = 0 then 3 else 2)
        else state.header.MHF
      let rtp_marker1 := if pu_size1 = 0 ∧ end_ ≥ data.length then true else rtp_marker
      let hdr := header_bytes { state.header with MHF := MHF1 }
      let paybuf := gst_buffer_copy_region data offset data_size
      let outbuf ← gst_buffer_append hdr data paybuf
      let offset1 := add32 offset data_size
      let state1 := { state with
        header := { state.header with MHF := 0, T := 1, tile := 0, offset := offset1 % 16777216 } }
      emit_loop fuel data mtu end_ pu_size1 offset1 rtp_marker1 state1
        (list ++ [{ payload := outbuf, marker := rtp_marker1 }])

/-- The outer `do { ... } while (offset < map.size)` loop of
`gst_rtp_j2k_pay_handle_buffer`. -/
def outer_loop : Nat → List Nat → Nat → Nat → Nat → Nat → Nat → RtpJ2KState → List Packet →
    Except Fault (List Packet)
  | 0, _, _, _, _, _, _, _, _ => throw Fault.fuel
  | fuel + 1, data, mtu, max_size, offset, pos, end_, state, list => do
    let (pu_size, pos1, end1, state1) ← pack_loop (fuel + 1) data max_size offset pos end_ state
    let (state2, list1) ← emit_loop (fuel + 1) data mtu end1 pu_size offset false state1 list
    let offset1 := pos1
    if offset1 < data.length then outer_loop fuel data mtu max_size offset1 pos1 end1 state2 list1
    else pure list1

/-- The header defaults set at the start of `gst_rtp_j2k_pay_handle_buffer`. -/
def initial_state : RtpJ2KState :=
  { header := { tp := 0, MHF := 0, mh_id := 0, T := 1, priority := 255, tile := 0, offset := 0 },
    bitstream := false, n_tiles := 0, next_sot := 0, force_packet := false }

/-- Source function `gst_rtp_j2k_pay_handle_buffer` for the input buffer `data` and the given
MTU: the packet list pushed downstream. -/
def gst_rtp_j2k_pay_handle_buffer (fuel : Nat) (data : List Nat) (mtu : Nat) :
    Except Fault (List Packet) :=
  let max_size := sub32 mtu HEADER_SIZE
  if max_size = 0 then throw Fault.undefined
  else outer_loop fuel data mtu max_size 0 0 0 initial_state []

/-! ## Buffers, lists and adapters (`rtp-sim.cpp`) -/

/-- Two to the power 64: the modulus of `gsize` arithmetic. -/
def U64 : Nat := 18446744073709551616

/-- A `GstBuffer` holding one memory: its bytes. -/
abbrev Buffer := List Nat

/-- A `GstAdapter`: the vector `buffers`. -/
abbrev GstAdapter := List Buffer

/-- The struct `GList`: the vector `impl`, the cursor `index` (a `gsize`) and
the pointer `data`. -/
structure GList where
  impl : List Buffer
  index : Nat
  data : Option Buffer
  deriving DecidableEq, Repr

/-- Source function `g_list_next`: advance the cursor, or return the null pointer. -/
def g_list_next (list : GList) : Option GList :=
  if list.impl.length ≠ 0 ∧ list.index < list.impl.length - 1 then
    let index1 := (list.index + 1) % U64
    some { list with index := index1, data := list.impl.get? index1 }
  else none

/-- Source function `gst_adapter_available`: the bytes held by the adapter. -/
def gst_adapter_available (adapter : GstAdapter) : Nat :=
  (adapter.map List.length).sum

/-- Source function `gst_adapter_push`. -/
def gst_adapter_push (adapter : GstAdapter) (buf : Buffer) : GstAdapter := adapter ++ [buf]

/-- Source function `gst_adapter_clear`. -/
def gst_adapter_clear (_adapter : GstAdapter) : GstAdapter := []

/-- Write `bytes` into the array `dest` from index `i` on (a `memcpy` that
stays inside the array). -/
def write_at (dest : List (Option Nat)) (i : Nat) (bytes : List Nat) : List (Option Nat) :=
  dest.take i ++ bytes.map some ++ dest.drop (i + bytes.length)

/-- The loop of `gst_adapter_copy` over the memories of the adapter.  `dest`
is the caller's array (`none` marks a byte that was never written); a `memcpy`
that writes past its end is undefined behaviour. -/
def gst_adapter_copy_loop : List Buffer → List (Option Nat) → Nat → Nat → Nat →
    Except Fault (List (Option Nat))
  | [], dest, _, _, _ => pure dest
  | mem :: rest, dest, offset, dest_offset, bytesToCopy =>
    if dest_offset + mem.length < offset then
      gst_adapter_copy_loop rest dest offset (dest_offset + mem.length) bytesToCopy
    else
      let len := min bytesToCopy mem.length
      if len ≠ 0 ∧ dest_offset + len > dest.length then throw Fault.undefined
      else
        let dest1 := write_at dest dest_offset (mem.take len)
        let bytesToCopy1 := bytesToCopy - len
        if bytesToCopy1 = 0 then pure dest1
        else gst_adapter_copy_loop rest dest1 offset (dest_offset + len) bytesToCopy1

/-- Source function `gst_adapter_copy (adapter, dest, offset, size)`: the array `dest` after
the call. -/
def gst_adapter_copy (adapter : GstAdapter) (dest : List (Option Nat)) (offset size : Nat) :
    Except Fault (List (Option Nat)) :=
  if gst_adapter_available adapter < (offset + size) % U64 then pure dest
  else gst_adapter_copy_loop adapter dest offset 0 size

/-- Source function `gst_adapter_take_buffer`: a new buffer of `nbytes` bytes filled from the
front of the adapter.  The adapter itself is left as it is: the source removes
nothing from `adapter->buffers`.  When the adapter holds fewer than `nbytes`
bytes the rest of the new buffer is uninitialised. -/
def gst_adapter_take_buffer (adapter : GstAdapter) (nbytes : Nat) : Except Fault Buffer :=
  if nbytes ≤ gst_adapter_available adapter then pure (adapter.flatten.take nbytes)
  else throw Fault.undefined

/-- The loop of `gst_adapter_take_list` over the buffers: the buffers taken
and the buffers left. -/
def gst_adapter_take_list_loop : List Buffer → Nat → List Buffer × List Buffer
  | [], _ => ([], [])
  | buf :: rest, bytesToCopy =>
    let bytesToCopy1 := (bytesToCopy + U64 - buf.length % U64) % U64
    if bytesToCopy1 = 0 then ([buf], rest)
    else
      let r := gst_adapter_take_list_loop rest bytesToCopy1
      (buf :: r.1, r.2)

/-- Source function `gst_adapter_take_list (adapter, nbytes)`: the `GList` returned and the
adapter after the call. -/
def gst_adapter_take_list (adapter : GstAdapter) (nbytes : Nat) : GList × GstAdapter :=
  if nbytes = 0 then ({ impl := [], index := U64 - 1, data := none }, adapter)
  else
    let r := gst_adapter_take_list_loop adapter nbytes
    ({ impl := r.1, index := U64 - 1, data := r.1.head? }, r.2)

/-- Source function `GST_WRITE_UINT32_BE (&data[6], num)` on the bytes of a mapped buffer. -/
def GST_WRITE_UINT32_BE (data : List Nat) (i num : Nat) : List Nat :=
  data.take i ++
    [(num >>> 24) &&& 0xFF, (num >>> 16) &&& 0xFF, (num >>> 8) &&& 0xFF, num &&& 0xFF] ++
    data.drop (i + 4)

/-! ## The depayloader (`gstrtpj2kdepay.cpp`) -/

/-- The header parse of `gst_rtp_j2k_depay_process`: `(payload[0] & 0x30) >> 4`. -/
def parse_MHF (payload : List Nat) : Nat := ((payload.getD 0 0) &&& 0x30) >>> 4

/-- The header parse of `gst_rtp_j2k_depay_process`: `(payload[0] & 0xe) >> 1`. -/
def parse_mh_id (payload : List Nat) : Nat := ((payload.getD 0 0) &&& 0xe) >>> 1

/-- The header parse of `gst_rtp_j2k_depay_process`: `(payload[2] << 8) | payload[3]`. -/
def parse_tile (payload : List Nat) : Nat := ((payload.getD 2 0) <<< 8) ||| (payload.getD 3 0)

/-- The header parse of `gst_rtp_j2k_depay_process`:
`(payload[5] << 16) | (payload[6] << 8) | payload[7]`. -/
def parse_frag_offset (payload : List Nat) : Nat :=
  ((payload.getD 5 0) <<< 16) ||| ((payload.getD 6 0) <<< 8) ||| (payload.getD 7 0)

/-- The struct `GstRtpJ2KDepay`, together with the member `bufferLists` of its
base `GstRTPBaseDepayload`: the vector of downstream buffer lists, each list
given by its buffers. -/
structure GstRtpJ2KDepay where
  last_rtptime : Nat
  last_mh_id : Nat
  last_tile : Nat
  MH : List (Option Buffer)
  pu_MHF : Nat
  pu_adapter : GstAdapter
  t_adapter : GstAdapter
  f_adapter : GstAdapter
  next_frag : Nat
  have_sync : Bool
  bufferLists : List (List Buffer)
  deriving DecidableEq, Repr

/-- The constructor `GstRtpJ2KDepay()`: every `-1` is the all-ones value of
its unsigned type, and the vector `bufferLists` is empty. -/
def GstRtpJ2KDepay.new : GstRtpJ2KDepay :=
  { last_rtptime := U64 - 1, last_mh_id := U32 - 1, last_tile := U32 - 1,
    MH := List.replicate 8 none, pu_MHF := U32 - 1,
    pu_adapter := [], t_adapter := [], f_adapter := [],
    next_frag := U32 - 1, have_sync := false, bufferLists := [] }

/-- Source function `store_mheader`: `assert (idx < 8)`, then replace the slot. -/
def store_mheader (d : GstRtpJ2KDepay) (idx : Nat) (buf : Option Buffer) :
    Except Fault GstRtpJ2KDepay :=
  if idx < 8 then pure { d with MH := d.MH.set idx buf }
  else throw Fault.assertion

/-- Source function `gst_rtp_j2k_depay_clear_pu`. -/
def gst_rtp_j2k_depay_clear_pu (d : GstRtpJ2KDepay) : GstRtpJ2KDepay :=
  { d with pu_adapter := gst_adapter_clear d.pu_adapter, have_sync := false }

/-- The loop `for (walk = packets; walk; walk = g_list_next (walk))` of
`gst_rtp_j2k_depay_flush_pu`, which pushes `walk->data` into the tile
adapter. -/
def flush_pu_walk : Nat → Option GList → GstAdapter → Except Fault GstAdapter
  | _, none, t => pure t
  | 0, some _, _ => throw Fault.fuel
  | fuel + 1, some walk, t =>
    match walk.data with
    | none => throw Fault.undefined
    | some buf => flush_pu_walk fuel (g_list_next walk) (gst_adapter_push t buf)

/-- Source function `gst_rtp_j2k_depay_flush_pu`. -/
def gst_rtp_j2k_depay_flush_pu (fuel : Nat) (d : GstRtpJ2KDepay) : Except Fault GstRtpJ2KDepay :=
  let avail := gst_adapter_available d.pu_adapter % U32
  if avail = 0 then pure { d with have_sync := false }
  else
    let MHF := d.pu_MHF
    let mh_id := d.last_mh_id
    if MHF = 0 then do
      let r := gst_adapter_take_list d.pu_adapter avail
      let t ← flush_pu_walk fuel (some r.1) d.t_adapter
      pure { d with pu_adapter := r.2, t_adapter := t, have_sync := false }
    else do
      let mheader ← gst_adapter_take_buffer d.pu_adapter avail
      let d1 ← store_mheader d mh_id (some mheader)
      pure { d1 with have_sync := false }

/-- Read of the local array `guint8 end[2]`; a byte that was never written is
uninitialised. -/
def rd_end (e : List (Option Nat)) (i : Nat) : Except Fault Nat :=
  match e.get? i with
  | some (some b) => pure b
  | _ => throw Fault.undefined

/-- The outcome of the body of the tile loop for one buffer: the buffer to
push, or the jump to `invalid_tile`. -/
inductive TileStep where
  | push (buf : Buffer)
  | invalid_tile
  deriving DecidableEq, Repr

/-- The body of the loop of `gst_rtp_j2k_depay_flush_tile` for the buffer
`buf` (`walk == packets` holds on every pass, `g_list_next` returning the list
it was given): the SOT check and the Psot rewrite. -/
def flush_tile_body (buf : Buffer) (end_ : List (Option Nat)) (avail : Nat) :
    Except Fault TileStep :=
  if buf.length < 12 then pure TileStep.invalid_tile
  else if buf.getD 0 0 = J2K_MARKER ∧ buf.getD 1 0 = J2K_MARKER_SOT then do
    let e0 ← rd_end end_ 0
    let isEoc ← (if e0 = J2K_MARKER then do
        let e1 ← rd_end end_ 1
        pure (decide (e1 = J2K_MARKER_EOC))
      else pure false)
    let nPsot := if isEoc then sub32 avail 2 else avail
    let Psot ← GST_READ_UINT32_BE buf 6
    if Psot ≠ nPsot ∧ Psot ≠ 0 then pure (TileStep.push (GST_WRITE_UINT32_BE buf 6 nPsot))
    else pure (TileStep.push buf)
  else pure (TileStep.push buf)

/-- The loop `for (walk = packets; walk; walk = g_list_next (walk))` of
`gst_rtp_j2k_depay_flush_tile`: the frame adapter when the loop is left, and
whether it was left through `invalid_tile`. -/
def flush_tile_walk : Nat → Option GList → List (Option Nat) → Nat → GstAdapter →
    Except Fault (GstAdapter × Bool)
  | _, none, _, _, f => pure (f, false)
  | 0, some _, _, _, _ => throw Fault.fuel
  | fuel + 1, some walk, end_, avail, f =>
    match walk.data with
    | none => throw Fault.undefined
    | some buf => do
      let step ← flush_tile_body buf end_ avail
      match step with
      | TileStep.invalid_tile => pure (f, true)
      | TileStep.push buf1 =>
        flush_tile_walk fuel (g_list_next walk) end_ avail (gst_adapter_push f buf1)

/-- Source function `gst_rtp_j2k_depay_flush_tile`. -/
def gst_rtp_j2k_depay_flush_tile (fuel : Nat) (d0 : GstRtpJ2KDepay) :
    Except Fault GstRtpJ2KDepay := do
  let d ← gst_rtp_j2k_depay_flush_pu fuel d0
  let avail := gst_adapter_available d.t_adapter % U32
  if avail = 0 then pure { d with last_tile := U32 - 1 }
  else do
    let mh_id := d.last_mh_id
    let fOpt ← (if gst_adapter_available d.f_adapter = 0 then
        (if mh_id < 8 then
          match d.MH.getD mh_id none with
          | none => pure none
          | some mheader => pure (some (gst_adapter_push d.f_adapter mheader))
        else throw Fault.undefined)
      else pure (some d.f_adapter))
    match fOpt with
    | none => pure { d with t_adapter := gst_adapter_clear d.t_adapter, last_tile := U32 - 1 }
    | some f => do
      let end_ ← gst_adapter_copy d.t_adapter [none, none] (sub32 avail 2) 2
      let r := gst_adapter_take_list d.t_adapter avail
      let res ← flush_tile_walk fuel (some r.1) end_ avail f
      if res.2 then
        pure { d with f_adapter := res.1, t_adapter := gst_adapter_clear r.2,
                      last_tile := U32 - 1 }
      else pure { d with f_adapter := res.1, t_adapter := r.2, last_tile := U32 - 1 }

/-- Source function `gst_rtp_base_depayload_push`: the stub tests `bufferLists.empty()` and, when
the vector is empty, calls `bufferLists.back()` on it, which is undefined
behaviour; when the vector is not empty it does nothing with `out_buf`. -/
def gst_rtp_base_depayload_push (d : GstRtpJ2KDepay) (_out_buf : Buffer) :
    Except Fault GstRtpJ2KDepay :=
  if d.bufferLists.isEmpty then throw Fault.undefined
  else pure d

/-- The part of `gst_rtp_j2k_depay_flush_frame` that prepares the delivery of a
frame adapter holding `avail > 2` bytes: the copy of its last two bytes into
`end`, the test for EOC, the EOC buffer pushed into the adapter, and
`gst_adapter_take_buffer`.  Returns the frame adapter and `outbuf` as they are
at the call `gst_rtp_base_depayload_push (depayload, outbuf)`. -/
def flush_frame_outbuf (f_adapter : GstAdapter) (avail : Nat) :
    Except Fault (GstAdapter × Buffer) := do
  let end_ ← gst_adapter_copy f_adapter [none, none] (sub32 avail 2) 2
  let e0 ← rd_end end_ 0
  let noEoc ← (if e0 ≠ J2K_MARKER then do
      let e1 ← rd_end end_ 1
      pure (decide (e1 ≠ J2K_MARKER_EOC))
    else pure false)
  let f := if noEoc then gst_adapter_push f_adapter [J2K_MARKER, J2K_MARKER_EOC]
    else f_adapter
  let avail1 := if noEoc then add32 avail 2 else avail
  let outbuf ← gst_adapter_take_buffer f avail1
  pure (f, outbuf)

/-- Source function `gst_rtp_j2k_depay_flush_frame`. -/
def gst_rtp_j2k_depay_flush_frame (fuel : Nat) (d0 : GstRtpJ2KDepay) :
    Except Fault GstRtpJ2KDepay := do
  let d ← gst_rtp_j2k_depay_flush_tile fuel d0
  let avail := gst_adapter_available d.f_adapter % U32
  if avail = 0 then store_mheader d 0 none
  else do
    let d1 ← (if avail > 2 then do
        let (f, outbuf) ← flush_frame_outbuf d.f_adapter avail
        gst_rtp_base_depayload_push { d with f_adapter := f } outbuf
      else pure { d with f_adapter := gst_adapter_clear d.f_adapter })
    store_mheader { d1 with last_mh_id := U32 - 1, next_frag := 0, have_sync := false } 0 none

/-- A received RTP packet (`GstRTPBuffer`): the payload bytes of its buffer
and its marker flag `state`. -/
structure RtpPacket where
  payload : List Nat
  marker : Bool
  deriving DecidableEq, Repr

/-- Source function `gst_rtp_buffer_get_timestamp`: the simulation returns 0 for every packet. -/
def gst_rtp_buffer_get_timestamp (_rtp : RtpPacket) : Nat := 0

/-- The `switch (marker)` of `gst_rtp_j2k_depay_process` on the second byte of
the body of a packet that may start a unit. -/
def sync_switch (fuel : Nat) (d : GstRtpJ2KDepay) (marker tile : Nat) :
    Except Fault GstRtpJ2KDepay :=
  if marker = J2K_MARKER_SOC then do
    let d1 ← gst_rtp_j2k_depay_flush_frame fuel d
    pure { d1 with have_sync := true }
  else if marker = J2K_MARKER_SOT then do
    let d1 ← gst_rtp_j2k_depay_flush_tile fuel d
    pure { d1 with have_sync := true, last_tile := tile }
  else if marker = J2K_MARKER_SOP then do
    let d1 ← gst_rtp_j2k_depay_flush_pu fuel d
    if d1.last_tile ≠ tile then do
      let d2 ← (if d1.last_tile ≠ U32 - 1 then gst_rtp_j2k_depay_flush_tile fuel d1 else pure d1)
      pure { d2 with last_tile := U32 - 1, have_sync := false }
    else pure { d1 with have_sync := true }
  else pure d

/-- Source function `gst_rtp_j2k_depay_process`: the depayloader state after one packet. -/
def gst_rtp_j2k_depay_process (fuel : Nat) (d0 : GstRtpJ2KDepay) (rtp : RtpPacket) :
    Except Fault GstRtpJ2KDepay :=
  let payload := rtp.payload
  let payload_len := payload.length % U32
  if payload_len < HEADER_SIZE then pure d0
  else do
    let rtptime := gst_rtp_buffer_get_timestamp rtp
    let d1 ← (if d0.last_rtptime ≠ rtptime then
        gst_rtp_j2k_depay_flush_frame fuel { d0 with last_rtptime := rtptime }
      else pure d0)
    let MHF := parse_MHF payload
    let mh_id := parse_mh_id payload
    if d1.last_mh_id ≠ U32 - 1 ∧ d1.last_mh_id ≠ mh_id then
      pure (gst_rtp_j2k_depay_clear_pu d1)
    else do
      let d2 := if d1.last_mh_id = U32 - 1 then { d1 with last_mh_id := mh_id } else d1
      let tile := parse_tile payload
      let frag_offset := parse_frag_offset payload
      let j2klen := sub32 payload_len HEADER_SIZE
      let gap := sub32 frag_offset d2.next_frag
      let d3 := { d2 with next_frag := add32 frag_offset j2klen }
      let d4 := if gap ≠ 0 then gst_rtp_j2k_depay_clear_pu d3 else d3
      let d5 ← (if j2klen > 2 ∧ payload.getD HEADER_SIZE 0 = 0xff then
          sync_switch fuel d4 (payload.getD (HEADER_SIZE + 1) 0) tile
        else pure d4)
      let d6 ← (if d5.have_sync then do
          let d5a := if gst_adapter_available d5.pu_adapter = 0 then { d5 with pu_MHF := MHF }
            else d5
          let pu_frag := payload.drop HEADER_SIZE
          let d5b := { d5a with pu_adapter := gst_adapter_push d5a.pu_adapter pu_frag }
          if MHF &&& 2 ≠ 0 then gst_rtp_j2k_depay_flush_pu fuel d5b else pure d5b
        else pure d5)
      if rtp.marker then gst_rtp_j2k_depay_flush_frame fuel d6 else pure d6

/-- Feed a sequence of packets, in order, to a depayloader. -/
def depay_run (fuel : Nat) : GstRtpJ2KDepay → List RtpPacket → Except Fault GstRtpJ2KDepay
  | d, [] => pure d
  | d, rtp :: rest => do
    let d1 ← gst_rtp_j2k_depay_process fuel d rtp
    depay_run fuel d1 rest

/-- The bytes `sim_depayload` copies out after the last packet: the contents
of the PU adapter. -/
def sim_depayload_out (d : GstRtpJ2KDepay) : List Nat := d.pu_adapter.flatten

/-- The codestream bytes of a packet: what follows its 8-byte payload header. -/
def Packet.data (p : Packet) : List Nat := p.payload.drop HEADER_SIZE

/-- The constant fields and the ranges of the bit fields of a header record:
`tp = 0`, `mh_id = 0`, `priority = 255`, `MHF` two bits, `T` one bit, `tile`
sixteen bits. -/
def HdrOK (h : RtpJ2KHeader) : Prop :=
  h.tp = 0 ∧ h.MHF < 4 ∧ h.mh_id = 0 ∧ h.T < 2 ∧ h.priority = 255 ∧ h.tile < 65536

/-- Predicate `Cover data mtu o pkts L`: the packets `pkts` carry, one after the other,
the slices of `data` that start at `o` and end at `L`; every slice is
non-empty, fits the MTU together with its header (as long as the buffer
length plus the header size is below `2^32`), and the header of its packet
holds the 24-bit fragment offset of the slice. -/
def Cover (data : List Nat) (mtu : Nat) : Nat → List Packet → Nat → Prop
  | o, [], L => o = L
  | o, p :: ps, L =>
    ∃ h d, HdrOK h ∧ h.offset = o % 16777216 ∧ 0 < d ∧ (data.length + 8 < U32 → d + 8 ≤ mtu) ∧ o + d ≤ data.length ∧
      p.payload = header_bytes h ++ (data.drop o).take d ∧ Cover data mtu (o + d) ps L

/-- Predicate `Contiguous o pkts L`: read in list order, the fragment offsets in the
headers of `pkts` start at `o`, every packet carries at least one codestream
byte, the offset of each further packet is the offset of the packet before it
plus that packet's data length, and the last offset plus the last data length
is `L`. -/
def Contiguous : Nat → List Packet → Nat → Prop
  | o, [], L => o = L
  | o, p :: ps, L =>
    parse_frag_offset p.payload = o ∧ 0 < p.data.length ∧ Contiguous (o + p.data.length) ps L

/-- A small well-formed codestream: SOC, one 4-byte marker segment, one
tile-part (SOT with Lsot = 10, Isot = 0, Psot = 18, then SOD and four data
bytes) and EOC. -/
def sample_codestream : List Nat :=
  [0xFF, 0x4F, 0xFF, 0x51, 0, 4, 1, 2,
   0xFF, 0x90, 0, 10, 0, 0, 0, 0, 0, 18, 0, 1, 0xFF, 0x93, 1, 2, 3, 4, 0xFF, 0xD9]

/-- The packets emitted for `sample_codestream` with an MTU of 20. -/
def sample_packets : List Packet :=
  [ ⟨[49, 255, 0, 0, 0, 0, 0, 0, 255, 79, 255, 81, 0, 4, 1, 2], false⟩,
    ⟨[0, 255, 0, 0, 0, 0, 0, 8, 255, 144, 0, 10, 0, 0, 0, 0, 0, 18, 0, 1], false⟩,
    ⟨[1, 255, 0, 0, 0, 0, 0, 20, 255, 147, 1, 2, 3, 4, 255, 217], true⟩ ]

/-- The data size chosen by the emit loop for a unit of `pu_size` bytes. -/
def data_size_of (pu_size mtu : Nat) : Nat :=
  sub32 (if add32 pu_size HEADER_SIZE > mtu then mtu else add32 pu_size HEADER_SIZE) HEADER_SIZE

/-- A truncated codestream of 1520 bytes: SOC, one tile-part whose Psot (4096)
is more than what follows, SOD, a packet of 702 bytes that starts with SOP and
a packet of 802 bytes that starts with SOP. -/
def long_truncated : List Nat :=
  [0xFF, 0x4F, 0xFF, 0x90, 0, 10, 0, 0, 0, 0, 0x10, 0, 0, 1, 0xFF, 0x93] ++
    (([0xFF, 0x91] ++ List.replicate 700 7) ++ ([0xFF, 0x91] ++ List.replicate 800 9))

/-- The scanner state with the given header flags and scan fields. -/
def mk_state (MHF T tile off : Nat) (bitstream : Bool) (n_tiles next_sot : Nat)
    (force_packet : Bool) : RtpJ2KState :=
  ⟨⟨0, MHF, 0, T, 255, tile, off⟩, bitstream, n_tiles, next_sot, force_packet⟩

/-- A malformed buffer: an SOD marker that no SOT precedes, then a further
marker. -/
def stuck_codestream : List Nat := [0xFF, 0x93, 0, 0xFF, 0x55, 0]

/-- Hand a packet of the payloader to the depayloader, with its marker flag
(`keep = true`) or, as `sim_depayload` does, with the flag cleared. -/
def to_rtp (keep : Bool) (p : Packet) : RtpPacket := ⟨p.payload, keep && p.marker⟩

/-- The main header of `sample_codestream`. -/
def sample_header : List Nat := [0xFF, 0x4F, 0xFF, 0x51, 0, 4, 1, 2]

/-- The packets emitted for `sample_codestream` with the MTU 1500. -/
def sample_packets_1500 : List Packet :=
  [ ⟨[49, 255, 0, 0, 0, 0, 0, 0, 255, 79, 255, 81, 0, 4, 1, 2], false⟩,
    ⟨[0, 255, 0, 0, 0, 0, 0, 8, 255, 144, 0, 10, 0, 0, 0, 0, 0, 18, 0, 1,
      255, 147, 1, 2, 3, 4, 255, 217], true⟩ ]

/-- A well-formed codestream with two tile-parts of 18 bytes each (Psot = 18). -/
def two_tile_codestream : List Nat :=
  [0xFF, 0x4F, 0xFF, 0x51, 0, 4, 1, 2,
   0xFF, 0x90, 0, 10, 0, 0, 0, 0, 0, 18, 0, 2, 0xFF, 0x93, 1, 2, 3, 4,
   0xFF, 0x90, 0, 10, 0, 1, 0, 0, 0, 18, 0, 2, 0xFF, 0x93, 5, 6, 7, 8, 0xFF, 0xD9]

/-- The packets emitted for `two_tile_codestream` with the MTU 1500: the main
header, tile-part 0, and tile-part 1 with the trailing EOC. -/
def two_tile_packets : List Packet :=
  [ ⟨[49, 255, 0, 0, 0, 0, 0, 0, 255, 79, 255, 81, 0, 4, 1, 2], false⟩,
    ⟨[0, 255, 0, 0, 0, 0, 0, 8, 255, 144, 0, 10, 0, 0, 0, 0, 0, 18, 0, 2,
      255, 147, 1, 2, 3, 4], false⟩,
    ⟨[0, 255, 0, 1, 0, 0, 0, 26, 255, 144, 0, 10, 0, 1, 0, 0, 0, 18, 0, 2,
      255, 147, 5, 6, 7, 8, 255, 217], true⟩ ]

/-- The first and the third packet of `two_tile_packets` (the packet of
tile-part 0 is lost), the last one with the given marker flag. -/
def lossy_packets (marker : Bool) : List RtpPacket :=
  [ ⟨[49, 255, 0, 0, 0, 0, 0, 0, 255, 79, 255, 81, 0, 4, 1, 2], false⟩,
    ⟨[0, 255, 0, 1, 0, 0, 0, 26, 255, 144, 0, 10, 0, 1, 0, 0, 0, 18, 0, 2,
      255, 147, 5, 6, 7, 8, 255, 217], marker⟩ ]

/-- A packet with MHF = 3 and mh_id = 1 that carries a whole main header. -/
def header_packet_id1 : RtpPacket :=
  ⟨[51, 255, 0, 0, 0, 0, 0, 0, 0xFF, 0x4F, 0xFF, 0x51, 0, 4, 1, 2], false⟩

/-- A last packet of a frame with mh_id = 1, fragment offset 100 (so packets
before it were lost) and a 3-byte body that starts with SOT. -/
def short_tile_packet_id1 : RtpPacket := ⟨[3, 255, 0, 0, 0, 0, 0, 100, 0xFF, 0x90, 0], true⟩

/-- Predicate: a marker code that `find_pu_end` skips, segment and all, while
it parses headers (every code but SOC, SOT, SOD and EOC). -/
def skippable (m : Nat) : Bool :=
  m != J2K_MARKER_SOC && m != J2K_MARKER_SOT && m != J2K_MARKER_SOD && m != J2K_MARKER_EOC

/-- Predicate: from position `o` on, `data` holds the marker segments `segs`
(marker code and value of the length field of each), back to back, and they
end exactly at position `p`. -/
def seg_chain (data : List Nat) : Nat → Nat → List (Nat × Nat) → Bool
  | o, p, [] => decide (o = p)
  | o, p, (m, len) :: rest =>
    decide (data.get? o = some 255) && decide (data.get? (o + 1) = some m) && skippable m
      && (match gst_rtp_j2k_pay_header_size data (o + 2) with
          | Except.ok l => decide (l = len)
          | Except.error _ => false)
      && seg_chain data (o + 2 + len) p rest

/-- Predicate: a state a depayloader can be in, that is, the state of a fresh
depayloader after any number of calls of `gst_rtp_j2k_depay_process` that
returned. -/
inductive Reachable : GstRtpJ2KDepay → Prop
  | fresh : Reachable GstRtpJ2KDepay.new
  | step (fuel : Nat) (d : GstRtpJ2KDepay) (rtp : RtpPacket) (d1 : GstRtpJ2KDepay) :
      Reachable d → gst_rtp_j2k_depay_process fuel d rtp = Except.ok d1 → Reachable d1

/-! ## Sample depayloader states -/

/-- A state with a packetization unit pending behind a tile, an empty frame
adapter and no cached header. -/
def tile_without_header : GstRtpJ2KDepay :=
  { GstRtpJ2KDepay.new with
    last_mh_id := 1
    last_tile := 0
    pu_MHF := 0
    pu_adapter := [[255, 145, 0, 4, 0, 0, 7]]
    t_adapter := [[255, 144, 0, 10, 0, 0, 0, 0, 0, 0, 0, 1, 255, 147]]
    have_sync := true }

/-- The state `tile_without_header` after its pending unit was flushed. -/
def tile_without_header_flushed : GstRtpJ2KDepay :=
  { GstRtpJ2KDepay.new with
    last_mh_id := 1
    last_tile := 0
    pu_MHF := 0
    t_adapter := [[255, 144, 0, 10, 0, 0, 0, 0, 0, 0, 0, 1, 255, 147], [255, 145, 0, 4, 0, 0, 7]] }

/-- A state in the middle of a frame: header identifier 1 in use, a unit
pending, synchronized. -/
def mid_frame_state : GstRtpJ2KDepay :=
  { GstRtpJ2KDepay.new with
    last_rtptime := 0
    last_mh_id := 1
    pu_adapter := [[255, 79, 0]]
    have_sync := true }

/-! ## Sample codestreams with a malformed SOT segment -/

/-- A marker segment of four bytes followed by an SOT marker whose length
field is 4. -/
def bad_sot_codestream : List Nat := [255, 82, 0, 2, 255, 144, 0, 4, 1, 2]

/-! ## Sample packets for the depayloader -/

/-- The packet `short_tile_packet_id1` without the marker flag. -/
def short_tile_packet_unmarked : RtpPacket := ⟨short_tile_packet_id1.payload, false⟩

/-- A packet with MHF = 0 and mh_id = 1 whose 12-byte body starts with SOC,
not with SOT; its fragment offset is 100. -/
def soc_body_packet : RtpPacket :=
  ⟨[2, 255, 0, 0, 0, 0, 0, 100, 0xFF, 0x4F, 1, 2, 3, 4, 5, 6, 7, 8, 9, 10], false⟩

/-- The state reached from a fresh depayloader by `header_packet_id1` and
`short_tile_packet_unmarked`: a header cached for mh_id = 1 and a 3-byte unit
pending. -/
def short_tile_state : GstRtpJ2KDepay :=
  { GstRtpJ2KDepay.new with
    last_rtptime := 0
    last_mh_id := 1
    last_tile := 0
    MH := [none, some sample_header, none, none, none, none, none, none]
    pu_MHF := 0
    pu_adapter := [[0xFF, 0x90, 0]]
    next_frag := 103
    have_sync := true }

/-- The state `short_tile_state` after its pending unit was moved to the tile
adapter. -/
def short_tile_state_flushed : GstRtpJ2KDepay :=
  { GstRtpJ2KDepay.new with
    last_rtptime := 0
    last_mh_id := 1
    last_tile := 0
    MH := [none, some sample_header, none, none, none, none, none, none]
    pu_MHF := 0
    t_adapter := [[0xFF, 0x90, 0]]
    next_frag := 103 }

/-- The second fragment of a unit: fragment offset 111, four body bytes. -/
def late_fragment (body : List Nat) : RtpPacket := ⟨[2, 255, 0, 0, 0, 0, 0, 111] ++ body, false⟩

/-- The first fragment of a unit: fragment offset 103, MHF = 0, tile 0. -/
def early_fragment (body : List Nat) : RtpPacket := ⟨[2, 255, 0, 0, 0, 0, 0, 103] ++ body, false⟩

/-- The packet that follows the two fragments in the stream: fragment offset
115, a body that starts with SOP, marker flag set. -/
def next_unit_packet : RtpPacket :=
  ⟨[2, 255, 0, 0, 0, 0, 0, 115, 0xFF, 0x91, 0, 4, 0, 1, 7], true⟩

/-- The state reached from `short_tile_state` by the fragment at offset 111
followed by the fragment at offset 103 with the body `FF 91 00 04 00 00 05 05`:
only that body is pending. -/
def swapped_state : GstRtpJ2KDepay :=
  { short_tile_state with
    pu_adapter := [[0xFF, 0x91, 0, 4, 0, 0, 5, 5]]
    next_frag := 111 }

/-- SOC followed by an SOT marker whose length field is 4, and two more
bytes: 8 bytes. -/
def soc_bad_sot : List Nat := [0xFF, 0x4F, 0xFF, 0x90, 0, 4, 1, 2]

/-- SOC followed by an SOT marker whose length field is 4, and 1600 more
bytes: 1606 bytes. -/
def bad_sot_long : List Nat := [0xFF, 0x4F, 0xFF, 0x90, 0, 4] ++ List.replicate 1600 0

/-- The first 22 bytes of `scenario1_codestream`: SOC, one marker segment of
six bytes, SOT (Lsot = 10, Isot = 0, Psot = 1190) at position 8, and SOD. -/
def scenario1_head : List Nat :=
  [0xFF, 0x4F, 0xFF, 0x51, 0, 4, 1, 2, 0xFF, 0x90, 0, 10, 0, 0, 0, 0, 4, 166, 0, 1,
    0xFF, 0x93]

/-- A codestream of 1200 bytes with one tile-part: `scenario1_head`, a
bitstream of 1176 bytes `07` and EOC. -/
def scenario1_codestream : List Nat :=
  scenario1_head ++ (List.replicate 1176 7 ++ [0xFF, 0xD9])

/-! ## Sample inputs for the header cache and the adapters -/

/-- A state with headers cached in the slots 0, 1 and 2, header identifier 1
in use, four bytes in the frame adapter, and one list in the vector
`bufferLists`, so that `gst_rtp_base_depayload_push` returns. -/
def cached_headers_state : GstRtpJ2KDepay :=
  { GstRtpJ2KDepay.new with
    last_rtptime := 0
    last_mh_id := 1
    MH := [some [0xFF, 0x4F, 0], some sample_header, some [0xFF, 0x4F, 9], none, none, none,
      none, none]
    f_adapter := [[0xFF, 0x4F, 1, 2]]
    next_frag := 30
    bufferLists := [[]] }

/-- The state `cached_headers_state` after `gst_rtp_j2k_depay_flush_frame`. -/
def cached_headers_flushed : GstRtpJ2KDepay :=
  { cached_headers_state with
    last_mh_id := U32 - 1
    MH := [none, some sample_header, some [0xFF, 0x4F, 9], none, none, none, none, none]
    next_frag := 0 }

/-- A state with a main header of two buffers pending in the PU adapter. -/
def header_pending_state : GstRtpJ2KDepay :=
  { GstRtpJ2KDepay.new with
    last_rtptime := 0
    last_mh_id := 1
    pu_MHF := 3
    pu_adapter := [[0xFF, 0x4F, 0xFF, 0x51], [0, 4, 1, 2]]
    have_sync := true }

/-- The only packet of a frame with mh_id = 1: fragment offset 8, a body of 22
bytes that holds a tile-part (SOT with Isot = 0 and Psot = 20, SOD, four data
bytes) and EOC, marker flag set. -/
def tile_packet_id1 : RtpPacket :=
  ⟨[2, 255, 0, 0, 0, 0, 0, 8, 0xFF, 0x90, 0, 10, 0, 0, 0, 0, 0, 20, 0, 1, 0xFF, 0x93,
    5, 6, 7, 8, 0xFF, 0xD9], true⟩

/-- The state between two frames as it would be with a drained frame adapter:
the header `sample_header` is cached in the slot 1, every adapter is empty. -/
def header_cached_state : GstRtpJ2KDepay :=
  { GstRtpJ2KDepay.new with
    last_rtptime := 0
    MH := [none, some sample_header, none, none, none, none, none, none]
    pu_MHF := 0
    next_frag := 0 }

/-- A codestream of 40 bytes: SOC, one tile-part (SOT with Isot = 0 and
Psot = 36 at 2, SOD at 14) whose bitstream holds three units that start with
SOP, of 8, 8 and 6 bytes at 16, 24 and 32, and EOC at 38. -/
def forced_split_codestream : List Nat :=
  [0xFF, 0x4F,
   0xFF, 0x90, 0, 10, 0, 0, 0, 0, 0, 36, 0, 1, 0xFF, 0x93,
   0xFF, 0x91, 0, 4, 0, 0, 1, 2,
   0xFF, 0x91, 0, 4, 0, 1, 3, 4,
   0xFF, 0x91, 0, 4, 0, 2,
   0xFF, 0xD9]

/-- A codestream of 50 bytes: SOC, one tile-part (SOT with Isot = 0 and
Psot = 46 at 2, SOD at 14) whose bitstream holds four units of 8 bytes that
start with SOP, at 16, 24, 32 and 40, and EOC at 48. -/
def rollback_codestream : List Nat :=
  [0xFF, 0x4F,
   0xFF, 0x90, 0, 10, 0, 0, 0, 0, 0, 46, 0, 1, 0xFF, 0x93,
   0xFF, 0x91, 0, 4, 0, 0, 1, 2,
   0xFF, 0x91, 0, 4, 0, 1, 3, 4,
   0xFF, 0x91, 0, 4, 0, 2, 5, 6,
   0xFF, 0x91, 0, 4, 0, 3, 7, 8,
   0xFF, 0xD9]

/-! ## Codestreams with tile-parts -/

/-- Whether the byte at position `i` of `data` is `b`. -/
def byte_at (data : List Nat) (i b : Nat) : Bool := decide (data.get? i = some b)

/-- Whether no EOC marker (the bytes `FF D9`) starts at a position of
`[lo, hi)`. -/
def no_eoc_in (data : List Nat) (lo hi : Nat) : Bool :=
  (List.range' lo (hi - lo)).all
    (fun q => !(byte_at data q 255 && byte_at data (q + 1) J2K_MARKER_EOC))

/-- The layout of one tile-part of a codestream: the position `s` of its SOT
marker, the fields Isot, Lsot and Psot of the SOT segment, the marker segments
(marker, length) between the SOT segment and SOD, and the position `d` of the
SOD marker. -/
structure TilePart where
  s : Nat
  isot : Nat
  lsot : Nat
  psot : Nat
  segs : List (Nat × Nat)
  d : Nat
  deriving DecidableEq, Repr

/-- Whether `data` holds the tile-part `t`: the SOT marker at `t.s`, the
fields of the SOT segment as recorded (Lsot at least 8, Isot a 16-bit value),
marker segments that lead from the end of the SOT segment exactly to the SOD
marker at `t.d`, and a bitstream from `t.d + 2` up to `t.s + t.psot` in which
no EOC marker starts. -/
def tile_part_ok (data : List Nat) (t : TilePart) : Bool :=
  byte_at data t.s 255 && byte_at data (t.s + 1) J2K_MARKER_SOT
    && (match gst_rtp_j2k_pay_header_size data (t.s + 2) with
        | Except.ok l => decide (l = t.lsot)
        | Except.error _ => false)
    && decide (8 ≤ t.lsot)
    && (match GST_READ_UINT16_BE data (t.s + 2 + 2) with
        | Except.ok v => decide (v = t.isot)
        | Except.error _ => false)
    && decide (t.isot < 65536)
    && (match GST_READ_UINT32_BE data (t.s + 2 + 4) with
        | Except.ok v => decide (v = t.psot)
        | Except.error _ => false)
    && seg_chain data (t.s + 2 + t.lsot) t.d t.segs
    && byte_at data t.d 255 && byte_at data (t.d + 1) J2K_MARKER_SOD
    && decide (t.d + 2 ≤ t.s + t.psot)
    && no_eoc_in data (t.d + 2) (t.s + t.psot)

/-- Whether the tile-parts `ts` follow one another in `data` from position `o`
on, each ending where its Psot says, with the EOC marker as the last two bytes
of the buffer behind the last of them. -/
def tiles_ok (data : List Nat) : Nat → List TilePart → Bool
  | o, [] =>
    byte_at data o 255 && byte_at data (o + 1) J2K_MARKER_EOC && decide (o + 2 = data.length)
  | o, t :: ts => decide (t.s = o) && tile_part_ok data t && tiles_ok data (t.s + t.psot) ts

/-- Whether `data` is a codestream with the main header `[0, p)` (SOC and the
marker segments `segs`) followed by the tile-parts `tiles`, at least one, and
EOC. -/
def valid_codestream (data : List Nat) (p : Nat) (segs : List (Nat × Nat))
    (tiles : List TilePart) : Bool :=
  byte_at data 0 255 && byte_at data 1 J2K_MARKER_SOC && seg_chain data 2 p segs
    && !tiles.isEmpty && tiles_ok data p tiles

/-- Predicate `TileStart data mtu o pkts t`: among the packets `pkts`, which carry a
range of `data` that starts at `o`, one begins at the SOT marker of the
tile-part `t`: the packets before it carry exactly `[o, t.s)`, and it carries
`d` bytes from `t.s` on, at least two, behind a header with MHF = 0, T = 0, the
tile number `t.isot` and the fragment offset `t.s` reduced to 24 bits. -/
def TileStart (data : List Nat) (mtu o : Nat) (pkts : List Packet) (t : TilePart) : Prop :=
  ∃ pre mkr post d, 2 ≤ d ∧ Cover data mtu o pre t.s ∧
    pkts = pre ++ ⟨header_bytes ⟨0, 0, 0, 0, 255, t.isot, t.s % 16777216⟩
      ++ (data.drop t.s).take d, mkr⟩ :: post

/-! ## Sample codestreams with two tile-parts -/

/-- A tile-part of 800 bytes: SOT with the given Isot and Psot = 800, SOD, and
786 bitstream bytes `07`. -/
def tile_800 (isot : Nat) : List Nat :=
  [0xFF, 0x90, 0, 10, 0, isot, 0, 0, 3, 32, 0, 2, 0xFF, 0x93] ++ List.replicate 786 7

/-- A codestream of 1802 bytes: a main header of 200 bytes (SOC and one marker
segment of 198 bytes), tile-part 0 at 200 and tile-part 1 at 1000, both with
Psot = 800, and EOC at 1800. -/
def two_tiles_800 : List Nat :=
  [0xFF, 0x4F, 0xFF, 0x51, 0, 196] ++ List.replicate 194 0 ++ tile_800 0 ++ tile_800 1
    ++ [0xFF, 0xD9]

/-- The layout of the two tile-parts of `two_tiles_800`. -/
def two_tiles_800_layout : List TilePart :=
  [⟨200, 0, 10, 800, [], 212⟩, ⟨1000, 1, 10, 800, [], 1012⟩]

/-- The layout of the two tile-parts of `two_tile_codestream`. -/
def two_tile_layout : List TilePart :=
  [⟨8, 0, 10, 18, [], 20⟩, ⟨26, 1, 10, 18, [], 38⟩]

/-- The first 16 bytes of `wide_codestream`: SOC, the SOT segment of tile-part
0 (Isot = 0, Psot = 2^24 + 14) and SOD. -/
def wide_head : List Nat :=
  [0xFF, 0x4F, 0xFF, 0x90, 0, 10, 0, 0, 1, 0, 0, 14, 0, 2, 0xFF, 0x93]

/-- The last 16 bytes of `wide_codestream`: tile-part 1 (SOT with Isot = 1 and
Psot = 14, SOD, no bitstream) and EOC. -/
def wide_tail : List Nat :=
  [0xFF, 0x90, 0, 10, 0, 1, 0, 0, 0, 14, 0, 2, 0xFF, 0x93, 0xFF, 0xD9]

/-- A codestream of `2^24 + 32` bytes with two tile-parts: the bitstream of
tile-part 0 is `2^24` zero bytes, the SOT marker of tile-part 1 is at
`2^24 + 16`. -/
def wide_codestream : List Nat := wide_head ++ List.replicate 16777216 0 ++ wide_tail

/-- The layout of the two tile-parts of `wide_codestream`. -/
def wide_layout : List TilePart :=
  [⟨2, 0, 10, 16777230, [], 14⟩, ⟨16777232, 1, 10, 14, [], 16777244⟩]

/-- The first 214 bytes of `two_tiles_800`: the main header and the SOT segment
and SOD of tile-part 0. -/
def head_800 : List Nat :=
  [0xFF, 0x4F, 0xFF, 0x51, 0, 196] ++ List.replicate 194 0
    ++ [0xFF, 0x90, 0, 10, 0, 0, 0, 0, 3, 32, 0, 2, 0xFF, 0x93]

/-! ## Sample inputs: fragmented main header, flushes of several buffers -/

/-- A codestream of 36 bytes with a main header of 16 bytes (SOC and one
marker segment of 14 bytes), one tile-part (SOT with Isot = 0 and Psot = 18 at
16, SOD, four data bytes) and EOC. -/
def long_header_codestream : List Nat :=
  [0xFF, 0x4F, 0xFF, 0x51, 0, 12, 1, 2, 3, 4, 5, 6, 7, 8, 9, 10,
   0xFF, 0x90, 0, 10, 0, 0, 0, 0, 0, 18, 0, 1, 0xFF, 0x93, 1, 2, 3, 4, 0xFF, 0xD9]

/-- Two packets with mh_id = 1 and MHF = 0 that carry one packetization unit in
two fragments: 14 bytes from the fragment offset 0 that begin with SOT, and 4
more bytes from the fragment offset 14. -/
def two_fragment_unit : List RtpPacket :=
  [ ⟨[2, 255, 0, 0, 0, 0, 0, 0, 0xFF, 0x90, 0, 10, 0, 0, 0, 0, 0, 0, 0, 1, 0xFF, 0x93], false⟩,
    ⟨[2, 255, 0, 0, 0, 0, 0, 14, 1, 2, 3, 4], false⟩ ]

/-- A tile-part of 489 bytes in one buffer: SOT with Isot = 0 and Psot = 500,
SOD, 473 data bytes, and the EOC marker as its last two bytes. -/
def tile_489 : List Nat :=
  [0xFF, 0x90, 0, 10, 0, 0, 0, 0, 1, 244, 0, 1, 0xFF, 0x93] ++ List.replicate 473 7
    ++ [0xFF, 0xD9]

/-- A state with the header `sample_header` in the frame adapter and the tile
`tile_489` in the tile adapter. -/
def tile_489_state : GstRtpJ2KDepay :=
  { GstRtpJ2KDepay.new with
    last_rtptime := 0
    last_mh_id := 1
    last_tile := 0
    pu_MHF := 0
    t_adapter := [tile_489]
    f_adapter := [sample_header]
    next_frag := 497 }

/-- A state with a tile of two buffers in the tile adapter, a tile-part header
with Psot = 0 followed by two data bytes, and the header `sample_header` in the
frame adapter. -/
def two_buffer_tile_state : GstRtpJ2KDepay :=
  { GstRtpJ2KDepay.new with
    last_rtptime := 0
    last_mh_id := 1
    last_tile := 0
    pu_MHF := 0
    t_adapter := [[0xFF, 0x90, 0, 10, 0, 0, 0, 0, 0, 0, 0, 1, 0xFF, 0x93], [1, 2]]
    f_adapter := [sample_header]
    next_frag := 24 }

/-- A codestream whose SOT segment holds Psot = 1: SOC, SOT, SOD, one unit of
four bytes that starts with SOP, and EOC. -/
def bad_psot_codestream : List Nat :=
  [0xFF, 0x4F, 0xFF, 0x90, 0, 10, 0, 0, 0, 0, 0, 1, 0, 1, 0xFF, 0x93,
   0xFF, 0x91, 0, 0, 0xFF, 0xD9]

/-- A first packet of a tile-part with mh_id = 1, MHF = 0, T = 0 and the tile
number 1: fragment offset 0 and a body of 14 bytes, the SOT segment with
Isot = 1 and SOD. -/
def sot_packet_tile1 : RtpPacket :=
  ⟨[2, 255, 0, 1, 0, 0, 0, 0, 0xFF, 0x90, 0, 10, 0, 1, 0, 0, 0, 0, 0, 1, 0xFF, 0x93], false⟩

/-- The header of a packet with tp = 0, MHF = 0, mh_id = 1, T = 1, priority
255, the given tile number (below 256) and the fragment offset 14. -/
def sop_header_T1 (tile : Nat) : List Nat := [3, 255, 0, tile, 0, 0, 0, 14]

/-- A body of 6 bytes that begins with the SOP marker. -/
def sop_body : List Nat := [0xFF, 0x91, 0, 4, 0, 0]

/-- A packet with T = 1 and the given tile number whose body, at the fragment
offset 14, begins with SOP. -/
def sop_packet_T1 (tile : Nat) : RtpPacket := ⟨sop_header_T1 tile ++ sop_body, false⟩

/-- The state of a fresh depayloader after `sot_packet_tile1`. -/
def sot_tile1_state : GstRtpJ2KDepay :=
  { GstRtpJ2KDepay.new with
    last_rtptime := 0
    last_mh_id := 1
    last_tile := 1
    pu_MHF := 0
    pu_adapter := [[0xFF, 0x90, 0, 10, 0, 1, 0, 0, 0, 0, 0, 1, 0xFF, 0x93]]
    next_frag := 14
    have_sync := true }

/-- A codestream whose comment segment (marker `FF 64`, length 6) holds the
bytes `FF 90 FF 93`: SOC, the comment, one tile-part (SOT at 10 with Isot = 0
and Psot = 18, SOD, four data bytes) and EOC. -/
def comment_codestream (payload : List Nat) : List Nat :=
  [0xFF, 0x4F, 0xFF, 0x64, 0, 6] ++ payload ++
    [0xFF, 0x90, 0, 10, 0, 0, 0, 0, 0, 18, 0, 1, 0xFF, 0x93, 1, 2, 3, 4, 0xFF, 0xD9]

/-- A scanner state in bitstream mode with `next_sot = 2`, as after a
tile-part header whose Psot points at offset 2. -/
def bitstream_state_sot2 : RtpJ2KState :=
  RtpJ2KState.mk (RtpJ2KHeader.mk 0 0 0 1 255 0 0) true 1 2 false

/-! ## Sample inputs: deliveries, tiles in several packets, SOP packets -/

/-- A depayloader as constructed, except that its vector `bufferLists` holds
one empty list, so that `gst_rtp_base_depayload_push` returns. -/
def depay_with_list : GstRtpJ2KDepay := { GstRtpJ2KDepay.new with bufferLists := [[]] }

/-- A packet without the marker flag, with mh_id = 1 and the fragment offset
103, whose 3-byte body starts with SOC: it follows `short_tile_packet_unmarked`
without a gap. -/
def soc_packet_103 : RtpPacket := ⟨[2, 255, 0, 0, 0, 0, 0, 103, 0xFF, 0x4F, 0], false⟩

/-- The first packet of a tile-part sent in two packets (mh_id = 1, fragment
offset 8): the SOT segment with Isot = 0 and Psot = 20, and SOD. -/
def tile_fragment_1 : RtpPacket :=
  ⟨[2, 255, 0, 0, 0, 0, 0, 8, 0xFF, 0x90, 0, 10, 0, 0, 0, 0, 0, 20, 0, 1, 0xFF, 0x93], false⟩

/-- The second packet of that tile-part (fragment offset 22): four data bytes
and EOC. -/
def tile_fragment_2 : RtpPacket := ⟨[2, 255, 0, 0, 0, 0, 0, 22, 5, 6, 7, 8, 0xFF, 0xD9], false⟩

/-- A codestream of 58 bytes: SOC, one marker segment, tile-part 0 (Isot = 0,
Psot = 18, four data bytes), tile-part 1 (Isot = 1, Psot = 30) whose bitstream
holds two packets that begin with an SOP segment, and EOC. -/
def sop_tile_codestream : List Nat :=
  [0xFF, 0x4F, 0xFF, 0x51, 0, 4, 1, 2,
   0xFF, 0x90, 0, 10, 0, 0, 0, 0, 0, 18, 0, 2, 0xFF, 0x93, 1, 2, 3, 4,
   0xFF, 0x90, 0, 10, 0, 1, 0, 0, 0, 30, 0, 2, 0xFF, 0x93,
   0xFF, 0x91, 0, 4, 0, 0, 5, 6, 0xFF, 0x91, 0, 4, 0, 1, 7, 8, 0xFF, 0xD9]

/-- The layout of the two tile-parts of `sop_tile_codestream`. -/
def sop_tile_layout : List TilePart :=
  [⟨8, 0, 10, 18, [], 20⟩, ⟨26, 1, 10, 30, [], 38⟩]

/-- The packets emitted for `sop_tile_codestream` with the MTU 1500: the main
header, tile-part 0, the header of tile-part 1 up to SOD, and the rest from
the first SOP marker on, with T = 1 and the tile number 0. -/
def sop_tile_packets : List Packet :=
  [ ⟨[49, 255, 0, 0, 0, 0, 0, 0, 255, 79, 255, 81, 0, 4, 1, 2], false⟩,
    ⟨[0, 255, 0, 0, 0, 0, 0, 8, 255, 144, 0, 10, 0, 0, 0, 0, 0, 18, 0, 2,
      255, 147, 1, 2, 3, 4], false⟩,
    ⟨[0, 255, 0, 1, 0, 0, 0, 26, 255, 144, 0, 10, 0, 1, 0, 0, 0, 30, 0, 2, 255, 147], false⟩,
    ⟨[1, 255, 0, 0, 0, 0, 0, 40, 255, 145, 0, 4, 0, 0, 5, 6, 255, 145, 0, 4, 0, 1, 7, 8,
      255, 217], true⟩ ]

/-! ## The header record behind every packet -/

/-- The loop of `emit_loop`, with one addition: next to every packet it
records the header record from which the eight header bytes of the packet are
written, that is `state.header` with the MHF of the pass. -/
def emit_loop_headers : Nat → List Nat → Nat → Nat → Nat → Nat → Bool → RtpJ2KState →
    List (RtpJ2KHeader × Packet) → Except Fault (RtpJ2KState × List (RtpJ2KHeader × Packet))
  | 0, _, _, _, _, _, _, _, _ => throw Fault.fuel
  | fuel + 1, data, mtu, end_, pu_size, offset, rtp_marker, state, list =>
    if pu_size = 0 then pure (state, list)
    else do
      let packet_size0 := add32 pu_size HEADER_SIZE
      let packet_size := if packet_size0 > mtu then mtu else packet_size0
      let payload_size := packet_size
      let data_size := sub32 payload_size HEADER_SIZE
      let pu_size1 := sub32 pu_size data_size
      let MHF1 :=
        if pu_size1 = 0 ∧ state.header.MHF ≠ 0 then (if offset = 0 then 3 else 2)
        else state.header.MHF
      let rtp_marker1 := if pu_size1 = 0 ∧ end_ ≥ data.length then true else rtp_marker
      let hdr := header_bytes { state.header with MHF := MHF1 }
      let paybuf := gst_buffer_copy_region data offset data_size
      let outbuf ← gst_buffer_append hdr data paybuf
      let offset1 := add32 offset data_size
      let state1 := { state with
        header := { state.header with MHF := 0, T := 1, tile := 0, offset := offset1 % 16777216 } }
      emit_loop_headers fuel data mtu end_ pu_size1 offset1 rtp_marker1 state1
        (list ++ [({ state.header with MHF := MHF1 }, { payload := outbuf, marker := rtp_marker1 })])

/-- The loop of `outer_loop` over `emit_loop_headers`. -/
def outer_loop_headers : Nat → List Nat → Nat → Nat → Nat → Nat → Nat → RtpJ2KState →
    List (RtpJ2KHeader × Packet) → Except Fault (List (RtpJ2KHeader × Packet))
  | 0, _, _, _, _, _, _, _, _ => throw Fault.fuel
  | fuel + 1, data, mtu, max_size, offset, pos, end_, state, list => do
    let (pu_size, pos1, end1, state1) ← pack_loop (fuel + 1) data max_size offset pos end_ state
    let (state2, list1) ←
      emit_loop_headers (fuel + 1) data mtu end1 pu_size offset false state1 list
    let offset1 := pos1
    if offset1 < data.length then
      outer_loop_headers fuel data mtu max_size offset1 pos1 end1 state2 list1
    else pure list1

/-- The run of `gst_rtp_j2k_pay_handle_buffer` with the header record of every
packet recorded next to it. -/
def gst_rtp_j2k_pay_handle_buffer_headers (fuel : Nat) (data : List Nat) (mtu : Nat) :
    Except Fault (List (RtpJ2KHeader × Packet)) :=
  let max_size := sub32 mtu HEADER_SIZE
  if max_size = 0 then throw Fault.undefined
  else outer_loop_headers fuel data mtu max_size 0 0 0 initial_state []

/-- Predicate `RecordOK x`: what is recorded for a packet is a header record
with the constant fields and the ranges of the bit fields (the fragment
offset 24 bits), and a packet that begins with the eight bytes written from
it. -/
def RecordOK (x : RtpJ2KHeader × Packet) : Prop :=
  HdrOK x.1 ∧ x.1.offset < 16777216 ∧ x.2.payload.take 8 = header_bytes x.1

/-- A codestream of 20 bytes whose only tile-part has the tile number
Isot = 258 = 0x0102 (SOT at 2 with Psot = 16, SOD, two data bytes), then EOC. -/
def tile_258_codestream : List Nat :=
  [0xFF, 0x4F, 0xFF, 0x90, 0, 10, 1, 2, 0, 0, 0, 16, 0, 1, 0xFF, 0x93, 5, 6, 0xFF, 0xD9]

/-- The packets emitted for `tile_258_codestream` with the MTU 1500. -/
def tile_258_packets : List Packet :=
  [ ⟨[49, 255, 0, 0, 0, 0, 0, 0, 255, 79], false⟩,
    ⟨[0, 255, 1, 2, 0, 0, 0, 2, 255, 144, 0, 10, 1, 2, 0, 0, 0, 16, 0, 1, 255, 147, 5, 6,
      255, 217], true⟩ ]

/-! # Theorems -/

/-! ## Arithmetic and monad helpers -/

theorem sub32_of_le {a b : Nat} (h : b ≤ a) (ha : a < U32) : sub32 a b = a - b := by
  unfold sub32 U32 at *; omega

theorem add32_of_lt {a b : Nat} (h : a + b < U32) : add32 a b = a + b := by
  unfold add32 U32 at *; omega

theorem bind_ok_iff {α β : Type} (x : Except Fault α) (f : α → Except Fault β) (b : β) :
    (x >>= f) = Except.ok b ↔ ∃ a, x = Except.ok a ∧ f a = Except.ok b := by
  cases x with
  | error e => simp [bind, Except.bind]
  | ok a => simp [bind, Except.bind]

theorem pure_ok_iff {α : Type} (a b : α) :
    (pure a : Except Fault α) = Except.ok b ↔ a = b := by
  simp [pure, Except.pure]

theorem throw_ne_ok {α : Type} (e : Fault) (b : α) :
    (throw e : Except Fault α) = Except.ok b ↔ False := by
  simp [throw, throwThe, MonadExceptOf.throw]

/-! ## The marker scanner -/

theorem scan_loop_bound (fuel : Nat) (data : List Nat) (size : Nat) (hs : size < U32) :
    ∀ offset o, offset < size → scan_loop fuel data size offset = Except.ok o →
      offset < o ∧ o ≤ size := by
  induction fuel with
  | zero => intro offset o _ h; simp [scan_loop, throw_ne_ok] at h
  | succ n ih =>
    intro offset o ho h
    rw [scan_loop, bind_ok_iff] at h
    obtain ⟨b, -, h⟩ := h
    have h1 : add32 offset 1 = offset + 1 := add32_of_lt (by omega)
    rw [h1] at h
    dsimp only at h
    split at h
    · rename_i hc
      have := ih _ _ hc.2 h
      omega
    · rw [pure_ok_iff] at h
      omega

theorem scan_marker_bound (fuel : Nat) (data : List Nat) (size offset m o : Nat)
    (hs : size < U32) (ho : offset < size)
    (h : gst_rtp_j2k_pay_scan_marker fuel data size offset = Except.ok (m, o)) :
    offset < o ∧ o ≤ size ∧ (m ≠ J2K_MARKER_EOC → offset + 2 ≤ o) := by
  rw [gst_rtp_j2k_pay_scan_marker, bind_ok_iff] at h
  obtain ⟨o1, h1, h⟩ := h
  have hb := scan_loop_bound fuel data size hs offset o1 ho h1
  split at h
  · rw [pure_ok_iff] at h
    simp only [Prod.mk.injEq] at h
    obtain ⟨rfl, rfl⟩ := h
    exact ⟨hb.1, hb.2, fun hne => absurd rfl hne⟩
  · rename_i hlt
    rw [bind_ok_iff] at h
    obtain ⟨mk, -, h⟩ := h
    rw [pure_ok_iff] at h
    simp only [Prod.mk.injEq] at h
    obtain ⟨rfl, rfl⟩ := h
    have h2 : add32 o1 1 = o1 + 1 := add32_of_lt (by omega)
    rw [h2]
    omega

/-! ## The packetization-unit scanner -/

theorem find_pu_end_loop_spec (fuel : Nat) (data : List Nat) (size : Nat) (hs : size < U32) :
    ∀ offset cut_sop st e st', HdrOK st.header →
      find_pu_end_loop fuel data size offset cut_sop st = Except.ok (e, st') →
      e ≤ size ∧ HdrOK st'.header ∧ st'.header.offset = st.header.offset := by
  induction fuel with
  | zero => intro offset c st e st' _ h; simp [find_pu_end_loop, throw_ne_ok] at h
  | succ n ih =>
    intro offset c st e st' hh h
    rw [find_pu_end_loop] at h
    split at h
    · rw [pure_ok_iff] at h
      simp only [Prod.mk.injEq] at h
      obtain ⟨rfl, rfl⟩ := h
      exact ⟨le_refl _, hh, rfl⟩
    · rename_i hlt
      simp only [not_not] at hlt
      rw [bind_ok_iff] at h
      obtain ⟨⟨m, o⟩, hsm, h⟩ := h
      have hb := scan_marker_bound _ _ _ _ _ _ hs hlt hsm
      dsimp only at h
      have retn : ∀ (x : Nat) (s1 : RtpJ2KState),
          (pure (x, s1) : Except Fault (Nat × RtpJ2KState)) = Except.ok (e, st') →
          x ≤ size → HdrOK s1.header → s1.header.offset = st.header.offset →
          e ≤ size ∧ HdrOK st'.header ∧ st'.header.offset = st.header.offset := by
        intro x s1 hp hx h1 h2
        rw [pure_ok_iff] at hp
        simp only [Prod.mk.injEq] at hp
        obtain ⟨rfl, rfl⟩ := hp
        exact ⟨hx, h1, h2⟩
      have recu : ∀ (x : Nat) (c1 : Bool) (s1 : RtpJ2KState),
          find_pu_end_loop n data size x c1 s1 = Except.ok (e, st') →
          HdrOK s1.header → s1.header.offset = st.header.offset →
          e ≤ size ∧ HdrOK st'.header ∧ st'.header.offset = st.header.offset := by
        intro x c1 s1 hp h1 h2
        have := ih x c1 s1 e st' h1 hp
        exact ⟨this.1, this.2.1, this.2.2.trans h2⟩
      have hSOP : J2K_MARKER_SOP ≠ J2K_MARKER_EOC := by decide
      have hSOT : J2K_MARKER_SOT ≠ J2K_MARKER_EOC := by decide
      have hsub : m ≠ J2K_MARKER_EOC → sub32 o 2 ≤ size := by
        intro hm
        have := hb.2.2 hm
        rw [sub32_of_le (by omega) (by omega)]
        omega
      split at h
      · split at h
        · rename_i hm
          split at h
          · exact retn _ _ h (hsub (hm ▸ hSOP)) hh rfl
          · exact recu _ _ _ h hh rfl
        · split at h
          · exact recu _ _ _ h hh rfl
          · split at h
            · rename_i hge
              split at h
              · rename_i hc
                exact retn _ _ h hc.2 hh rfl
              · exact retn _ _ h (by omega) hh rfl
            · exact recu _ _ _ h hh rfl
      · split at h
        · refine recu _ _ _ h ?_ rfl
          unfold HdrOK at *
          simp only
          omega
        · split at h
          · rename_i hm
            split at h
            · exact retn _ _ h (hsub (hm ▸ hSOT)) hh rfl
            · rw [bind_ok_iff] at h
              obtain ⟨len, -, h⟩ := h
              split at h
              · exact retn _ _ h (le_refl _) hh rfl
              · split at h
                · exact retn _ _ h (le_refl _) hh rfl
                · rw [bind_ok_iff] at h
                  obtain ⟨tile, -, h⟩ := h
                  rw [bind_ok_iff] at h
                  obtain ⟨Psot, -, h⟩ := h
                  refine recu _ _ _ h ?_ rfl
                  unfold HdrOK at *
                  simp only
                  have : tile % 65536 < 65536 := Nat.mod_lt _ (by norm_num)
                  split <;> omega
          · split at h
            · exact recu _ _ _ h hh rfl
            · split at h
              · exact retn _ _ h hb.2.1 hh rfl
              · rw [bind_ok_iff] at h
                obtain ⟨len, -, h⟩ := h
                exact recu _ _ _ h hh rfl

theorem find_pu_end_spec (fuel : Nat) (data : List Nat) (size : Nat) (hs : size < U32)
    (offset : Nat) (st : RtpJ2KState) (e : Nat) (st' : RtpJ2KState) (hh : HdrOK st.header)
    (h : find_pu_end fuel data size offset st = Except.ok (e, st')) :
    e ≤ size ∧ HdrOK st'.header ∧ st'.header.offset = st.header.offset :=
  find_pu_end_loop_spec fuel data size hs offset false st e st' hh h

/-! ## The packing loop -/

theorem pack_loop_spec (fuel : Nat) (data : List Nat) (max_size offset : Nat)
    (hs : data.length < U32) :
    ∀ pos end_ st pu pos' end' st', pos ≤ data.length → end_ ≤ data.length →
      HdrOK st.header →
      pack_loop fuel data max_size offset pos end_ st = Except.ok (pu, pos', end', st') →
      pu = sub32 pos' offset ∧ pos' ≤ data.length ∧ end' ≤ data.length ∧
        HdrOK st'.header ∧ st'.header.offset = st.header.offset := by
  induction fuel with
  | zero => intro pos e st pu pos' end' st' _ _ _ h; simp [pack_loop, throw_ne_ok] at h
  | succ n ih =>
    intro pos e st pu pos' end' st' hp he hh h
    rw [pack_loop] at h
    dsimp only at h
    split at h
    · rw [pure_ok_iff] at h
      simp only [Prod.mk.injEq] at h
      obtain ⟨rfl, rfl, rfl, rfl⟩ := h
      exact ⟨rfl, he, he, hh, rfl⟩
    · split at h
      · split at h
        · rw [pure_ok_iff] at h
          simp only [Prod.mk.injEq] at h
          obtain ⟨rfl, rfl, rfl, rfl⟩ := h
          exact ⟨rfl, hp, he, hh, rfl⟩
        · rw [pure_ok_iff] at h
          simp only [Prod.mk.injEq] at h
          obtain ⟨rfl, rfl, rfl, rfl⟩ := h
          exact ⟨rfl, he, he, hh, rfl⟩
      · split at h
        · rw [pure_ok_iff] at h
          simp only [Prod.mk.injEq] at h
          obtain ⟨rfl, rfl, rfl, rfl⟩ := h
          exact ⟨rfl, he, he, hh, rfl⟩
        · rw [bind_ok_iff] at h
          obtain ⟨⟨e1, s1⟩, hf, h⟩ := h
          dsimp only at h
          have hmod : data.length % U32 = data.length := Nat.mod_eq_of_lt hs
          rw [hmod] at hf
          have hf' := find_pu_end_spec _ _ _ hs _ _ _ _ hh hf
          have := ih e e1 s1 pu pos' end' st' he hf'.1 hf'.2.1 h
          exact ⟨this.1, this.2.1, this.2.2.1, this.2.2.2.1, this.2.2.2.2.trans hf'.2.2⟩

/-! ## The emit loop -/

theorem data_size_cases (pu mtu : Nat) (hpu : pu < U32) (h0 : 0 < pu) (hm : 8 < mtu) :
    (sub32 (if add32 pu HEADER_SIZE > mtu then mtu else add32 pu HEADER_SIZE) HEADER_SIZE = pu ∧
        ¬ add32 pu HEADER_SIZE > mtu ∧ (pu + 8 < U32 → pu + 8 ≤ mtu)) ∨
      (sub32 (if add32 pu HEADER_SIZE > mtu then mtu else add32 pu HEADER_SIZE) HEADER_SIZE
          = mtu - 8 ∧ add32 pu HEADER_SIZE > mtu ∧ mtu - 8 < pu) := by
  unfold sub32 add32 HEADER_SIZE U32 at *
  split <;> omega

theorem Cover_nil (data : List Nat) (mtu o : Nat) : Cover data mtu o [] o := rfl

theorem Cover_append (data : List Nat) (mtu : Nat) :
    ∀ (a b : List Packet) (o m L : Nat), Cover data mtu o a m → Cover data mtu m b L →
      Cover data mtu o (a ++ b) L := by
  intro a
  induction a with
  | nil => intro b o m L h1 h2; simp only [Cover] at h1; subst h1; simpa using h2
  | cons p ps ih =>
    intro b o m L h1 h2
    obtain ⟨h, d, hh, ho, hd, hm, hl, hp, hc⟩ := h1
    exact ⟨h, d, hh, ho, hd, hm, hl, hp, ih b _ _ _ hc h2⟩

theorem emit_loop_good (fuel : Nat) (data : List Nat) (mtu end_ : Nat) (hm : 8 < mtu)
    (hs : data.length < U32) :
    ∀ pu offset mk st list st' list', offset + pu ≤ data.length → HdrOK st.header →
      st.header.offset = offset % 16777216 →
      emit_loop fuel data mtu end_ pu offset mk st list = Except.ok (st', list') →
      ∃ new, list' = list ++ new ∧ Cover data mtu offset new (offset + pu) ∧
        HdrOK st'.header ∧ st'.header.offset = (offset + pu) % 16777216 := by
  induction fuel with
  | zero => intro pu offset mk st list st' list' _ _ _ h; simp [emit_loop, throw_ne_ok] at h
  | succ n ih =>
    intro pu offset mk st list st' list' hle hh hoff h
    rw [emit_loop] at h
    split at h
    · rename_i hz
      rw [pure_ok_iff] at h
      simp only [Prod.mk.injEq] at h
      obtain ⟨rfl, rfl⟩ := h
      subst hz
      exact ⟨[], by simp, Cover_nil _ _ _, hh, hoff⟩
    · rename_i hz
      dsimp only at h
      have hpu : pu < U32 := by omega
      have hcases := data_size_cases pu mtu hpu (Nat.pos_of_ne_zero hz) hm
      generalize hd : sub32 (if add32 pu HEADER_SIZE > mtu then mtu else add32 pu HEADER_SIZE)
        HEADER_SIZE = d at h hcases
      have hdle : d ≤ pu ∧ 0 < d ∧ (data.length + 8 < U32 → d + 8 ≤ mtu) := by
        rcases hcases with ⟨h1, _, h2⟩ | ⟨h1, _, h2⟩
        · subst h1; exact ⟨le_refl _, Nat.pos_of_ne_zero hz, fun hx => h2 (by omega)⟩
        · subst h1; exact ⟨by omega, by omega, fun _ => by omega⟩
      rw [bind_ok_iff] at h
      obtain ⟨outbuf, hout, h⟩ := h
      have hcr : gst_buffer_copy_region data offset d = some (offset, d) := by
        unfold gst_buffer_copy_region
        rw [if_neg (by omega), Nat.min_eq_left (by omega)]
      rw [hcr, gst_buffer_append] at hout
      rw [if_pos (by omega), pure_ok_iff] at hout
      have ha : add32 offset d = offset + d := add32_of_lt (by omega)
      have hsb : sub32 pu d = pu - d := sub32_of_le hdle.1 hpu
      rw [ha, hsb] at h
      have hh1 : HdrOK (RtpJ2KHeader.mk st.header.tp 0 st.header.mh_id 1 st.header.priority 0
          ((offset + d) % 16777216)) := by
        unfold HdrOK at *
        simp only
        omega
      obtain ⟨new, hnew, hcov, hh', ho'⟩ := ih _ _ _ _ _ _ _ (by omega) hh1 rfl h
      have he : offset + d + (pu - d) = offset + pu := by omega
      rw [he] at hcov ho'
      refine ⟨⟨outbuf, if pu - d = 0 ∧ end_ ≥ data.length then true else mk⟩ :: new,
        ?_, ?_, hh', ho'⟩
      · rw [hnew]; simp
      · refine ⟨RtpJ2KHeader.mk st.header.tp
          (if sub32 pu d = 0 ∧ st.header.MHF ≠ 0 then (if offset = 0 then 3 else 2)
            else st.header.MHF)
          st.header.mh_id st.header.T st.header.priority st.header.tile st.header.offset,
          d, ?_, hoff, hdle.2.1, hdle.2.2, by omega, hout.symm, hcov⟩
        unfold HdrOK at *
        simp only
        split
        · split <;> omega
        · omega

theorem emit_loop_bad (fuel : Nat) (data : List Nat) (mtu end_ : Nat) (hm : 8 < mtu)
    (hs : data.length < U32) :
    ∀ pu offset mk st list r, 0 < offset → offset ≤ data.length → data.length < offset + pu →
      pu < U32 → emit_loop fuel data mtu end_ pu offset mk st list ≠ Except.ok r := by
  induction fuel with
  | zero => intro pu offset mk st list r _ _ _ _ h; simp [emit_loop, throw_ne_ok] at h
  | succ n ih =>
    intro pu offset mk st list r h0 hle hgt hpu h
    rw [emit_loop] at h
    split at h
    · omega
    · rename_i hz
      dsimp only at h
      have hcases := data_size_cases pu mtu hpu (Nat.pos_of_ne_zero hz) hm
      generalize hd : sub32 (if add32 pu HEADER_SIZE > mtu then mtu else add32 pu HEADER_SIZE)
        HEADER_SIZE = d at h hcases
      rw [bind_ok_iff] at h
      obtain ⟨outbuf, hout, h⟩ := h
      have hcr : gst_buffer_copy_region data offset d = some (offset, min d data.length) := by
        unfold gst_buffer_copy_region
        rw [if_neg (by omega)]
      rw [hcr, gst_buffer_append] at hout
      split at hout
      · rename_i hin
        have hdl : d ≤ data.length := by
          rcases Nat.le_total d data.length with h1 | h1
          · exact h1
          · rw [Nat.min_eq_right h1] at hin; omega
        rw [Nat.min_eq_left hdl] at hin
        rcases hcases with ⟨h1, _, _⟩ | ⟨h1, _, h2⟩
        · omega
        · have ha : add32 offset d = offset + d := add32_of_lt (by omega)
          have hsb : sub32 pu d = pu - d := sub32_of_le (by omega) hpu
          rw [ha, hsb] at h
          exact ih _ _ _ _ _ _ (by omega) hin (by omega) (by omega) h
      · rw [throw_ne_ok] at hout
        exact hout

/-! ## The outer loop -/

theorem outer_loop_spec (fuel : Nat) (data : List Nat) (mtu max_size : Nat) (hm : 8 < mtu)
    (hs : data.length < U32) :
    ∀ offset pos end_ st list pkts, offset ≤ data.length → pos ≤ data.length →
      end_ ≤ data.length → HdrOK st.header → st.header.offset = offset % 16777216 →
      outer_loop fuel data mtu max_size offset pos end_ st list = Except.ok pkts →
      ∃ new, pkts = list ++ new ∧ Cover data mtu offset new data.length := by
  induction fuel with
  | zero => intro offset pos e st list pkts _ _ _ _ _ h; simp [outer_loop, throw_ne_ok] at h
  | succ n ih =>
    intro offset pos e st list pkts ho hp he hh hoff h
    rw [outer_loop, bind_ok_iff] at h
    obtain ⟨⟨pu, pos1, end1, st1⟩, hpack, h⟩ := h
    dsimp only at h
    rw [bind_ok_iff] at h
    obtain ⟨⟨st2, list1⟩, hemit, h⟩ := h
    dsimp only at h
    obtain ⟨hpu, hp1, he1, hh1, ho1⟩ := pack_loop_spec _ _ _ _ hs _ _ _ _ _ _ _ hp he hh hpack
    rcases Nat.lt_or_ge pos1 offset with hlt | hge
    · exfalso
      have hw : pu = pos1 + U32 - offset := by
        rw [hpu]; unfold sub32 U32 at *; omega
      exact emit_loop_bad _ _ _ _ hm hs _ _ _ _ _ _ (by omega) ho (by omega) (by omega) hemit
    · have hw : pu = pos1 - offset := by rw [hpu]; exact sub32_of_le hge (by omega)
      obtain ⟨new1, hl1, hc1, hh2, ho2⟩ :=
        emit_loop_good _ _ _ _ hm hs _ _ _ _ _ _ _ (by omega) hh1 (ho1.trans hoff) hemit
      have hsum : offset + pu = pos1 := by omega
      rw [hsum] at hc1 ho2
      split at h
      · obtain ⟨new2, hl2, hc2⟩ := ih _ _ _ _ _ _ hp1 hp1 he1 hh2 ho2 h
        refine ⟨new1 ++ new2, ?_, Cover_append _ _ _ _ _ _ _ hc1 hc2⟩
        rw [hl2, hl1, List.append_assoc]
      · rw [pure_ok_iff] at h
        subst h
        have : pos1 = data.length := by omega
        rw [this] at hc1
        exact ⟨new1, hl1, hc1⟩

theorem initial_state_HdrOK : HdrOK initial_state.header := by
  unfold HdrOK initial_state; simp

theorem handle_buffer_cover (fuel : Nat) (data : List Nat) (mtu : Nat) (pkts : List Packet)
    (hm : 8 < mtu) (hs : data.length < U32)
    (h : gst_rtp_j2k_pay_handle_buffer fuel data mtu = Except.ok pkts) :
    Cover data mtu 0 pkts data.length := by
  unfold gst_rtp_j2k_pay_handle_buffer at h
  dsimp only at h
  split at h
  · rw [throw_ne_ok] at h; exact h.elim
  · obtain ⟨new, hn, hc⟩ := outer_loop_spec _ _ _ _ hm hs _ _ _ _ _ _ (Nat.zero_le _)
      (Nat.zero_le _) (Nat.zero_le _) initial_state_HdrOK rfl h
    simp only [List.nil_append] at hn
    rw [hn]; exact hc

/-! ## Byte packing -/

theorem or_shift (a b i : Nat) (h : b < 2 ^ i) : (a <<< i) ||| b = a * 2 ^ i + b := by
  rw [Nat.shiftLeft_eq, Nat.mul_comm, ← Nat.mul_add_lt_is_or h]

theorem or2 (x y : Nat) (hy : y < 256) : (x <<< 8) ||| y = x * 256 + y := by
  have := or_shift x y 8 (by omega); simpa using this

theorem or3 (x y z : Nat) (hy : y < 256) (hz : z < 256) :
    (x <<< 16) ||| (y <<< 8) ||| z = x * 65536 + y * 256 + z := by
  have h1 : y <<< 8 = y * 256 := by rw [Nat.shiftLeft_eq]
  have h2 : (x <<< 16) ||| (y <<< 8) = x * 65536 + y * 256 := by
    rw [h1]; have := or_shift x (y * 256) 16 (by omega); simpa using this
  rw [h2]
  have h3 : x * 65536 + y * 256 = (x * 256 + y) <<< 8 := by rw [Nat.shiftLeft_eq]; ring
  rw [h3, or2 _ _ hz]; omega

theorem and_ff (x : Nat) : x &&& 0xff = x % 256 := by
  have := Nat.and_pow_two_sub_one_eq_mod x 8; simpa using this

theorem header_bytes_length (h : RtpJ2KHeader) : (header_bytes h).length = 8 := rfl

theorem parse_frag_offset_header (h : RtpJ2KHeader) (rest : List Nat) :
    parse_frag_offset (header_bytes h ++ rest) = h.offset % 16777216 := by
  unfold parse_frag_offset header_bytes
  simp only [List.cons_append, List.getD_cons_succ, List.getD_cons_zero]
  rw [or3 _ _ _ (Nat.mod_lt _ (by norm_num)) (Nat.mod_lt _ (by norm_num)), and_ff, and_ff,
    Nat.shiftRight_eq_div_pow, Nat.shiftRight_eq_div_pow]
  omega

theorem data_header_append (h : RtpJ2KHeader) (rest : List Nat) (m : Bool) :
    Packet.data ⟨header_bytes h ++ rest, m⟩ = rest := by
  unfold Packet.data HEADER_SIZE
  exact List.drop_left' (header_bytes_length h)

/-! ## Consequences of `Cover` -/

theorem Cover_le (data : List Nat) (mtu : Nat) :
    ∀ (pkts : List Packet) (o L : Nat), Cover data mtu o pkts L → o ≤ L := by
  intro pkts
  induction pkts with
  | nil => intro o L h; simp only [Cover] at h; omega
  | cons p ps ih =>
    intro o L h
    obtain ⟨_, d, _, _, _, _, _, _, hc⟩ := h
    have := ih _ _ hc
    omega

theorem Cover_flatten (data : List Nat) (mtu : Nat) :
    ∀ (pkts : List Packet) (o L : Nat), Cover data mtu o pkts L →
      (pkts.map Packet.data).flatten = (data.drop o).take (L - o) := by
  intro pkts
  induction pkts with
  | nil => intro o L h; simp only [Cover] at h; subst h; simp
  | cons p ps ih =>
    intro o L h
    obtain ⟨hd, d, _, _, _, _, hl, hp, hc⟩ := h
    have hle := Cover_le _ _ _ _ _ hc
    have e1 : Packet.data p = (data.drop o).take d := by
      cases p with
      | mk payload marker =>
        simp only at hp
        subst hp
        exact data_header_append _ _ _
    rw [List.map_cons, List.flatten_cons, ih _ _ hc, e1]
    have e2 : L - o = d + (L - (o + d)) := by omega
    rw [e2, List.take_add, List.drop_drop]

theorem Cover_contiguous (data : List Nat) (mtu : Nat) :
    ∀ (pkts : List Packet) (o L : Nat), L ≤ 16777216 → Cover data mtu o pkts L →
      Contiguous o pkts L := by
  intro pkts
  induction pkts with
  | nil => intro o L _ h; exact h
  | cons p ps ih =>
    intro o L hL h
    obtain ⟨hd, d, _, ho, hd0, _, hl, hp, hc⟩ := h
    have hle := Cover_le _ _ _ _ _ hc
    cases p with
    | mk payload marker =>
      simp only at hp
      subst hp
      have hlen : (Packet.data ⟨header_bytes hd ++ (data.drop o).take d, marker⟩).length = d := by
        rw [data_header_append]
        simp only [List.length_take, List.length_drop]
        omega
      refine ⟨?_, ?_, ?_⟩
      · rw [parse_frag_offset_header, ho]
        omega
      · rw [hlen]; exact hd0
      · rw [hlen]; exact ih _ _ hL hc

theorem Contiguous_bounds :
    ∀ (pkts : List Packet) (o L : Nat), Contiguous o pkts L →
      o ≤ L ∧ ∀ p ∈ pkts, o ≤ parse_frag_offset p.payload ∧ parse_frag_offset p.payload < L := by
  intro pkts
  induction pkts with
  | nil => intro o L h; simp only [Contiguous] at h; subst h; simp
  | cons q qs ih =>
    intro o L h
    obtain ⟨h1, h2, h3⟩ := h
    have := ih _ _ h3
    refine ⟨by omega, ?_⟩
    intro p hp
    rcases List.mem_cons.mp hp with rfl | hp'
    · omega
    · have := this.2 p hp'
      omega

theorem Contiguous_pairwise :
    ∀ (pkts : List Packet) (o L : Nat), Contiguous o pkts L →
      (pkts.map (fun p => parse_frag_offset p.payload)).Pairwise (· < ·) := by
  intro pkts
  induction pkts with
  | nil => intro o L _; simp
  | cons q qs ih =>
    intro o L h
    obtain ⟨h1, h2, h3⟩ := h
    rw [List.map_cons, List.pairwise_cons]
    refine ⟨?_, ih _ _ h3⟩
    intro x hx
    obtain ⟨p, hp, rfl⟩ := List.mem_map.mp hx
    have := (Contiguous_bounds _ _ _ h3).2 p hp
    omega

/-! ## The payloader: claims -/

/-- C2: whenever the payloader returns its packet list (MTU above the header
size, buffer length a `guint`), the data parts of the packets, concatenated in
list order, are exactly the input codestream. -/
theorem payload_data_concat (fuel : Nat) (data : List Nat) (mtu : Nat) (pkts : List Packet)
    (hm : 8 < mtu) (hs : data.length < U32)
    (h : gst_rtp_j2k_pay_handle_buffer fuel data mtu = Except.ok pkts) :
    (pkts.map Packet.data).flatten = data := by
  have hc := handle_buffer_cover fuel data mtu pkts hm hs h
  rw [Cover_flatten _ _ _ _ _ hc]
  simp

theorem payload_data_concat_witness :
    (sample_packets.map Packet.data).flatten = sample_codestream :=
  payload_data_concat 40 sample_codestream 20 sample_packets (by decide) (by decide) (by rfl)

/-- C3 (amended): for a non-empty codestream of length `L ≤ 2^24` on which the
payloader returns (MTU above the header size), the list is non-empty and the
fragment offsets in the packet headers, read in list order, start at 0, are
strictly increasing, each is the previous offset plus the previous data
length, and the last offset plus the last data length is `L`. -/
theorem frag_offsets_contiguous (fuel : Nat) (data : List Nat) (mtu : Nat)
    (pkts : List Packet) (hm : 8 < mtu) (hne : data ≠ []) (hL : data.length ≤ 16777216)
    (h : gst_rtp_j2k_pay_handle_buffer fuel data mtu = Except.ok pkts) :
    pkts ≠ [] ∧ Contiguous 0 pkts data.length ∧
      (pkts.map (fun p => parse_frag_offset p.payload)).Pairwise (· < ·) := by
  have hs : data.length < U32 := by unfold U32; omega
  have hc := handle_buffer_cover fuel data mtu pkts hm hs h
  have hk := Cover_contiguous _ _ _ _ _ hL hc
  refine ⟨?_, hk, Contiguous_pairwise _ _ _ hk⟩
  rintro rfl
  simp only [Contiguous] at hk
  exact hne (List.length_eq_zero.mp hk.symm)

theorem frag_offsets_contiguous_witness :
    sample_packets ≠ [] ∧ Contiguous 0 sample_packets sample_codestream.length ∧
      (sample_packets.map (fun p => parse_frag_offset p.payload)).Pairwise (· < ·) :=
  frag_offsets_contiguous 40 sample_codestream 20 sample_packets (by decide) (by decide)
    (by decide) (by rfl)

theorem rd_replicate (n i : Nat) (h : i < n) : rd (List.replicate n 0) i = Except.ok 0 := by
  unfold rd
  rw [List.get?_eq_getElem?, List.getElem?_replicate, if_pos h]
  rfl

theorem scan_loop_zeros (n : Nat) (hn : n < U32) :
    ∀ fuel offset, offset < n → n ≤ offset + fuel →
      scan_loop fuel (List.replicate n 0) n offset = Except.ok n := by
  intro fuel
  induction fuel with
  | zero => intro offset h1 h2; omega
  | succ k ih =>
    intro offset h1 h2
    rw [scan_loop, rd_replicate n offset h1]
    have ha : add32 offset 1 = offset + 1 := add32_of_lt (by omega)
    show (if (0 : Nat) ≠ J2K_MARKER ∧ add32 offset 1 < n
      then scan_loop k (List.replicate n 0) n (add32 offset 1)
      else pure (add32 offset 1)) = Except.ok n
    rw [ha]
    by_cases hlt : offset + 1 < n
    · rw [if_pos ⟨by decide, hlt⟩]
      exact ih _ hlt (by omega)
    · rw [if_neg (fun hc => hlt hc.2)]
      have : offset + 1 = n := by omega
      rw [this]; rfl

theorem scan_marker_zeros (n fuel : Nat) (hn : n < U32) (h0 : 0 < n) (hf : n ≤ fuel) :
    gst_rtp_j2k_pay_scan_marker fuel (List.replicate n 0) n 0 = Except.ok (J2K_MARKER_EOC, n) := by
  unfold gst_rtp_j2k_pay_scan_marker
  rw [scan_loop_zeros n hn fuel 0 h0 (by omega)]
  show (if n ≥ n then pure (J2K_MARKER_EOC, n) else _) = _
  rw [if_pos (le_refl n)]
  rfl

theorem find_pu_end_zeros (n fuel : Nat) (hn : n < U32) (h0 : 0 < n) (hf : n ≤ fuel)
    (st : RtpJ2KState) (hb : st.bitstream = false) :
    find_pu_end (fuel + 1) (List.replicate n 0) n 0 st = Except.ok (n, st) := by
  unfold find_pu_end
  rw [find_pu_end_loop, if_neg (by omega), scan_marker_zeros n (fuel + 1) hn h0 (by omega)]
  show (if st.bitstream = true then _ else _) = _
  rw [if_neg (by simp [hb])]
  rw [if_neg (by decide), if_neg (by decide), if_neg (by decide), if_pos rfl]
  rfl

theorem sub32_zero (a : Nat) (h : a < U32) : sub32 a 0 = a := by
  unfold sub32 U32 at *; omega

theorem ok_bind {α β : Type} (a : α) (f : α → Except Fault β) :
    ((Except.ok a : Except Fault α) >>= f) = f a := rfl

theorem emit_loop_step (fuel : Nat) (data : List Nat) (mtu end_ pu offset : Nat) (mk : Bool)
    (st : RtpJ2KState) (list : List Packet) (hpu : pu ≠ 0)
    (hin : offset + data_size_of pu mtu ≤ data.length) :
    emit_loop (fuel + 1) data mtu end_ pu offset mk st list =
      emit_loop fuel data mtu end_ (sub32 pu (data_size_of pu mtu))
        (add32 offset (data_size_of pu mtu))
        (if sub32 pu (data_size_of pu mtu) = 0 ∧ end_ ≥ data.length then true else mk)
        (RtpJ2KState.mk
          (RtpJ2KHeader.mk st.header.tp 0 st.header.mh_id 1 st.header.priority 0
            (add32 offset (data_size_of pu mtu) % 16777216))
          st.bitstream st.n_tiles st.next_sot st.force_packet)
        (list ++ [⟨header_bytes (RtpJ2KHeader.mk st.header.tp
              (if sub32 pu (data_size_of pu mtu) = 0 ∧ st.header.MHF ≠ 0
                then (if offset = 0 then 3 else 2) else st.header.MHF)
              st.header.mh_id st.header.T st.header.priority st.header.tile st.header.offset)
            ++ (data.drop offset).take (data_size_of pu mtu),
          if sub32 pu (data_size_of pu mtu) = 0 ∧ end_ ≥ data.length then true else mk⟩]) := by
  rw [emit_loop, if_neg hpu]
  unfold data_size_of at hin ⊢
  dsimp only
  generalize sub32 (if add32 pu HEADER_SIZE > mtu then mtu else add32 pu HEADER_SIZE)
    HEADER_SIZE = d at hin ⊢
  simp only [gst_buffer_copy_region, gst_buffer_append]
  rw [if_neg (by omega), Nat.min_eq_left (by omega)]
  simp only [if_pos hin]
  rw [pure_bind]

theorem pack_loop_zeros (n m fuel : Nat) (hn : n < U32) (hm : m < n) (hf : n ≤ fuel) :
    pack_loop (fuel + 2) (List.replicate n 0) m 0 0 0 initial_state
      = Except.ok (n, n, n, initial_state) := by
  have hlen : (List.replicate n 0).length = n := List.length_replicate n 0
  rw [pack_loop]
  simp only [hlen, Nat.mod_eq_of_lt hn]
  rw [sub32_zero 0 (by unfold U32; omega)]
  rw [if_neg (by decide), if_neg (by omega), if_neg (by omega),
    find_pu_end_zeros n (fuel + 1) hn (by omega) (by omega) initial_state rfl, ok_bind]
  dsimp only
  rw [pack_loop]
  simp only [hlen]
  rw [sub32_zero n hn, if_neg (by decide), if_pos hm, if_neg (by simp)]
  rfl

theorem emit_loop_total (data : List Nat) (mtu end_ : Nat) (hm : 8 < mtu)
    (hs : data.length < U32) :
    ∀ fuel pu offset mk st list, offset + pu ≤ data.length → pu < fuel →
      ∃ r, emit_loop fuel data mtu end_ pu offset mk st list = Except.ok r := by
  intro fuel
  induction fuel with
  | zero => intro pu offset mk st list _ h; omega
  | succ n ih =>
    intro pu offset mk st list hle hf
    by_cases hz : pu = 0
    · subst hz
      exact ⟨_, by rw [emit_loop, if_pos rfl]; rfl⟩
    · have hpu : pu < U32 := by omega
      have hc := data_size_cases pu mtu hpu (Nat.pos_of_ne_zero hz) hm
      have hd : data_size_of pu mtu ≤ pu ∧ 0 < data_size_of pu mtu := by
        unfold data_size_of
        rcases hc with ⟨h1, _, _⟩ | ⟨h1, _, h2⟩
        · rw [h1]; omega
        · rw [h1]; omega
      rw [emit_loop_step _ _ _ _ _ _ _ _ _ hz (by omega)]
      have e1 : sub32 pu (data_size_of pu mtu) = pu - data_size_of pu mtu :=
        sub32_of_le hd.1 hpu
      have e2 : add32 offset (data_size_of pu mtu) = offset + data_size_of pu mtu :=
        add32_of_lt (by omega)
      rw [e1, e2]
      exact ih _ _ _ _ _ (by omega) (by omega)

theorem handle_buffer_zeros_ok (n m fuel : Nat) (hn : n < U32) (h0 : 0 < m) (hm : m < n)
    (hf : n < fuel) :
    ∃ pkts, gst_rtp_j2k_pay_handle_buffer (fuel + 3) (List.replicate n 0) (m + 8)
      = Except.ok pkts := by
  have hlen : (List.replicate n 0).length = n := List.length_replicate n 0
  have e2 : sub32 (m + 8) HEADER_SIZE = m := by unfold sub32 HEADER_SIZE U32 at *; omega
  obtain ⟨r, hr⟩ := emit_loop_total (List.replicate n 0) (m + 8) n (by omega)
    (by rw [hlen]; exact hn) (fuel + 3) n 0 false initial_state [] (by rw [hlen]; omega)
    (by omega)
  refine ⟨r.2, ?_⟩
  unfold gst_rtp_j2k_pay_handle_buffer
  simp only [e2]
  rw [if_neg (by omega), outer_loop,
    pack_loop_zeros n m (fuel + 1) (by omega) hm (by omega), ok_bind]
  dsimp only
  rw [hr, ok_bind]
  rw [hlen, if_neg (by omega)]
  rfl

/-! ## The header codec -/

theorem byte0_cases : ∀ tp < 4, ∀ MHF < 4, ∀ mh_id < 8, ∀ T < 2,
    let b0 := ((tp <<< 6) ||| (MHF <<< 4) ||| (mh_id <<< 1) ||| T) % 256
    b0 = 64 * tp + 16 * MHF + 2 * mh_id + T ∧
      (b0 &&& 0x30) >>> 4 = MHF ∧ (b0 &&& 0xe) >>> 1 = mh_id ∧ b0 &&& 1 = T := by
  decide

theorem tile_bytes (tile : Nat) (h : tile < 65536) :
    (tile >>> 8) % 256 = tile / 256 ∧ (tile &&& 0xff) % 256 = tile % 256 := by
  rw [and_ff, Nat.shiftRight_eq_div_pow]
  omega

theorem offset_bytes (off : Nat) (h : off < 16777216) :
    (off >>> 16) % 256 = off / 65536 ∧ ((off >>> 8) &&& 0xff) % 256 = off / 256 % 256 ∧
      (off &&& 0xff) % 256 = off % 256 := by
  rw [and_ff, and_ff, Nat.shiftRight_eq_div_pow, Nat.shiftRight_eq_div_pow]
  omega

theorem parse_tile_header (h : RtpJ2KHeader) (rest : List Nat) :
    parse_tile (header_bytes h ++ rest) = h.tile % 65536 := by
  unfold parse_tile header_bytes
  simp only [List.cons_append, List.getD_cons_succ, List.getD_cons_zero]
  rw [or2 _ _ (Nat.mod_lt _ (by norm_num)), and_ff, Nat.shiftRight_eq_div_pow]
  omega

/-- C7: for header fields in range (MHF two bits, mh_id three bits, T one bit,
tile sixteen bits, fragment offset twenty-four bits) the header parse of the
depayloader, applied to a payload that starts with the eight bytes the
payloader writes for these fields, returns the same MHF, mh_id, tile and
fragment offset. -/
theorem header_codec_roundtrip (h : RtpJ2KHeader) (rest : List Nat) (htp : h.tp < 4)
    (hM : h.MHF < 4) (hid : h.mh_id < 8) (hT : h.T < 2) (ht : h.tile < 65536)
    (ho : h.offset < 16777216) :
    parse_MHF (header_bytes h ++ rest) = h.MHF ∧
      parse_mh_id (header_bytes h ++ rest) = h.mh_id ∧
      parse_tile (header_bytes h ++ rest) = h.tile ∧
      parse_frag_offset (header_bytes h ++ rest) = h.offset := by
  have hb := byte0_cases h.tp htp h.MHF hM h.mh_id hid h.T hT
  refine ⟨hb.2.1, hb.2.2.1, ?_, ?_⟩
  · rw [parse_tile_header, Nat.mod_eq_of_lt ht]
  · rw [parse_frag_offset_header, Nat.mod_eq_of_lt ho]

theorem header_codec_roundtrip_witness :
    parse_MHF (header_bytes ⟨0, 3, 5, 1, 255, 513, 66051⟩ ++ [255, 79]) = 3 ∧
      parse_mh_id (header_bytes ⟨0, 3, 5, 1, 255, 513, 66051⟩ ++ [255, 79]) = 5 ∧
      parse_tile (header_bytes ⟨0, 3, 5, 1, 255, 513, 66051⟩ ++ [255, 79]) = 513 ∧
      parse_frag_offset (header_bytes ⟨0, 3, 5, 1, 255, 513, 66051⟩ ++ [255, 79]) = 66051 :=
  header_codec_roundtrip ⟨0, 3, 5, 1, 255, 513, 66051⟩ [255, 79] (by decide) (by decide)
    (by decide) (by decide) (by decide) (by decide)

theorem header_bytes_layout (h : RtpJ2KHeader) (hh : HdrOK h) (ho : h.offset < 16777216) :
    header_bytes h = [16 * h.MHF + h.T, 255, h.tile / 256, h.tile % 256, 0,
      h.offset / 65536, h.offset / 256 % 256, h.offset % 256] := by
  obtain ⟨h1, h2, h3, h4, h5, h6⟩ := hh
  have hb := (byte0_cases h.tp (by omega) h.MHF h2 h.mh_id (by omega) h.T h4).1
  have ht := tile_bytes h.tile h6
  have hf := offset_bytes h.offset ho
  unfold header_bytes
  rw [hb, ht.1, ht.2, hf.1, hf.2.1, hf.2.2, h1, h3, h5]
  simp

theorem Cover_layout (data : List Nat) (mtu : Nat) :
    ∀ (pre : List Packet) (p : Packet) (post : List Packet) (o L : Nat),
      Cover data mtu o (pre ++ p :: post) L →
      ∃ MHF T tile, MHF < 4 ∧ T < 2 ∧ tile < 65536 ∧
        p.payload.take 8 = [16 * MHF + T, 255, tile / 256, tile % 256, 0,
          (o + (pre.map (fun q => q.data.length)).sum) % 16777216 / 65536,
          (o + (pre.map (fun q => q.data.length)).sum) % 16777216 / 256 % 256,
          (o + (pre.map (fun q => q.data.length)).sum) % 16777216 % 256] := by
  intro pre
  induction pre with
  | nil =>
    intro p post o L h
    obtain ⟨hd, d, hh, ho, _, _, _, hp, _⟩ := h
    refine ⟨hd.MHF, hd.T, hd.tile, hh.2.1, hh.2.2.2.1, hh.2.2.2.2.2, ?_⟩
    have ho' : hd.offset < 16777216 := by rw [ho]; exact Nat.mod_lt _ (by norm_num)
    rw [hp, List.take_left' (header_bytes_length hd), header_bytes_layout hd hh ho', ho]
    simp
  | cons q qs ih =>
    intro p post o L h
    obtain ⟨hd, d, _, _, _, _, hl, hq, hc⟩ := h
    have hlen : q.data.length = d := by
      cases q with
      | mk payload marker =>
        simp only at hq
        subst hq
        rw [data_header_append]
        simp only [List.length_take, List.length_drop]
        omega
    obtain ⟨M, T, t, h1, h2, h3, h4⟩ := ih p post _ _ hc
    refine ⟨M, T, t, h1, h2, h3, ?_⟩
    rw [h4, List.map_cons, List.sum_cons, hlen, Nat.add_assoc]

/-! ## A truncated codestream under the MTU 1500 -/

theorem scan_loop_skip (data : List Nat) (size hi : Nat) (hs : size < U32) (hhi : hi < size)
    (hrun : rd data hi = Except.ok 255) :
    ∀ fuel lo, lo ≤ hi → hi + 1 ≤ lo + fuel →
      (∀ i, lo ≤ i → i < hi → ∃ b, rd data i = Except.ok b ∧ b ≠ 255) →
      scan_loop fuel data size lo = Except.ok (hi + 1) := by
  intro fuel
  induction fuel with
  | zero => intro lo h1 h2 _; omega
  | succ k ih =>
    intro lo h1 h2 hne
    have ha : add32 lo 1 = lo + 1 := add32_of_lt (by omega)
    rcases Nat.eq_or_lt_of_le h1 with heq | hlt
    · subst heq
      rw [scan_loop, hrun, ok_bind]
      dsimp only
      rw [ha, if_neg (by intro hc; exact hc.1 rfl)]
      rfl
    · obtain ⟨b, hb, hbne⟩ := hne lo (le_refl _) hlt
      rw [scan_loop, hb, ok_bind]
      dsimp only
      rw [ha, if_pos ⟨hbne, by omega⟩]
      exact ih (lo + 1) (by omega) (by omega) (fun i h3 h4 => hne i (by omega) h4)

theorem scan_loop_end (data : List Nat) (size : Nat) (hs : size < U32) :
    ∀ fuel lo, lo < size → size ≤ lo + fuel →
      (∀ i, lo ≤ i → i < size → ∃ b, rd data i = Except.ok b ∧ b ≠ 255) →
      scan_loop fuel data size lo = Except.ok size := by
  intro fuel
  induction fuel with
  | zero => intro lo h1 h2 _; omega
  | succ k ih =>
    intro lo h1 h2 hne
    have ha : add32 lo 1 = lo + 1 := add32_of_lt (by omega)
    obtain ⟨b, hb, hbne⟩ := hne lo (le_refl _) h1
    rw [scan_loop, hb, ok_bind]
    dsimp only
    rw [ha]
    by_cases hlt : lo + 1 < size
    · rw [if_pos ⟨hbne, hlt⟩]
      exact ih (lo + 1) hlt (by omega) (fun i h3 h4 => hne i (by omega) h4)
    · rw [if_neg (fun hc => hlt hc.2)]
      have : lo + 1 = size := by omega
      rw [this]; rfl

theorem long_truncated_length : long_truncated.length = 1520 := by
  simp only [long_truncated, List.length_append, List.length_cons, List.length_nil,
    List.length_replicate]

theorem rd_long_run1 (i : Nat) (h1 : 18 ≤ i) (h2 : i < 718) :
    ∃ b, rd long_truncated i = Except.ok b ∧ b ≠ 255 := by
  refine ⟨7, ?_, by decide⟩
  unfold rd long_truncated
  rw [List.get?_eq_getElem?, List.getElem?_append_right (by simp only [List.length_append, List.length_cons, List.length_nil, List.length_replicate]; omega),
    List.getElem?_append_left (by simp only [List.length_append, List.length_cons, List.length_nil, List.length_replicate]; omega),
    List.getElem?_append_right (by simp only [List.length_append, List.length_cons, List.length_nil, List.length_replicate]; omega), List.getElem?_replicate]
  simp only [List.length_cons, List.length_nil]
  rw [if_pos (by omega)]
  rfl

theorem rd_long_run2 (i : Nat) (h1 : 720 ≤ i) (h2 : i < 1520) :
    ∃ b, rd long_truncated i = Except.ok b ∧ b ≠ 255 := by
  refine ⟨9, ?_, by decide⟩
  unfold rd long_truncated
  rw [List.get?_eq_getElem?, List.getElem?_append_right (by simp only [List.length_append, List.length_cons, List.length_nil, List.length_replicate]; omega),
    List.getElem?_append_right (by simp only [List.length_append, List.length_cons, List.length_nil, List.length_replicate]; omega),
    List.getElem?_append_right (by simp only [List.length_append, List.length_cons, List.length_nil, List.length_replicate]; omega), List.getElem?_replicate]
  simp only [List.length_cons, List.length_nil, List.length_append, List.length_replicate]
  rw [if_pos (by omega)]
  rfl

theorem rd_long_718 : rd long_truncated 718 = Except.ok 255 := by
  unfold rd long_truncated
  rw [List.get?_eq_getElem?, List.getElem?_append_right (by simp only [List.length_append, List.length_cons, List.length_nil, List.length_replicate]; omega),
    List.getElem?_append_right (by simp only [List.length_append, List.length_cons, List.length_nil, List.length_replicate]; omega)]
  simp only [List.length_append, List.length_cons, List.length_nil, List.length_replicate,
    Nat.reduceAdd, Nat.reduceSub, List.cons_append, List.getElem?_cons_zero,
    List.getElem?_cons_succ]
  rfl

theorem rd_long_719 : rd long_truncated 719 = Except.ok 0x91 := by
  unfold rd long_truncated
  rw [List.get?_eq_getElem?, List.getElem?_append_right (by simp only [List.length_append, List.length_cons, List.length_nil, List.length_replicate]; omega),
    List.getElem?_append_right (by simp only [List.length_append, List.length_cons, List.length_nil, List.length_replicate]; omega)]
  simp only [List.length_append, List.length_cons, List.length_nil, List.length_replicate,
    Nat.reduceAdd, Nat.reduceSub, List.cons_append, List.getElem?_cons_zero,
    List.getElem?_cons_succ]
  rfl

theorem scan_marker_at (fuel : Nat) (data : List Nat) (size i m : Nat) (hs : size < U32)
    (hi : i + 1 < size) (h0 : rd data i = Except.ok 255) (h1 : rd data (i + 1) = Except.ok m) :
    gst_rtp_j2k_pay_scan_marker (fuel + 1) data size i = Except.ok (m, i + 2) := by
  have ha : add32 i 1 = i + 1 := add32_of_lt (by omega)
  have hb : add32 (i + 1) 1 = i + 2 := add32_of_lt (by omega)
  unfold gst_rtp_j2k_pay_scan_marker
  rw [scan_loop, h0, ok_bind]
  dsimp only
  rw [ha, if_neg (by intro hc; exact hc.1 rfl), pure_bind, if_neg (by omega), h1, ok_bind, hb]
  rfl

theorem scan_marker_skip (fuel : Nat) (data : List Nat) (size lo hi m : Nat) (hs : size < U32)
    (hlo : lo ≤ hi) (hf : hi + 1 ≤ lo + fuel) (hi1 : hi + 1 < size)
    (hne : ∀ i, lo ≤ i → i < hi → ∃ b, rd data i = Except.ok b ∧ b ≠ 255)
    (h0 : rd data hi = Except.ok 255) (h1 : rd data (hi + 1) = Except.ok m) :
    gst_rtp_j2k_pay_scan_marker fuel data size lo = Except.ok (m, hi + 2) := by
  have hb : add32 (hi + 1) 1 = hi + 2 := add32_of_lt (by omega)
  unfold gst_rtp_j2k_pay_scan_marker
  rw [scan_loop_skip data size hi hs (by omega) h0 fuel lo hlo hf hne, ok_bind]
  rw [if_neg (by omega), h1, ok_bind, hb]
  rfl

theorem scan_marker_end (fuel : Nat) (data : List Nat) (size lo : Nat) (hs : size < U32)
    (hlo : lo < size) (hf : size ≤ lo + fuel)
    (hne : ∀ i, lo ≤ i → i < size → ∃ b, rd data i = Except.ok b ∧ b ≠ 255) :
    gst_rtp_j2k_pay_scan_marker fuel data size lo = Except.ok (J2K_MARKER_EOC, size) := by
  unfold gst_rtp_j2k_pay_scan_marker
  rw [scan_loop_end data size hs fuel lo hlo hf hne, ok_bind]
  rw [if_pos (le_refl _)]
  rfl

theorem long_size : long_truncated.length % U32 = 1520 := by
  rw [long_truncated_length]; rfl

theorem find_long_0 (f : Nat) :
    find_pu_end (f + 2) long_truncated 1520 0 initial_state
      = Except.ok (2, mk_state 1 1 0 0 false 0 0 true) := by
  have s0 := scan_marker_at (f + 1) long_truncated 1520 0 0x4F (by decide) (by decide) rfl rfl
  have s2 := scan_marker_at f long_truncated 1520 2 0x90 (by decide) (by decide) rfl rfl
  unfold find_pu_end
  rw [find_pu_end_loop, if_neg (by decide), s0, ok_bind]
  dsimp only
  rw [if_neg (by decide), if_pos (by decide), find_pu_end_loop, if_neg (by decide), s2, ok_bind]
  rfl

theorem find_long_2 (f : Nat) :
    find_pu_end (f + 3) long_truncated 1520 2 (mk_state 0 1 0 2 false 0 0 false)
      = Except.ok (16, mk_state 0 0 0 2 true 0 4098 true) := by
  have s2 := scan_marker_at (f + 2) long_truncated 1520 2 0x90 (by decide) (by decide) rfl rfl
  have s14 := scan_marker_at (f + 1) long_truncated 1520 14 0x93 (by decide) (by decide) rfl rfl
  have s16 := scan_marker_at f long_truncated 1520 16 0x91 (by decide) (by decide) rfl rfl
  unfold find_pu_end
  rw [find_pu_end_loop, if_neg (by decide), s2, ok_bind]
  dsimp only
  rw [if_neg (by decide), if_neg (by decide), if_pos (by decide), if_neg (by decide)]
  have hl : gst_rtp_j2k_pay_header_size long_truncated 4 = Except.ok 10 := rfl
  have ht : GST_READ_UINT16_BE long_truncated (4 + 2) = Except.ok 0 := rfl
  have hp : GST_READ_UINT32_BE long_truncated (4 + 4) = Except.ok 4096 := rfl
  rw [hl, ok_bind, if_neg (by decide), if_neg (by decide), ht, ok_bind, hp, ok_bind]
  have e1 : add32 4 10 = 14 := rfl
  rw [e1, find_pu_end_loop, if_neg (by decide), s14, ok_bind]
  dsimp only
  rw [if_neg (by decide), if_neg (by decide), if_neg (by decide), if_pos (by decide),
    find_pu_end_loop, if_neg (by decide), s16, ok_bind]
  rfl

theorem find_long_16 (f : Nat) (hf : 700 ≤ f) :
    find_pu_end (f + 2) long_truncated 1520 16 (mk_state 0 1 0 16 true 0 4098 false)
      = Except.ok (718, mk_state 0 1 0 16 true 0 4098 false) := by
  have s16 := scan_marker_at (f + 1) long_truncated 1520 16 0x91 (by decide) (by decide)
    rfl rfl
  have s18 := scan_marker_skip (f + 1) long_truncated 1520 18 718 0x91 (by decide)
    (by omega) (by omega) (by omega) rd_long_run1 rd_long_718 rd_long_719
  unfold find_pu_end
  rw [find_pu_end_loop, if_neg (by decide), s16, ok_bind]
  dsimp only
  rw [if_pos (by rfl), if_pos (by decide), if_neg (by decide),
    find_pu_end_loop, if_neg (by decide), s18, ok_bind]
  rfl

theorem find_long_718 (f : Nat) (hf : 800 ≤ f) :
    find_pu_end (f + 3) long_truncated 1520 718 (mk_state 0 1 0 16 true 0 4098 false)
      = Except.ok (1520, mk_state 0 1 0 16 true 0 4098 false) := by
  have s718 := scan_marker_at (f + 2) long_truncated 1520 718 0x91 (by decide) (by decide)
    rd_long_718 rd_long_719
  have s720 := scan_marker_end (f + 2) long_truncated 1520 720 (by decide) (by omega)
    (by omega) rd_long_run2
  unfold find_pu_end
  rw [find_pu_end_loop, if_neg (by decide), s718, ok_bind]
  dsimp only
  rw [if_pos (by rfl), if_pos (by decide), if_neg (by decide),
    find_pu_end_loop, if_neg (by decide), s720, ok_bind]
  dsimp only
  rw [if_pos (by rfl), if_neg (by decide), if_neg (by decide), if_neg (by decide),
    find_pu_end_loop, if_pos (by decide)]
  rfl

theorem pack_loop_scan (fuel : Nat) (data : List Nat) (max_size offset pos end_ e : Nat)
    (st st1 : RtpJ2KState) (hforce : st.force_packet = false)
    (hsz : ¬ sub32 end_ offset > max_size) (hend : end_ ≠ data.length)
    (hfind : find_pu_end (fuel + 1) data (data.length % U32) end_ st = Except.ok (e, st1)) :
    pack_loop (fuel + 1) data max_size offset pos end_ st
      = pack_loop fuel data max_size offset end_ e st1 := by
  rw [pack_loop]
  dsimp only
  rw [if_neg (by simp [hforce]), if_neg hsz, if_neg hend, hfind, ok_bind]

theorem pack_loop_force (fuel : Nat) (data : List Nat) (max_size offset pos end_ : Nat)
    (st : RtpJ2KState) (hforce : st.force_packet = true) :
    pack_loop (fuel + 1) data max_size offset pos end_ st
      = Except.ok (sub32 end_ offset, end_, end_, { st with force_packet := false }) := by
  rw [pack_loop]
  dsimp only
  rw [if_pos hforce]
  rfl

theorem pack_loop_rollback (fuel : Nat) (data : List Nat) (max_size offset pos end_ : Nat)
    (st : RtpJ2KState) (hforce : st.force_packet = false)
    (hsz : sub32 end_ offset > max_size) (hpos : pos ≠ offset) :
    pack_loop (fuel + 1) data max_size offset pos end_ st
      = Except.ok (sub32 pos offset, pos, end_, st) := by
  rw [pack_loop]
  dsimp only
  rw [if_neg (by simp [hforce]), if_pos hsz, if_pos hpos]
  rfl

theorem pack_loop_done (fuel : Nat) (data : List Nat) (max_size offset pos end_ : Nat)
    (st : RtpJ2KState) (hforce : st.force_packet = false)
    (hsz : ¬ sub32 end_ offset > max_size) (hend : end_ = data.length) :
    pack_loop (fuel + 1) data max_size offset pos end_ st
      = Except.ok (sub32 end_ offset, end_, end_, st) := by
  rw [pack_loop]
  dsimp only
  rw [if_neg (by simp [hforce]), if_neg hsz, if_pos hend]
  rfl

theorem emit_loop_done (fuel : Nat) (data : List Nat) (mtu end_ offset : Nat) (mk : Bool)
    (st : RtpJ2KState) (list : List Packet) :
    emit_loop (fuel + 1) data mtu end_ 0 offset mk st list = Except.ok (st, list) := by
  rw [emit_loop, if_pos rfl]
  rfl

theorem outer_loop_step (fuel : Nat) (data : List Nat) (mtu max_size offset pos end_ : Nat)
    (st : RtpJ2KState) (list : List Packet) (pu pos1 end1 : Nat) (st1 st2 : RtpJ2KState)
    (list1 : List Packet)
    (hpack : pack_loop (fuel + 1) data max_size offset pos end_ st
      = Except.ok (pu, pos1, end1, st1))
    (hemit : emit_loop (fuel + 1) data mtu end1 pu offset false st1 list
      = Except.ok (st2, list1)) :
    outer_loop (fuel + 1) data mtu max_size offset pos end_ st list =
      if pos1 < data.length then outer_loop fuel data mtu max_size pos1 pos1 end1 st2 list1
      else pure list1 := by
  rw [outer_loop, hpack, ok_bind]
  dsimp only
  rw [hemit, ok_bind]

theorem long_pack_1 (f : Nat) :
    pack_loop (f + 3) long_truncated 1492 0 0 0 initial_state
      = Except.ok (2, 2, 2, mk_state 1 1 0 0 false 0 0 false) := by
  rw [pack_loop_scan (f + 2) long_truncated 1492 0 0 0 2 initial_state
      (mk_state 1 1 0 0 false 0 0 true) rfl (by decide)
      (by rw [long_truncated_length]; decide) (by rw [long_size]; exact find_long_0 (f + 1)),
    pack_loop_force (f + 1) long_truncated 1492 0 0 2 _ rfl]
  rfl

set_option maxRecDepth 20000 in
theorem long_emit_1 (f : Nat) :
    emit_loop (f + 2) long_truncated 1500 2 2 0 false (mk_state 1 1 0 0 false 0 0 false) []
      = Except.ok (mk_state 0 1 0 2 false 0 0 false,
          [⟨header_bytes ⟨0, 3, 0, 1, 255, 0, 0⟩ ++ (long_truncated.drop 0).take 2, false⟩]) := by
  rw [emit_loop_step (f + 1) long_truncated 1500 2 2 0 false _ [] (by decide)
    (by rw [long_truncated_length]; decide)]
  exact emit_loop_done f long_truncated 1500 2 _ _ _ _

theorem long_pack_2 (f : Nat) :
    pack_loop (f + 4) long_truncated 1492 2 2 2 (mk_state 0 1 0 2 false 0 0 false)
      = Except.ok (14, 16, 16, mk_state 0 0 0 2 true 0 4098 false) := by
  rw [pack_loop_scan (f + 3) long_truncated 1492 2 2 2 16 _
      (mk_state 0 0 0 2 true 0 4098 true) rfl (by decide)
      (by rw [long_truncated_length]; decide) (by rw [long_size]; exact find_long_2 (f + 1)),
    pack_loop_force (f + 2) long_truncated 1492 2 2 16 _ rfl]
  rfl

set_option maxRecDepth 20000 in
theorem long_emit_2 (f : Nat) (l : List Packet) :
    emit_loop (f + 2) long_truncated 1500 16 14 2 false (mk_state 0 0 0 2 true 0 4098 false) l
      = Except.ok (mk_state 0 1 0 16 true 0 4098 false,
          l ++ [⟨header_bytes ⟨0, 0, 0, 0, 255, 0, 2⟩ ++ (long_truncated.drop 2).take 14,
            false⟩]) := by
  rw [emit_loop_step (f + 1) long_truncated 1500 16 14 2 false _ l (by decide)
    (by rw [long_truncated_length]; decide)]
  exact emit_loop_done f long_truncated 1500 16 _ _ _ _

theorem long_pack_3 (f : Nat) (hf : 800 ≤ f) :
    pack_loop (f + 5) long_truncated 1492 16 16 16 (mk_state 0 1 0 16 true 0 4098 false)
      = Except.ok (702, 718, 1520, mk_state 0 1 0 16 true 0 4098 false) := by
  rw [pack_loop_scan (f + 4) long_truncated 1492 16 16 16 718 _
      (mk_state 0 1 0 16 true 0 4098 false) rfl (by decide)
      (by rw [long_truncated_length]; decide)
      (by rw [long_size]; exact find_long_16 (f + 3) (by omega)),
    pack_loop_scan (f + 3) long_truncated 1492 16 16 718 1520 _
      (mk_state 0 1 0 16 true 0 4098 false) rfl (by decide)
      (by rw [long_truncated_length]; decide)
      (by rw [long_size]; exact find_long_718 (f + 1) (by omega)),
    pack_loop_rollback (f + 2) long_truncated 1492 16 718 1520 _ rfl (by decide) (by decide)]
  rfl

set_option maxRecDepth 20000 in
theorem long_emit_3 (f : Nat) (l : List Packet) :
    emit_loop (f + 2) long_truncated 1500 1520 702 16 false
        (mk_state 0 1 0 16 true 0 4098 false) l
      = Except.ok (mk_state 0 1 0 718 true 0 4098 false,
          l ++ [⟨header_bytes ⟨0, 0, 0, 1, 255, 0, 16⟩ ++ (long_truncated.drop 16).take 702,
            true⟩]) := by
  rw [emit_loop_step (f + 1) long_truncated 1500 1520 702 16 false _ l (by decide)
    (by rw [long_truncated_length]; decide)]
  exact emit_loop_done f long_truncated 1500 1520 _ _ _ _

theorem long_pack_4 (f : Nat) :
    pack_loop (f + 1) long_truncated 1492 718 718 1520 (mk_state 0 1 0 718 true 0 4098 false)
      = Except.ok (802, 1520, 1520, mk_state 0 1 0 718 true 0 4098 false) := by
  rw [pack_loop_done f long_truncated 1492 718 718 1520 _ rfl (by decide)
    (by rw [long_truncated_length])]
  rfl

set_option maxRecDepth 20000 in
theorem long_emit_4 (f : Nat) (l : List Packet) :
    emit_loop (f + 2) long_truncated 1500 1520 802 718 false
        (mk_state 0 1 0 718 true 0 4098 false) l
      = Except.ok (mk_state 0 1 0 1520 true 0 4098 false,
          l ++ [⟨header_bytes ⟨0, 0, 0, 1, 255, 0, 718⟩ ++ (long_truncated.drop 718).take 802,
            true⟩]) := by
  rw [emit_loop_step (f + 1) long_truncated 1500 1520 802 718 false _ l (by decide)
    (by rw [long_truncated_length]; decide)]
  exact emit_loop_done f long_truncated 1500 1520 _ _ _ _

theorem long_truncated_run (f : Nat) (hf : 800 ≤ f) :
    gst_rtp_j2k_pay_handle_buffer (f + 8) long_truncated 1500 = Except.ok
      [ ⟨header_bytes ⟨0, 3, 0, 1, 255, 0, 0⟩ ++ (long_truncated.drop 0).take 2, false⟩,
        ⟨header_bytes ⟨0, 0, 0, 0, 255, 0, 2⟩ ++ (long_truncated.drop 2).take 14, false⟩,
        ⟨header_bytes ⟨0, 0, 0, 1, 255, 0, 16⟩ ++ (long_truncated.drop 16).take 702, true⟩,
        ⟨header_bytes ⟨0, 0, 0, 1, 255, 0, 718⟩ ++ (long_truncated.drop 718).take 802,
          true⟩ ] := by
  unfold gst_rtp_j2k_pay_handle_buffer
  have e : sub32 1500 HEADER_SIZE = 1492 := rfl
  simp only [e]
  rw [if_neg (by decide),
    outer_loop_step (f + 7) _ _ _ _ _ _ _ _ _ _ _ _ _ _ (long_pack_1 (f + 5))
      (long_emit_1 (f + 6)),
    if_pos (by rw [long_truncated_length]; decide),
    outer_loop_step (f + 6) _ _ _ _ _ _ _ _ _ _ _ _ _ _ (long_pack_2 (f + 3))
      (long_emit_2 (f + 5) _),
    if_pos (by rw [long_truncated_length]; decide),
    outer_loop_step (f + 5) _ _ _ _ _ _ _ _ _ _ _ _ _ _ (long_pack_3 (f + 1) (by omega))
      (long_emit_3 (f + 4) _),
    if_pos (by rw [long_truncated_length]; decide),
    outer_loop_step (f + 4) _ _ _ _ _ _ _ _ _ _ _ _ _ _ (long_pack_4 (f + 4))
      (long_emit_4 (f + 3) _),
    if_neg (by rw [long_truncated_length]; decide)]
  rfl

/-! ## The payloader: further claims -/

/-- If the header offsets of a covering list are the true offsets, the covered
range ends within `mtu - 8` bytes of `2^24`. -/
theorem Cover_contiguous_bound (data : List Nat) (mtu : Nat) (hs : data.length + 8 < U32) :
    ∀ (pkts : List Packet) (o L : Nat), o ≤ 16777216 → Cover data mtu o pkts L →
      Contiguous o pkts L → L + 8 ≤ 16777216 + mtu ∨ L = o := by
  intro pkts
  induction pkts with
  | nil => intro o L _ h _; right; exact h.symm
  | cons p ps ih =>
    intro o L ho hc hk
    obtain ⟨hd, d, _, hoff, hd0, hm, hl, hp, hc'⟩ := hc
    obtain ⟨k1, k2, k3⟩ := hk
    have hle := Cover_le _ _ _ _ _ hc'
    cases p with
    | mk payload marker =>
      simp only at hp
      subst hp
      have hlen : (Packet.data ⟨header_bytes hd ++ (data.drop o).take d, marker⟩).length = d := by
        rw [data_header_append]
        simp only [List.length_take, List.length_drop]
        omega
      rw [parse_frag_offset_header, hoff] at k1
      rw [hlen] at k3
      have hmd := hm hs
      have ho2 : o < 16777216 := by omega
      rcases Nat.lt_or_ge 16777216 (o + d) with hbig | hsmall
      · -- the next packet, if any, starts beyond 2^24 and cannot carry its offset
        cases ps with
        | nil =>
          simp only [Cover] at hc'
          left; omega
        | cons q qs =>
          exfalso
          obtain ⟨hq, dq, _, hqo, _, _, _, hqp, _⟩ := hc'
          obtain ⟨q1, _, _⟩ := k3
          cases q with
          | mk payload2 marker2 =>
            simp only at hqp
            subst hqp
            rw [parse_frag_offset_header, hqo] at q1
            omega
      · rcases ih _ _ hsmall hc' k3 with h | h
        · left; exact h
        · left; omega

/-- C3 (counterexample): for the codestream of `2^24 + 1500` zero bytes and the
MTU 1500 the payloader returns a packet list whose header offsets are not the
running sums of the data lengths from 0 up to the length of the codestream:
the 24-bit field has wrapped. -/
theorem frag_offset_wraps :
    ∃ pkts, gst_rtp_j2k_pay_handle_buffer 16778720 (List.replicate 16778716 0) 1500
        = Except.ok pkts ∧
      ¬ Contiguous 0 pkts (List.replicate 16778716 0).length := by
  obtain ⟨pkts, hp⟩ := handle_buffer_zeros_ok 16778716 1492 16778717 (by unfold U32; omega)
    (by omega) (by omega) (by omega)
  refine ⟨pkts, hp, ?_⟩
  intro hk
  have hlen : (List.replicate 16778716 0).length = 16778716 := List.length_replicate _ _
  have hs : (List.replicate 16778716 0).length + 8 < U32 := by rw [hlen]; unfold U32; omega
  have hc := handle_buffer_cover _ _ _ _ (by omega) (by omega) hp
  have := Cover_contiguous_bound _ _ hs _ _ _ (by omega) hc hk
  rw [hlen] at this
  omega

/-- C5 (failing input): for the truncated codestream of 1520 bytes and the MTU
1500 the payloader returns four packets and sets the marker flag on the third
(bytes 16..717) and again on the fourth, last packet (bytes 718..1519). -/
theorem marker_set_twice :
    gst_rtp_j2k_pay_handle_buffer 1000 long_truncated 1500 = Except.ok
      [ ⟨header_bytes ⟨0, 3, 0, 1, 255, 0, 0⟩ ++ (long_truncated.drop 0).take 2, false⟩,
        ⟨header_bytes ⟨0, 0, 0, 0, 255, 0, 2⟩ ++ (long_truncated.drop 2).take 14, false⟩,
        ⟨header_bytes ⟨0, 0, 0, 1, 255, 0, 16⟩ ++ (long_truncated.drop 16).take 702, true⟩,
        ⟨header_bytes ⟨0, 0, 0, 1, 255, 0, 718⟩ ++ (long_truncated.drop 718).take 802,
          true⟩ ] :=
  long_truncated_run 992 (by decide)

theorem stuck_pack (n : Nat) :
    pack_loop (n + 1) stuck_codestream 1492 0 0 0 initial_state = Except.error Fault.fuel ∨
    pack_loop (n + 1) stuck_codestream 1492 0 0 0 initial_state
      = Except.ok (0, 0, 0, initial_state) := by
  rcases n with _ | _ | n
  · left; rfl
  · left; rfl
  · right; rfl

theorem stuck_outer : ∀ fuel,
    outer_loop fuel stuck_codestream 1500 1492 0 0 0 initial_state [] = Except.error Fault.fuel := by
  intro fuel
  induction fuel with
  | zero => rfl
  | succ n ih =>
    rw [outer_loop]
    rcases stuck_pack n with h | h
    · rw [h]; rfl
    · rw [h, ok_bind]
      dsimp only
      have he : emit_loop (n + 1) stuck_codestream 1500 0 0 0 false initial_state []
          = Except.ok (initial_state, []) := rfl
      rw [he, ok_bind]
      dsimp only
      rw [if_pos (by decide)]
      exact ih

/-- C8 (failing input): on the 6-byte buffer `FF 93 00 FF 55 00` with the MTU
1500 the outer loop of the payloader comes back to its initial state after
each pass without emitting a packet, so no amount of fuel lets
`gst_rtp_j2k_pay_handle_buffer` return. -/
theorem payloader_never_returns (fuel : Nat) :
    gst_rtp_j2k_pay_handle_buffer fuel stuck_codestream 1500 = Except.error Fault.fuel := by
  unfold gst_rtp_j2k_pay_handle_buffer
  have : sub32 1500 HEADER_SIZE = 1492 := rfl
  simp only [this]
  rw [if_neg (by decide)]
  exact stuck_outer fuel

/-! ## The depayloader: claims -/

/-- C1 (failing input): `sop_tile_codestream` is a valid codestream of 58 bytes
whose tile-part 1 holds SOP markers.  With the MTU 1500 the payloader sends it
in four packets, the last of which begins with SOP and carries T = 1 with the
tile number 0.  A fresh depayloader fed these packets, with or without the
marker flag of the last one, drops that packet (its tile number differs from
`last_tile`): the frame and tile adapters stay empty, nothing is handed
downstream, and what `sim_depayload` copies out of the PU adapter are the
first 40 bytes only. -/
theorem roundtrip_loses_sop_packet :
    valid_codestream sop_tile_codestream 8 [(0x51, 4)] sop_tile_layout = true ∧
    sop_tile_codestream.length = 58 ∧
    gst_rtp_j2k_pay_handle_buffer 100 sop_tile_codestream 1500 = Except.ok sop_tile_packets ∧
    (∀ keep, ∃ d, depay_run 10 GstRtpJ2KDepay.new (sop_tile_packets.map (to_rtp keep))
        = Except.ok d ∧ d.f_adapter = [] ∧ d.t_adapter = [] ∧ d.have_sync = false ∧
        d.last_tile = U32 - 1 ∧
        sim_depayload_out d = sop_tile_codestream.take 40) := by
  refine ⟨by rfl, by rfl, by rfl, ?_⟩
  intro keep
  cases keep
  · exact ⟨_, by rfl, by rfl, by rfl, by rfl, by rfl, by rfl⟩
  · exact ⟨_, by rfl, by rfl, by rfl, by rfl, by rfl, by rfl⟩

/-- C9 (failing input): of the three packets of `two_tile_codestream` the one
of tile-part 0 is lost.  Flushing the tile after the two packets that arrive
puts the cached header and tile-part 1 into the frame adapter, with the Psot
of tile-part 1 rewritten from 18 to 20 although 18 bytes precede the trailing
EOC; with the marker flag on the last packet the frame flush that follows
writes outside the array `end`. -/
theorem psot_counts_trailing_eoc :
    gst_rtp_j2k_pay_handle_buffer 40 two_tile_codestream 1500 = Except.ok two_tile_packets ∧
    (∃ d d1, depay_run 10 GstRtpJ2KDepay.new (lossy_packets false) = Except.ok d ∧
      gst_rtp_j2k_depay_flush_tile 10 d = Except.ok d1 ∧
      d1.f_adapter = [sample_header,
        [0xFF, 0x90, 0, 10, 0, 1, 0, 0, 0, 20, 0, 2, 0xFF, 0x93, 5, 6, 7, 8, 0xFF, 0xD9]]) ∧
    depay_run 10 GstRtpJ2KDepay.new (lossy_packets true) = Except.error Fault.undefined := by
  exact ⟨by rfl, ⟨_, _, by rfl, by rfl, by rfl⟩, by rfl⟩

/-- C14: a packet whose payload is shorter than 8 bytes leaves the whole
depayloader state as it is (so nothing is delivered), whatever its marker
flag and whatever the state. -/
theorem short_packet_rejected (fuel : Nat) (d : GstRtpJ2KDepay) (rtp : RtpPacket)
    (h : rtp.payload.length < 8) :
    gst_rtp_j2k_depay_process fuel d rtp = Except.ok d := by
  unfold gst_rtp_j2k_depay_process
  have h1 : rtp.payload.length % U32 < HEADER_SIZE := by
    unfold U32 HEADER_SIZE; omega
  simp only [h1, if_true]
  rfl

/-- A seven-byte packet with the marker flag leaves `mid_frame_state` as it is. -/
theorem short_packet_rejected_witness :
    gst_rtp_j2k_depay_process 5 mid_frame_state ⟨[48, 255, 0, 0, 0, 0, 0], true⟩
      = Except.ok mid_frame_state :=
  short_packet_rejected 5 _ _ (by decide)

/-- C15: with a header identifier in use (`last_mh_id` is not -1), a packet of
at least 8 bytes of the current timestamp that carries another identifier only
empties the PU adapter and clears `have_sync`: every other field, the vector
`bufferLists` included, stays as it was, whatever the marker flag. -/
theorem wrong_mh_id_dropped (fuel : Nat) (d : GstRtpJ2KDepay) (rtp : RtpPacket)
    (hlen : 8 ≤ rtp.payload.length) (hlen2 : rtp.payload.length < U32)
    (htime : d.last_rtptime = gst_rtp_buffer_get_timestamp rtp)
    (hset : d.last_mh_id ≠ U32 - 1) (hid : d.last_mh_id ≠ parse_mh_id rtp.payload) :
    gst_rtp_j2k_depay_process fuel d rtp
      = Except.ok { d with pu_adapter := [], have_sync := false } := by
  unfold gst_rtp_j2k_depay_process
  have h1 : ¬ rtp.payload.length % U32 < HEADER_SIZE := by
    rw [Nat.mod_eq_of_lt hlen2]; unfold HEADER_SIZE; omega
  have ht : ¬ (d.last_rtptime ≠ gst_rtp_buffer_get_timestamp rtp) := not_not.mpr htime
  dsimp only
  rw [if_neg h1, if_neg ht, pure_bind, if_pos ⟨hset, hid⟩]
  rfl

/-- A packet with identifier 2 and the marker flag, met in `mid_frame_state`
(identifier 1), only empties the PU adapter and clears `have_sync`. -/
theorem wrong_mh_id_dropped_witness :
    gst_rtp_j2k_depay_process 5 mid_frame_state
        ⟨[4, 255, 0, 0, 0, 0, 0, 0, 255, 144, 7], true⟩
      = Except.ok { mid_frame_state with pu_adapter := [], have_sync := false } :=
  wrong_mh_id_dropped 5 _ _ (by decide) (by decide) rfl (by decide) (by decide)

/-- C16: when `gst_rtp_j2k_depay_flush_tile`, having flushed the pending unit
(state `d`), finds bytes in the tile adapter, none in the frame adapter and no
header cached at `MH[last_mh_id]`, it returns `d` with the tile adapter emptied
and `last_tile` set to -1: the frame adapter and the header cache are those of
`d`. -/
theorem missing_header_discards_tile (fuel : Nat) (d0 d : GstRtpJ2KDepay)
    (hpu : gst_rtp_j2k_depay_flush_pu fuel d0 = Except.ok d)
    (htile : gst_adapter_available d.t_adapter % U32 ≠ 0)
    (hframe : gst_adapter_available d.f_adapter = 0)
    (hid : d.last_mh_id < 8)
    (hmh : d.MH.getD d.last_mh_id none = none) :
    gst_rtp_j2k_depay_flush_tile fuel d0
      = Except.ok { d with t_adapter := [], last_tile := U32 - 1 } := by
  unfold gst_rtp_j2k_depay_flush_tile
  rw [hpu, ok_bind]
  dsimp only
  rw [if_neg htile, if_pos hframe, if_pos hid, hmh]
  rfl

/-- The tile of `tile_without_header` is discarded. -/
theorem missing_header_discards_tile_witness :
    gst_rtp_j2k_depay_flush_tile 5 tile_without_header
      = Except.ok { tile_without_header_flushed with t_adapter := [], last_tile := U32 - 1 } :=
  missing_header_discards_tile 5 tile_without_header tile_without_header_flushed
    rfl (by decide) (by decide) (by decide) (by decide)

/-! ## Marker segments skipped by the scanner -/

theorem rd_of_get (data : List Nat) (i b : Nat) (h : data.get? i = some b) :
    rd data i = Except.ok b := by
  unfold rd; rw [h]; rfl

theorem rd_lt (data : List Nat) (i b : Nat) (h : rd data i = Except.ok b) : i < data.length := by
  unfold rd at h
  cases hg : data.get? i with
  | none => rw [hg] at h; cases h
  | some x => exact (List.get?_eq_some.mp hg).1

theorem header_size_lt (data : List Nat) (i len : Nat)
    (h : gst_rtp_j2k_pay_header_size data i = Except.ok len) : i + 1 < data.length := by
  unfold gst_rtp_j2k_pay_header_size at h
  obtain ⟨hi, _, h1⟩ := (bind_ok_iff _ _ _).mp h
  obtain ⟨lo, h2, _⟩ := (bind_ok_iff _ _ _).mp h1
  exact rd_lt _ _ _ h2

theorem seg_chain_cons (data : List Nat) (o p m len : Nat) (rest : List (Nat × Nat))
    (h : seg_chain data o p ((m, len) :: rest) = true) :
    rd data o = Except.ok 255 ∧ rd data (o + 1) = Except.ok m ∧ skippable m = true ∧
      gst_rtp_j2k_pay_header_size data (o + 2) = Except.ok len ∧
      seg_chain data (o + 2 + len) p rest = true := by
  rw [seg_chain] at h
  simp only [Bool.and_eq_true, decide_eq_true_eq] at h
  obtain ⟨⟨⟨⟨h0, h1⟩, h2⟩, h3⟩, h4⟩ := h
  refine ⟨rd_of_get _ _ _ h0, rd_of_get _ _ _ h1, h2, ?_, h4⟩
  cases hh : gst_rtp_j2k_pay_header_size data (o + 2) with
  | error e => rw [hh] at h3; cases h3
  | ok l =>
    rw [hh] at h3
    simp only [decide_eq_true_eq] at h3
    rw [h3]

theorem seg_chain_le (data : List Nat) (p : Nat) :
    ∀ (segs : List (Nat × Nat)) (o : Nat), seg_chain data o p segs = true → o ≤ p := by
  intro segs
  induction segs with
  | nil =>
    intro o h
    rw [seg_chain] at h
    simp only [decide_eq_true_eq] at h
    omega
  | cons s rest ih =>
    intro o h
    obtain ⟨m, len⟩ := s
    have h4 := (seg_chain_cons data o p m len rest h).2.2.2.2
    have := ih _ h4
    omega

theorem skippable_ne (m : Nat) (h : skippable m = true) :
    m ≠ J2K_MARKER_SOC ∧ m ≠ J2K_MARKER_SOT ∧ m ≠ J2K_MARKER_SOD ∧ m ≠ J2K_MARKER_EOC := by
  unfold skippable at h
  simp only [Bool.and_eq_true, bne_iff_ne, ne_eq] at h
  exact ⟨h.1.1.1, h.1.1.2, h.1.2, h.2⟩

/-- One pass of the header-mode loop over a marker segment that is skipped. -/
theorem find_skip_seg (fuel : Nat) (data : List Nat) (o m len : Nat) (cut : Bool)
    (st : RtpJ2KState) (hs : data.length < U32) (hmode : st.bitstream = false)
    (h0 : rd data o = Except.ok 255) (h1 : rd data (o + 1) = Except.ok m)
    (hm : skippable m = true)
    (hl : gst_rtp_j2k_pay_header_size data (o + 2) = Except.ok len)
    (hno : o + 2 + len < U32) :
    find_pu_end_loop (fuel + 1) data data.length o cut st
      = find_pu_end_loop fuel data data.length (o + 2 + len) cut st := by
  have hlt := rd_lt _ _ _ h1
  obtain ⟨n1, n2, n3, n4⟩ := skippable_ne m hm
  rw [find_pu_end_loop]
  rw [if_neg (by omega), scan_marker_at fuel data data.length o m hs hlt h0 h1, ok_bind]
  dsimp only
  rw [hmode]
  simp only [Bool.false_eq_true, if_false]
  rw [if_neg n1, if_neg n2, if_neg n3, if_neg n4, hl, ok_bind, add32_of_lt hno]

/-- The header-mode loop runs over a chain of skipped marker segments. -/
theorem find_skip_chain (data : List Nat) (p : Nat) (cut : Bool) (st : RtpJ2KState)
    (hs : data.length < U32) (hp : p ≤ data.length) (hmode : st.bitstream = false) :
    ∀ (segs : List (Nat × Nat)) (fuel o : Nat), seg_chain data o p segs = true →
      find_pu_end_loop (fuel + segs.length) data data.length o cut st
        = find_pu_end_loop fuel data data.length p cut st := by
  intro segs
  induction segs with
  | nil =>
    intro fuel o h
    rw [seg_chain] at h
    simp only [decide_eq_true_eq] at h
    subst h
    rfl
  | cons s rest ih =>
    intro fuel o h
    obtain ⟨m, len⟩ := s
    obtain ⟨h0, h1, hm, hl, h4⟩ := seg_chain_cons data o p m len rest h
    have hle := seg_chain_le data p rest _ h4
    show find_pu_end_loop ((fuel + rest.length) + 1) data data.length o cut st = _
    rw [find_skip_seg (fuel + rest.length) data o m len cut st hs hmode h0 h1 hm hl (by omega)]
    exact ih fuel _ h4

/-- The header-mode loop at an SOT marker whose length field is malformed. -/
theorem find_bad_sot (fuel : Nat) (data : List Nat) (p len : Nat) (cut : Bool)
    (st : RtpJ2KState) (hs : data.length < U32) (hmode : st.bitstream = false)
    (hmhf : st.header.MHF = 0)
    (h0 : rd data p = Except.ok 255) (h1 : rd data (p + 1) = Except.ok J2K_MARKER_SOT)
    (hl : gst_rtp_j2k_pay_header_size data (p + 2) = Except.ok len)
    (hno : p + 2 + len < U32)
    (hbad : len < 8 ∨ data.length ≤ p + 2 + len) :
    find_pu_end_loop (fuel + 1) data data.length p cut st = Except.ok (data.length, st) := by
  have hlt := rd_lt _ _ _ h1
  rw [find_pu_end_loop]
  rw [if_neg (by omega), scan_marker_at fuel data data.length p _ hs hlt h0 h1, ok_bind]
  dsimp only
  rw [hmode]
  simp only [Bool.false_eq_true, if_false]
  rw [if_pos trivial, if_neg (not_not.mpr hmhf), hl, ok_bind]
  by_cases h8 : len < 8
  · rw [if_pos h8]; rfl
  · have hge : p + 2 + len ≥ data.length := by omega
    rw [if_neg h8, add32_of_lt hno, if_pos hge]; rfl

/-! ## Malformed SOT segments -/

/-- C18: when `find_pu_end`, parsing headers with no main header pending
(`header.MHF = 0`), has skipped the marker segments `segs` (none, when the scan
starts at the marker) and meets at `p` an SOT marker whose length field is
below 8 or whose segment reaches or passes the end of the buffer
(`p + 2 + Lsot ≥ size`, `p + 2` being the offset just after the marker), it
returns `size` and the scanner state it was called with: `header.T`,
`header.tile`, `n_tiles`, `next_sot`, `bitstream` and `force_packet` keep their
values. -/
theorem malformed_sot_returns_size (fuel : Nat) (data : List Nat) (offset p len : Nat)
    (segs : List (Nat × Nat)) (st : RtpJ2KState)
    (hs : data.length < U32) (hmode : st.bitstream = false) (hmhf : st.header.MHF = 0)
    (hchain : seg_chain data offset p segs = true)
    (h0 : rd data p = Except.ok 255) (h1 : rd data (p + 1) = Except.ok J2K_MARKER_SOT)
    (hl : gst_rtp_j2k_pay_header_size data (p + 2) = Except.ok len)
    (hno : p + 2 + len < U32)
    (hbad : len < 8 ∨ data.length ≤ p + 2 + len) :
    find_pu_end (fuel + 1 + segs.length) data data.length offset st
      = Except.ok (data.length, st) := by
  unfold find_pu_end
  rw [find_skip_chain data p false st hs (by have := rd_lt _ _ _ h0; omega) hmode segs (fuel + 1)
    offset hchain]
  exact find_bad_sot fuel data p len false st hs hmode hmhf h0 h1 hl hno hbad

/-- On `bad_sot_codestream` the scanner skips one segment, meets the SOT with
length field 4 at position 4 and returns the size, 10. -/
theorem malformed_sot_returns_size_witness :
    find_pu_end 2 bad_sot_codestream 10 0 initial_state = Except.ok (10, initial_state) :=
  malformed_sot_returns_size 0 bad_sot_codestream 0 4 4 [(82, 2)] initial_state
    (by decide) rfl rfl (by decide) rfl rfl rfl (by decide) (Or.inl (by decide))

/-! ## Frames and tiles flushed by the depayloader -/

/-- C11 (failing input): after the packets `header_packet_id1` and
`short_tile_packet_unmarked` and the flush of the tile, the frame adapter holds
the 8 bytes of `sample_header`, which end with `01 02`.  The buffer that
`gst_rtp_j2k_depay_flush_frame` prepares for the hand-over is these 8 bytes as
they are, with no EOC marker behind them: the test looks at the first two
bytes of the adapter, `FF 4F`, and adds the marker only when both differ from
the bytes of EOC.  For a frame adapter holding `01 02 FF D9` the buffer
prepared is `01 02 FF D9 FF D9`.  The hand-over itself returns only when the
vector `bufferLists` is not empty. -/
theorem frame_without_eoc :
    (∃ d d1, depay_run 10 GstRtpJ2KDepay.new [header_packet_id1, short_tile_packet_unmarked]
        = Except.ok short_tile_state ∧
      gst_rtp_j2k_depay_flush_tile 10 short_tile_state = Except.ok d ∧
      d.pu_adapter = [] ∧ d.t_adapter = [] ∧ d.f_adapter = [sample_header] ∧
      sample_header.drop 6 = [1, 2] ∧
      flush_frame_outbuf d.f_adapter 8 = Except.ok ([sample_header], sample_header) ∧
      gst_rtp_j2k_depay_flush_frame 10 { short_tile_state with bufferLists := [[]] }
        = Except.ok d1 ∧
      d1.f_adapter = [sample_header] ∧
      gst_rtp_j2k_depay_flush_frame 10 short_tile_state = Except.error Fault.undefined) ∧
    flush_frame_outbuf [[1, 2, 0xFF, 0xD9]] 4
      = Except.ok ([[1, 2, 0xFF, 0xD9], [0xFF, 0xD9]], [1, 2, 0xFF, 0xD9, 0xFF, 0xD9]) ∧
    (∃ d1, gst_rtp_j2k_depay_flush_frame 10
        { depay_with_list with f_adapter := [[1, 2, 0xFF, 0xD9]] } = Except.ok d1 ∧
      d1.f_adapter = [[1, 2, 0xFF, 0xD9], [0xFF, 0xD9]]) := by
  exact ⟨⟨_, _, by rfl, by rfl, by rfl, by rfl, by rfl, by rfl, by rfl, by rfl, by rfl, by rfl⟩,
    by rfl, ⟨_, by rfl, by rfl⟩⟩

/-- C12 (failing input): after the packets `header_packet_id1` and
`short_tile_packet_unmarked` a packet that begins with SOC, or the marker flag
on the second packet, makes `gst_rtp_j2k_depay_flush_frame` hand the 8 bytes
of the frame adapter to `gst_rtp_base_depayload_push`, which calls `back()` on
the empty vector `bufferLists`: the call of `gst_rtp_j2k_depay_process` has
undefined behaviour.  With a list in the vector the stub returns, and a
further packet that starts with SOC and carries MHF = 3 then has
`store_mheader` called with the index -1: the assertion `idx < 8` fails. -/
theorem process_does_not_return :
    depay_run 10 GstRtpJ2KDepay.new [header_packet_id1, short_tile_packet_unmarked]
        = Except.ok short_tile_state ∧
      short_tile_state.bufferLists = [] ∧
      ((gst_rtp_j2k_depay_flush_tile 10 short_tile_state).map (fun d => d.f_adapter)
        = Except.ok [sample_header]) ∧
      flush_frame_outbuf [sample_header] 8 = Except.ok ([sample_header], sample_header) ∧
      (∀ d : GstRtpJ2KDepay, d.bufferLists = [] →
        gst_rtp_base_depayload_push d sample_header = Except.error Fault.undefined) ∧
      gst_rtp_j2k_depay_process 10 short_tile_state soc_packet_103
        = Except.error Fault.undefined ∧
      depay_run 10 GstRtpJ2KDepay.new [header_packet_id1, short_tile_packet_id1]
        = Except.error Fault.undefined ∧
      depay_run 10 depay_with_list [header_packet_id1, short_tile_packet_id1, header_packet_id1]
        = Except.error Fault.assertion := by
  refine ⟨by rfl, by rfl, by rfl, by rfl, ?_, by rfl, by rfl, by rfl⟩
  intro d hd
  unfold gst_rtp_base_depayload_push
  rw [hd]
  rfl

/-- C17 (counterexample): the 12-byte body of `soc_body_packet` starts with
`FF 4F`, not with SOT; flushed as a tile, it is appended to the frame adapter
behind the cached header, unchanged, and `last_tile` becomes -1. -/
theorem tile_without_sot_appended :
    ∃ d d1, depay_run 10 GstRtpJ2KDepay.new [header_packet_id1, soc_body_packet] = Except.ok d ∧
      d.pu_adapter = [[0xFF, 0x4F, 1, 2, 3, 4, 5, 6, 7, 8, 9, 10]] ∧ d.pu_MHF = 0 ∧
      d.t_adapter = [] ∧ d.f_adapter = [] ∧
      gst_rtp_j2k_depay_flush_tile 10 d = Except.ok d1 ∧
      d1.f_adapter = [sample_header, [0xFF, 0x4F, 1, 2, 3, 4, 5, 6, 7, 8, 9, 10]] ∧
      d1.t_adapter = [] ∧ d1.last_tile = U32 - 1 := by
  exact ⟨_, _, by rfl, by rfl, by rfl, by rfl, by rfl, by rfl, by rfl, by rfl, by rfl⟩

theorem take_list_head (buf : Buffer) (rest : GstAdapter) (n : Nat) (hn : n ≠ 0) :
    (gst_adapter_take_list (buf :: rest) n).1.data = some buf := by
  unfold gst_adapter_take_list
  rw [if_neg hn]
  dsimp only
  rw [gst_adapter_take_list_loop]
  dsimp only
  split <;> rfl

/-- C17 (amended): when `gst_rtp_j2k_depay_flush_tile`, having flushed the
pending unit (state `d`), takes a non-empty tile whose first buffer is shorter
than 12 bytes, the tile is discarded: the tile adapter ends empty, `last_tile`
becomes -1, and the frame adapter is the one of `d`, with at most the cached
main header pushed behind it; none of the bytes of the tile is appended. -/
theorem short_tile_discarded (fuel : Nat) (d0 d : GstRtpJ2KDepay) (buf : Buffer)
    (rest : GstAdapter) (e : List (Option Nat))
    (hpu : gst_rtp_j2k_depay_flush_pu (fuel + 1) d0 = Except.ok d)
    (ht : d.t_adapter = buf :: rest)
    (hne : gst_adapter_available d.t_adapter % U32 ≠ 0)
    (hshort : buf.length < 12)
    (hid : gst_adapter_available d.f_adapter = 0 → d.last_mh_id < 8)
    (hcopy : gst_adapter_copy d.t_adapter [none, none]
      (sub32 (gst_adapter_available d.t_adapter % U32) 2) 2 = Except.ok e) :
    ∃ d1, gst_rtp_j2k_depay_flush_tile (fuel + 1) d0 = Except.ok d1 ∧
      d1.t_adapter = [] ∧ d1.last_tile = U32 - 1 ∧
      (d1.f_adapter = d.f_adapter ∨
        ∃ mh, d.MH.getD d.last_mh_id none = some mh ∧ d1.f_adapter = d.f_adapter ++ [mh]) ∧
      d1.MH = d.MH ∧ d1.bufferLists = d.bufferLists ∧ d1.pu_adapter = d.pu_adapter := by
  have hwalk : ∀ f, flush_tile_walk (fuel + 1)
      (some (gst_adapter_take_list d.t_adapter (gst_adapter_available d.t_adapter % U32)).1) e
      (gst_adapter_available d.t_adapter % U32) f = Except.ok (f, true) := by
    intro f
    rw [flush_tile_walk]
    have hh : (gst_adapter_take_list d.t_adapter (gst_adapter_available d.t_adapter % U32)).1.data
        = some buf := by
      rw [ht]; exact take_list_head buf rest _ (by rw [← ht]; exact hne)
    rw [hh]
    dsimp only
    unfold flush_tile_body
    rw [if_pos hshort]
    rfl
  unfold gst_rtp_j2k_depay_flush_tile
  rw [hpu, ok_bind]
  dsimp only
  rw [if_neg hne]
  by_cases hf : gst_adapter_available d.f_adapter = 0
  · rw [if_pos hf, if_pos (hid hf)]
    cases hm : d.MH.getD d.last_mh_id none with
    | none =>
      rw [pure_bind]
      exact ⟨_, rfl, rfl, rfl, Or.inl rfl, rfl, rfl, rfl⟩
    | some mh =>
      rw [pure_bind]
      dsimp only
      rw [hcopy, ok_bind, hwalk, ok_bind]
      exact ⟨_, rfl, rfl, rfl, Or.inr ⟨mh, rfl, rfl⟩, rfl, rfl, rfl⟩
  · rw [if_neg hf, pure_bind]
    dsimp only
    rw [hcopy, ok_bind, hwalk, ok_bind]
    exact ⟨_, rfl, rfl, rfl, Or.inl rfl, rfl, rfl, rfl⟩

/-- The 3-byte tile pending in `short_tile_state` is discarded: only the
cached header reaches the frame adapter. -/
theorem short_tile_discarded_witness :
    ∃ d1, gst_rtp_j2k_depay_flush_tile (9 + 1) short_tile_state = Except.ok d1 ∧
      d1.t_adapter = [] ∧ d1.last_tile = U32 - 1 ∧
      (d1.f_adapter = short_tile_state_flushed.f_adapter ∨
        ∃ mh, short_tile_state_flushed.MH.getD short_tile_state_flushed.last_mh_id none = some mh ∧
          d1.f_adapter = short_tile_state_flushed.f_adapter ++ [mh]) ∧
      d1.MH = short_tile_state_flushed.MH ∧
      d1.bufferLists = short_tile_state_flushed.bufferLists ∧
      d1.pu_adapter = short_tile_state_flushed.pu_adapter :=
  short_tile_discarded 9 short_tile_state short_tile_state_flushed [0xFF, 0x90, 0] []
    [some 0xFF, some 0x90] rfl rfl (by decide) (by decide) (by decide) rfl

theorem short_tile_state_reached :
    depay_run 10 GstRtpJ2KDepay.new [header_packet_id1, short_tile_packet_unmarked]
      = Except.ok short_tile_state := by
  rfl

/-! ## States reached by the depayloader -/

theorem store_mheader_ok (d d1 : GstRtpJ2KDepay) (idx : Nat) (buf : Option Buffer)
    (h : store_mheader d idx buf = Except.ok d1) : d1 = { d with MH := d.MH.set idx buf } := by
  unfold store_mheader at h
  split at h
  · rw [pure_ok_iff] at h; exact h.symm
  · exact ((throw_ne_ok _ _).mp h).elim

theorem flush_pu_rtptime (fuel : Nat) (d d1 : GstRtpJ2KDepay)
    (h : gst_rtp_j2k_depay_flush_pu fuel d = Except.ok d1) :
    d1.last_rtptime = d.last_rtptime := by
  unfold gst_rtp_j2k_depay_flush_pu at h
  dsimp only at h
  split at h
  · rw [pure_ok_iff] at h; subst h; rfl
  · split at h
    · obtain ⟨t, _, h2⟩ := (bind_ok_iff _ _ _).mp h
      rw [pure_ok_iff] at h2; subst h2; rfl
    · obtain ⟨mh, _, h2⟩ := (bind_ok_iff _ _ _).mp h
      obtain ⟨d2, h3, h4⟩ := (bind_ok_iff _ _ _).mp h2
      rw [pure_ok_iff] at h4; subst h4
      rw [store_mheader_ok _ _ _ _ h3]

theorem flush_tile_rtptime (fuel : Nat) (d d1 : GstRtpJ2KDepay)
    (h : gst_rtp_j2k_depay_flush_tile fuel d = Except.ok d1) :
    d1.last_rtptime = d.last_rtptime := by
  unfold gst_rtp_j2k_depay_flush_tile at h
  obtain ⟨d2, h1, h2⟩ := (bind_ok_iff _ _ _).mp h
  have e := flush_pu_rtptime fuel d d2 h1
  dsimp only at h2
  split at h2
  · rw [pure_ok_iff] at h2; subst h2; exact e
  · obtain ⟨fOpt, _, h4⟩ := (bind_ok_iff _ _ _).mp h2
    cases fOpt with
    | none => dsimp only at h4; rw [pure_ok_iff] at h4; subst h4; exact e
    | some f =>
      dsimp only at h4
      obtain ⟨end_, _, h6⟩ := (bind_ok_iff _ _ _).mp h4
      obtain ⟨res, _, h8⟩ := (bind_ok_iff _ _ _).mp h6
      split at h8
      · rw [pure_ok_iff] at h8; subst h8; exact e
      · rw [pure_ok_iff] at h8; subst h8; exact e

/-- When `gst_rtp_base_depayload_push` returns it has changed nothing. -/
theorem push_ok (d d1 : GstRtpJ2KDepay) (buf : Buffer)
    (h : gst_rtp_base_depayload_push d buf = Except.ok d1) : d1 = d := by
  unfold gst_rtp_base_depayload_push at h
  split at h
  · cases h
  · rw [pure_ok_iff] at h; exact h.symm

theorem flush_frame_rtptime (fuel : Nat) (d d1 : GstRtpJ2KDepay)
    (h : gst_rtp_j2k_depay_flush_frame fuel d = Except.ok d1) :
    d1.last_rtptime = d.last_rtptime := by
  unfold gst_rtp_j2k_depay_flush_frame at h
  obtain ⟨d2, h1, h2⟩ := (bind_ok_iff _ _ _).mp h
  have e := flush_tile_rtptime fuel d d2 h1
  dsimp only at h2
  split at h2
  · rw [store_mheader_ok _ _ _ _ h2]; exact e
  · obtain ⟨d3, h3, h4⟩ := (bind_ok_iff _ _ _).mp h2
    rw [store_mheader_ok _ _ _ _ h4]
    show d3.last_rtptime = d.last_rtptime
    split at h3
    · obtain ⟨fo, _, h5⟩ := (bind_ok_iff _ _ _).mp h3
      obtain ⟨f, outbuf⟩ := fo
      rw [push_ok _ _ _ h5]; exact e
    · rw [pure_ok_iff] at h3; subst h3; exact e

theorem sync_switch_rtptime (fuel : Nat) (d d1 : GstRtpJ2KDepay) (marker tile : Nat)
    (h : sync_switch fuel d marker tile = Except.ok d1) :
    d1.last_rtptime = d.last_rtptime := by
  unfold sync_switch at h
  split at h
  · obtain ⟨d2, h1, h2⟩ := (bind_ok_iff _ _ _).mp h
    rw [pure_ok_iff] at h2; subst h2
    exact flush_frame_rtptime fuel d d2 h1
  · split at h
    · obtain ⟨d2, h1, h2⟩ := (bind_ok_iff _ _ _).mp h
      rw [pure_ok_iff] at h2; subst h2
      exact flush_tile_rtptime fuel d d2 h1
    · split at h
      · obtain ⟨d2, h1, h2⟩ := (bind_ok_iff _ _ _).mp h
        have e := flush_pu_rtptime fuel d d2 h1
        split at h2
        · obtain ⟨d3, h3, h4⟩ := (bind_ok_iff _ _ _).mp h2
          rw [pure_ok_iff] at h4; subst h4
          show d3.last_rtptime = d.last_rtptime
          split at h3
          · rw [flush_tile_rtptime fuel d2 d3 h3]; exact e
          · rw [pure_ok_iff] at h3; subst h3; exact e
        · rw [pure_ok_iff] at h2; subst h2; exact e
      · rw [pure_ok_iff] at h; subst h; rfl

/-- After a packet of 8 bytes or more, `last_rtptime` is the timestamp of the
packet. -/
theorem process_rtptime (fuel : Nat) (d d1 : GstRtpJ2KDepay) (rtp : RtpPacket)
    (hlen : ¬ rtp.payload.length % U32 < HEADER_SIZE)
    (h : gst_rtp_j2k_depay_process fuel d rtp = Except.ok d1) :
    d1.last_rtptime = gst_rtp_buffer_get_timestamp rtp := by
  unfold gst_rtp_j2k_depay_process at h
  dsimp only at h
  rw [if_neg hlen] at h
  obtain ⟨d2, h1, h2⟩ := (bind_ok_iff _ _ _).mp h
  have e2 : d2.last_rtptime = gst_rtp_buffer_get_timestamp rtp := by
    split at h1
    · rw [flush_frame_rtptime fuel _ d2 h1]
    · rename_i hc
      rw [pure_ok_iff] at h1; subst h1
      exact not_not.mp hc
  split at h2
  · rw [pure_ok_iff] at h2; subst h2; exact e2
  · obtain ⟨d5, h5, h6⟩ := (bind_ok_iff _ _ _).mp h2
    obtain ⟨d6, h7, h8⟩ := (bind_ok_iff _ _ _).mp h6
    have e5 : d5.last_rtptime = gst_rtp_buffer_get_timestamp rtp := by
      split at h5
      · rw [sync_switch_rtptime fuel _ d5 _ _ h5]
        split
        · split <;> exact e2
        · split <;> exact e2
      · rw [pure_ok_iff] at h5; subst h5
        split
        · split <;> exact e2
        · split <;> exact e2
    have e6 : d6.last_rtptime = gst_rtp_buffer_get_timestamp rtp := by
      split at h7
      · split at h7
        · rw [flush_pu_rtptime fuel _ d6 h7]
          split <;> exact e5
        · rw [pure_ok_iff] at h7; subst h7
          split <;> exact e5
      · rw [pure_ok_iff] at h7; subst h7; exact e5
    split at h8
    · rw [flush_frame_rtptime fuel d6 d1 h8]; exact e6
    · rw [pure_ok_iff] at h8; subst h8; exact e6

/-- A reachable state carries the timestamp 0 of the simulation, or is the
state of a fresh depayloader. -/
theorem reachable_rtptime (d : GstRtpJ2KDepay) (h : Reachable d) :
    d.last_rtptime = 0 ∨ d = GstRtpJ2KDepay.new := by
  induction h with
  | fresh => exact Or.inr rfl
  | step fuel d rtp d1 _ hp ih =>
    by_cases hlen : rtp.payload.length % U32 < HEADER_SIZE
    · unfold gst_rtp_j2k_depay_process at hp
      dsimp only at hp
      rw [if_pos hlen, pure_ok_iff] at hp
      subst hp; exact ih
    · exact Or.inl (process_rtptime fuel d d1 rtp hlen hp)

/-! ## Packets that meet a gap -/

theorem process_fresh (fuel : Nat) (rtp : RtpPacket)
    (hlen : ¬ rtp.payload.length % U32 < HEADER_SIZE) :
    gst_rtp_j2k_depay_process fuel GstRtpJ2KDepay.new rtp
      = gst_rtp_j2k_depay_process fuel { GstRtpJ2KDepay.new with last_rtptime := 0 } rtp := by
  unfold gst_rtp_j2k_depay_process
  dsimp only
  rw [if_neg hlen, if_neg hlen]
  rfl

/-- A packet that meets a gap is processed as if the PU adapter had been
empty and the synchronization lost (state of the current timestamp). -/
theorem process_gap_clear (fuel : Nat) (d : GstRtpJ2KDepay) (rtp : RtpPacket)
    (hlen : ¬ rtp.payload.length % U32 < HEADER_SIZE)
    (htime : d.last_rtptime = gst_rtp_buffer_get_timestamp rtp)
    (hgap : sub32 (parse_frag_offset rtp.payload) d.next_frag ≠ 0) :
    gst_rtp_j2k_depay_process fuel d rtp
      = gst_rtp_j2k_depay_process fuel (gst_rtp_j2k_depay_clear_pu d) rtp := by
  obtain ⟨rt, mh, tile, MH, puMHF, pu, t, f, nf, hs, bl⟩ := d
  simp only at htime hgap
  subst htime
  unfold gst_rtp_j2k_depay_process gst_rtp_j2k_depay_clear_pu gst_adapter_clear
  simp only [if_neg hlen, ne_eq, not_true_eq_false, if_false, pure_bind]
  by_cases hid : ¬ mh = U32 - 1 ∧ ¬ mh = parse_mh_id rtp.payload
  · simp only [hid, not_false_eq_true, and_self, if_true]
  · simp only [hid, if_false]
    by_cases h1 : mh = U32 - 1
    · simp only [h1, if_true, hgap, not_false_eq_true]
    · simp only [h1, if_false, hgap, not_false_eq_true, if_true]

theorem reachable_gap_clear (fuel : Nat) (d : GstRtpJ2KDepay) (rtp : RtpPacket)
    (hr : Reachable d) (hlen : HEADER_SIZE ≤ rtp.payload.length % U32)
    (hgap : sub32 (parse_frag_offset rtp.payload) d.next_frag ≠ 0) :
    gst_rtp_j2k_depay_process fuel d rtp
      = gst_rtp_j2k_depay_process fuel (gst_rtp_j2k_depay_clear_pu d) rtp := by
  rcases reachable_rtptime d hr with h0 | hn
  · exact process_gap_clear fuel d rtp (by omega) h0 hgap
  · subst hn; rfl

theorem parse_MHF_append (hdr body : List Nat) (h : hdr.length = 8) :
    parse_MHF (hdr ++ body) = parse_MHF hdr := by
  unfold parse_MHF; rw [List.getD_append _ _ _ _ (by omega)]

theorem parse_mh_id_append (hdr body : List Nat) (h : hdr.length = 8) :
    parse_mh_id (hdr ++ body) = parse_mh_id hdr := by
  unfold parse_mh_id; rw [List.getD_append _ _ _ _ (by omega)]

theorem parse_tile_append (hdr body : List Nat) (h : hdr.length = 8) :
    parse_tile (hdr ++ body) = parse_tile hdr := by
  unfold parse_tile
  rw [List.getD_append _ _ _ _ (by omega), List.getD_append _ _ _ _ (by omega)]

theorem parse_frag_offset_append (hdr body : List Nat) (h : hdr.length = 8) :
    parse_frag_offset (hdr ++ body) = parse_frag_offset hdr := by
  unfold parse_frag_offset
  rw [List.getD_append _ _ _ _ (by omega), List.getD_append _ _ _ _ (by omega),
    List.getD_append _ _ _ _ (by omega)]

theorem body_getD_0 (hdr body : List Nat) (h : hdr.length = 8) :
    (hdr ++ body).getD HEADER_SIZE 0 = body.getD 0 0 := by
  unfold HEADER_SIZE
  rw [List.getD_append_right _ _ _ _ (by omega), h]

theorem body_getD_1 (hdr body : List Nat) (h : hdr.length = 8) :
    (hdr ++ body).getD (HEADER_SIZE + 1) 0 = body.getD 1 0 := by
  unfold HEADER_SIZE
  rw [List.getD_append_right _ _ _ _ (by omega), h]

theorem body_drop (hdr body : List Nat) (h : hdr.length = 8) :
    (hdr ++ body).drop HEADER_SIZE = body := by
  unfold HEADER_SIZE
  exact List.drop_left' h

theorem map_bind_congr {α β γ : Type} (x : Except Fault α) (F G : α → Except Fault β)
    (g : β → γ) (h : ∀ a, (F a).map g = (G a).map g) :
    (x >>= F).map g = (x >>= G).map g := by
  cases x with
  | error e => rfl
  | ok a => exact h a

/-- Up to the contents of the PU adapter, `gst_rtp_j2k_depay_process` reads a
packet without marker flag and without the bit 2 of MHF through its header,
its length and the first two bytes of its body only. -/
theorem process_body_congr (fuel : Nat) (d : GstRtpJ2KDepay) (hdr body body1 : List Nat)
    (hh : hdr.length = 8) (hl : body1.length = body.length)
    (h0 : body1.getD 0 0 = body.getD 0 0) (h1 : body1.getD 1 0 = body.getD 1 0)
    (hmhf : parse_MHF hdr &&& 2 = 0) :
    (gst_rtp_j2k_depay_process fuel d ⟨hdr ++ body, false⟩).map
        (fun s => { s with pu_adapter := [] })
      = (gst_rtp_j2k_depay_process fuel d ⟨hdr ++ body1, false⟩).map
        (fun s => { s with pu_adapter := [] }) := by
  unfold gst_rtp_j2k_depay_process
  simp only [parse_MHF_append _ _ hh, parse_mh_id_append _ _ hh, parse_tile_append _ _ hh,
    parse_frag_offset_append _ _ hh, body_getD_0 _ _ hh, body_getD_1 _ _ hh, body_drop _ _ hh,
    List.length_append, hl, h0, h1, hmhf]
  by_cases hc : (hdr.length + body.length) % U32 < HEADER_SIZE
  · simp only [hc, if_true]
  · simp only [hc, if_false]
    refine map_bind_congr _ _ _ _ (fun d1 => ?_)
    by_cases hid : d1.last_mh_id ≠ U32 - 1 ∧ d1.last_mh_id ≠ parse_mh_id hdr
    · rw [if_pos hid, if_pos hid]
    · rw [if_neg hid, if_neg hid]
      refine map_bind_congr _ _ _ _ (fun d5 => ?_)
      by_cases hs : d5.have_sync = true
      · simp only [hs, if_true, ne_eq, not_true_eq_false, if_false, pure_bind,
          Bool.false_eq_true]
        rfl
      · simp only [hs, if_false, pure_bind, Bool.false_eq_true]

theorem sync_switch_other (fuel : Nat) (d : GstRtpJ2KDepay) (marker tile : Nat)
    (h : marker ≠ J2K_MARKER_SOC ∧ marker ≠ J2K_MARKER_SOT ∧ marker ≠ J2K_MARKER_SOP) :
    sync_switch fuel d marker tile = pure d := by
  unfold sync_switch
  rw [if_neg h.1, if_neg h.2.1, if_neg h.2.2]

theorem sync_none (fuel : Nat) (d : GstRtpJ2KDepay) (j2klen b0 b1 tile : Nat)
    (h : b0 = 0xff → b1 ≠ J2K_MARKER_SOC ∧ b1 ≠ J2K_MARKER_SOT ∧ b1 ≠ J2K_MARKER_SOP) :
    (if j2klen > 2 ∧ b0 = 0xff then sync_switch fuel d b1 tile else pure d) = pure d := by
  split
  · rename_i hc
    exact sync_switch_other fuel d b1 tile (h hc.2)
  · rfl

/-- A packet that meets a gap and does not start with SOC, SOT or SOP is
dropped: `gst_rtp_j2k_depay_process` does not read its body. -/
theorem process_dropped_congr (fuel : Nat) (d : GstRtpJ2KDepay) (hdr body body1 : List Nat)
    (m : Bool) (hh : hdr.length = 8) (hl : body1.length = body.length)
    (htime : d.last_rtptime = 0)
    (hgap : sub32 (parse_frag_offset hdr) d.next_frag ≠ 0)
    (hb : body.getD 0 0 = 0xff →
      body.getD 1 0 ≠ J2K_MARKER_SOC ∧ body.getD 1 0 ≠ J2K_MARKER_SOT ∧
        body.getD 1 0 ≠ J2K_MARKER_SOP)
    (hb1 : body1.getD 0 0 = 0xff →
      body1.getD 1 0 ≠ J2K_MARKER_SOC ∧ body1.getD 1 0 ≠ J2K_MARKER_SOT ∧
        body1.getD 1 0 ≠ J2K_MARKER_SOP) :
    gst_rtp_j2k_depay_process fuel d ⟨hdr ++ body, m⟩
      = gst_rtp_j2k_depay_process fuel d ⟨hdr ++ body1, m⟩ := by
  obtain ⟨rt, mh, tile, MH, puMHF, pu, t, f, nf, hs, bl⟩ := d
  simp only at htime hgap
  subst htime
  unfold gst_rtp_j2k_depay_process
  simp only [parse_MHF_append _ _ hh, parse_mh_id_append _ _ hh, parse_tile_append _ _ hh,
    parse_frag_offset_append _ _ hh, body_getD_0 _ _ hh, body_getD_1 _ _ hh, body_drop _ _ hh,
    List.length_append, hl]
  by_cases hc : (hdr.length + body.length) % U32 < HEADER_SIZE
  · simp only [hc, if_true]
  · simp only [hc, if_false, gst_rtp_buffer_get_timestamp, ne_eq, not_true_eq_false, pure_bind]
    by_cases hid : ¬ mh = U32 - 1 ∧ ¬ mh = parse_mh_id hdr
    · rw [if_pos hid, if_pos hid]
    · rw [if_neg hid, if_neg hid]
      rw [sync_none _ _ _ _ _ _ hb, sync_none _ _ _ _ _ _ hb1]
      by_cases h1 : mh = U32 - 1
      · simp only [h1, if_true, hgap, not_false_eq_true, gst_rtp_j2k_depay_clear_pu, pure_bind,
          Bool.false_eq_true, if_false]
      · simp only [h1, if_false, hgap, not_false_eq_true, if_true, gst_rtp_j2k_depay_clear_pu,
          pure_bind, Bool.false_eq_true]

theorem bind_congr_ok {α β : Type} (x : Except Fault α) (F G : α → Except Fault β)
    (h : ∀ a, x = Except.ok a → F a = G a) : (x >>= F) = (x >>= G) := by
  cases x with
  | error e => rfl
  | ok a => exact h a rfl

theorem depay_run_cons (fuel : Nat) (d : GstRtpJ2KDepay) (rtp : RtpPacket)
    (rest : List RtpPacket) :
    depay_run fuel d (rtp :: rest)
      = (gst_rtp_j2k_depay_process fuel d rtp >>= fun d1 => depay_run fuel d1 rest) := rfl

theorem reachable_dropped_congr (fuel : Nat) (d : GstRtpJ2KDepay) (hdr body body1 : List Nat)
    (m : Bool) (hr : Reachable d) (hh : hdr.length = 8) (hl : body1.length = body.length)
    (hgap : sub32 (parse_frag_offset hdr) d.next_frag ≠ 0)
    (hb : body.getD 0 0 = 0xff →
      body.getD 1 0 ≠ J2K_MARKER_SOC ∧ body.getD 1 0 ≠ J2K_MARKER_SOT ∧
        body.getD 1 0 ≠ J2K_MARKER_SOP)
    (hb1 : body1.getD 0 0 = 0xff →
      body1.getD 1 0 ≠ J2K_MARKER_SOC ∧ body1.getD 1 0 ≠ J2K_MARKER_SOT ∧
        body1.getD 1 0 ≠ J2K_MARKER_SOP) :
    gst_rtp_j2k_depay_process fuel d ⟨hdr ++ body, m⟩
      = gst_rtp_j2k_depay_process fuel d ⟨hdr ++ body1, m⟩ := by
  rcases reachable_rtptime d hr with h0 | hn
  · exact process_dropped_congr fuel d hdr body body1 m hh hl h0 hgap hb hb1
  · subst hn
    by_cases hc : (hdr ++ body).length % U32 < HEADER_SIZE
    · have hc1 : (hdr ++ body1).length % U32 < HEADER_SIZE := by
        rw [List.length_append, hl, ← List.length_append]; exact hc
      unfold gst_rtp_j2k_depay_process
      dsimp only
      rw [if_pos hc, if_pos hc1]
    · have hc1 : ¬ (hdr ++ body1).length % U32 < HEADER_SIZE := by
        rw [List.length_append, hl, ← List.length_append]; exact hc
      rw [process_fresh fuel _ hc, process_fresh fuel _ hc1]
      exact process_dropped_congr fuel _ hdr body body1 m hh hl rfl hgap hb hb1

/-- Two runs that differ in the bodies of a dropped packet and of a packet
that is only pushed end in the same state once a further packet met a gap. -/
theorem swapped_bodies_congr (fuel : Nat) (d : GstRtpJ2KDepay) (hr : Reachable d)
    (hb ha bb bb1 ba ba1 : List Nat) (mb : Bool) (c : RtpPacket)
    (hhb : hb.length = 8) (hha : ha.length = 8)
    (hlb : bb1.length = bb.length) (hla : ba1.length = ba.length)
    (hsa : (ha ++ ba).length < U32)
    (hgap : sub32 (parse_frag_offset hb) d.next_frag ≠ 0)
    (hnb : bb.getD 0 0 = 0xff →
      bb.getD 1 0 ≠ J2K_MARKER_SOC ∧ bb.getD 1 0 ≠ J2K_MARKER_SOT ∧ bb.getD 1 0 ≠ J2K_MARKER_SOP)
    (hnb1 : bb1.getD 0 0 = 0xff →
      bb1.getD 1 0 ≠ J2K_MARKER_SOC ∧ bb1.getD 1 0 ≠ J2K_MARKER_SOT ∧
        bb1.getD 1 0 ≠ J2K_MARKER_SOP)
    (hmhf : parse_MHF ha &&& 2 = 0)
    (ha0 : ba1.getD 0 0 = ba.getD 0 0) (ha1 : ba1.getD 1 0 = ba.getD 1 0)
    (hc : HEADER_SIZE ≤ c.payload.length % U32)
    (hgapc : ∀ s, depay_run fuel d [⟨hb ++ bb, mb⟩, ⟨ha ++ ba, false⟩] = Except.ok s →
      sub32 (parse_frag_offset c.payload) s.next_frag ≠ 0) :
    depay_run fuel d [⟨hb ++ bb, mb⟩, ⟨ha ++ ba, false⟩, c]
      = depay_run fuel d [⟨hb ++ bb1, mb⟩, ⟨ha ++ ba1, false⟩, c] := by
  rw [depay_run_cons, depay_run_cons fuel d ⟨hb ++ bb1, mb⟩,
    ← reachable_dropped_congr fuel d hb bb bb1 mb hr hhb hlb hgap hnb hnb1]
  refine bind_congr_ok _ _ _ (fun s1 hs1 => ?_)
  rw [depay_run_cons, depay_run_cons fuel s1 ⟨ha ++ ba1, false⟩]
  have hcong := process_body_congr fuel s1 ha ba ba1 hha hla ha0 ha1 hmhf
  have hacc : ¬ (ha ++ ba).length % U32 < HEADER_SIZE := by
    rw [Nat.mod_eq_of_lt hsa, List.length_append, hha]; unfold HEADER_SIZE; omega
  have hacc1 : ¬ (ha ++ ba1).length % U32 < HEADER_SIZE := by
    rw [List.length_append, hla, ← List.length_append]; exact hacc
  cases h2 : gst_rtp_j2k_depay_process fuel s1 ⟨ha ++ ba, false⟩ with
  | error e =>
    rw [h2] at hcong
    cases h3 : gst_rtp_j2k_depay_process fuel s1 ⟨ha ++ ba1, false⟩ with
    | error e1 =>
      rw [h3] at hcong
      have : e = e1 := by
        simp only [Except.map] at hcong
        exact Except.error.inj hcong
      rw [this]
    | ok s3 => rw [h3] at hcong; simp [Except.map] at hcong
  | ok s2 =>
    rw [h2] at hcong
    cases h3 : gst_rtp_j2k_depay_process fuel s1 ⟨ha ++ ba1, false⟩ with
    | error e1 => rw [h3] at hcong; simp [Except.map] at hcong
    | ok s3 =>
      rw [h3] at hcong
      have heq : ({ s2 with pu_adapter := [] } : GstRtpJ2KDepay) = { s3 with pu_adapter := [] } := by
        simp only [Except.map] at hcong
        exact Except.ok.inj hcong
      have hrun : depay_run fuel d [⟨hb ++ bb, mb⟩, ⟨ha ++ ba, false⟩] = Except.ok s2 := by
        rw [depay_run_cons, hs1, ok_bind, depay_run_cons, h2]
        rfl
      have hg2 := hgapc s2 hrun
      have ht2 := process_rtptime fuel s1 s2 _ hacc h2
      have ht3 := process_rtptime fuel s1 s3 _ hacc1 h3
      have hnf : s3.next_frag = s2.next_frag := by
        have := congrArg GstRtpJ2KDepay.next_frag heq
        exact this.symm
      have hclr : gst_rtp_j2k_depay_clear_pu s2 = gst_rtp_j2k_depay_clear_pu s3 := by
        have := congrArg gst_rtp_j2k_depay_clear_pu heq
        exact this
      rw [ok_bind, ok_bind, depay_run_cons, depay_run_cons fuel s3,
        process_gap_clear fuel s2 c (by omega) ht2 hg2,
        process_gap_clear fuel s3 c (by omega) ht3 (by rw [hnf]; exact hg2), hclr]

theorem reachable_run (fuel : Nat) :
    ∀ (pkts : List RtpPacket) (d d1 : GstRtpJ2KDepay), Reachable d →
      depay_run fuel d pkts = Except.ok d1 → Reachable d1 := by
  intro pkts
  induction pkts with
  | nil =>
    intro d d1 hr h
    have : d = d1 := Except.ok.inj h
    rw [← this]; exact hr
  | cons rtp rest ih =>
    intro d d1 hr h
    rw [depay_run_cons] at h
    obtain ⟨d2, h1, h2⟩ := (bind_ok_iff _ _ _).mp h
    exact ih d2 d1 (Reachable.step fuel d rtp d2 hr h1) h2

theorem short_tile_state_reachable : Reachable short_tile_state :=
  reachable_run 10 _ _ _ Reachable.fresh short_tile_state_reached

theorem swapped_state_reached :
    depay_run 10 short_tile_state
        [late_fragment [6, 6, 6, 6], early_fragment [0xFF, 0x91, 0, 4, 0, 0, 5, 5]]
      = Except.ok swapped_state := by
  rfl

/-- C13: for every state a depayloader can reach, (1) a packet of 8 bytes or
more whose fragment offset differs from `next_frag` is processed exactly as it
would be had the PU adapter been empty and `have_sync` false before the call
(`gst_rtp_j2k_depay_clear_pu`): the bytes that were in the PU adapter reach
neither the tile adapter, the frame adapter, the header cache nor a delivered
frame, and the resync-marker detection runs on the cleared state; (2) when the
later fragment of a unit arrives first (it meets a gap and does not start with
SOC, SOT or SOP), followed by the earlier one (no marker flag, bit 2 of MHF
clear) and by a packet that meets a gap again, the state after the three
packets, the vector `bufferLists` included, is the same whatever the body bytes of the
two fragments are: none of them is kept. -/
theorem gap_discards_pu (fuel : Nat) (d : GstRtpJ2KDepay) (hr : Reachable d) :
    (∀ rtp : RtpPacket, HEADER_SIZE ≤ rtp.payload.length % U32 →
      sub32 (parse_frag_offset rtp.payload) d.next_frag ≠ 0 →
      gst_rtp_j2k_depay_process fuel d rtp
        = gst_rtp_j2k_depay_process fuel (gst_rtp_j2k_depay_clear_pu d) rtp) ∧
    (∀ (hb ha bb bb1 ba ba1 : List Nat) (mb : Bool) (c : RtpPacket),
      hb.length = 8 → ha.length = 8 → bb1.length = bb.length → ba1.length = ba.length →
      (ha ++ ba).length < U32 →
      sub32 (parse_frag_offset hb) d.next_frag ≠ 0 →
      (bb.getD 0 0 = 0xff →
        bb.getD 1 0 ≠ J2K_MARKER_SOC ∧ bb.getD 1 0 ≠ J2K_MARKER_SOT ∧
          bb.getD 1 0 ≠ J2K_MARKER_SOP) →
      (bb1.getD 0 0 = 0xff →
        bb1.getD 1 0 ≠ J2K_MARKER_SOC ∧ bb1.getD 1 0 ≠ J2K_MARKER_SOT ∧
          bb1.getD 1 0 ≠ J2K_MARKER_SOP) →
      parse_MHF ha &&& 2 = 0 → ba1.getD 0 0 = ba.getD 0 0 → ba1.getD 1 0 = ba.getD 1 0 →
      HEADER_SIZE ≤ c.payload.length % U32 →
      (∀ s, depay_run fuel d [⟨hb ++ bb, mb⟩, ⟨ha ++ ba, false⟩] = Except.ok s →
        sub32 (parse_frag_offset c.payload) s.next_frag ≠ 0) →
      depay_run fuel d [⟨hb ++ bb, mb⟩, ⟨ha ++ ba, false⟩, c]
        = depay_run fuel d [⟨hb ++ bb1, mb⟩, ⟨ha ++ ba1, false⟩, c]) :=
  ⟨fun rtp hl hg => reachable_gap_clear fuel d rtp hr hl hg,
   fun hb ha bb bb1 ba ba1 mb c hhb hha hlb hla hsa hgap hnb hnb1 hmhf ha0 ha1 hc hgapc =>
    swapped_bodies_congr fuel d hr hb ha bb bb1 ba ba1 mb c hhb hha hlb hla hsa hgap hnb hnb1
      hmhf ha0 ha1 hc hgapc⟩

/-- With a unit pending in `short_tile_state` (`next_frag` = 103), the fragment
at offset 111 is processed as on the cleared state; and when it is followed by
the fragment at offset 103 and by the packet at offset 115, the final state
does not depend on the bodies of the two fragments. -/
theorem gap_discards_pu_witness :
    gst_rtp_j2k_depay_process 10 short_tile_state (late_fragment [6, 6, 6, 6])
        = gst_rtp_j2k_depay_process 10 (gst_rtp_j2k_depay_clear_pu short_tile_state)
          (late_fragment [6, 6, 6, 6]) ∧
      depay_run 10 short_tile_state
          [late_fragment [6, 6, 6, 6], early_fragment [0xFF, 0x91, 0, 4, 0, 0, 5, 5],
            next_unit_packet]
        = depay_run 10 short_tile_state
          [late_fragment [9, 9, 9, 9], early_fragment [0xFF, 0x91, 1, 1, 1, 1, 1, 1],
            next_unit_packet] :=
  ⟨(gap_discards_pu 10 short_tile_state short_tile_state_reachable).1 _ (by decide) (by decide),
   (gap_discards_pu 10 short_tile_state short_tile_state_reachable).2
      [2, 255, 0, 0, 0, 0, 0, 111] [2, 255, 0, 0, 0, 0, 0, 103] [6, 6, 6, 6] [9, 9, 9, 9]
      [0xFF, 0x91, 0, 4, 0, 0, 5, 5] [0xFF, 0x91, 1, 1, 1, 1, 1, 1] false next_unit_packet
      rfl rfl rfl rfl (by decide) (by decide) (by decide) (by decide) (by decide) rfl rfl
      (by decide)
      (fun s hs => by
        have h2 : swapped_state = s := Except.ok.inj (swapped_state_reached.symm.trans hs)
        rw [← h2]
        decide)⟩

/-! ## The payloader after a malformed SOT segment -/

theorem data_size_of_fit (pu mtu : Nat) (hm : 8 < mtu) (hpu : pu ≤ sub32 mtu HEADER_SIZE) :
    data_size_of pu mtu = pu := by
  unfold data_size_of add32 sub32 HEADER_SIZE U32 at *
  split <;> omega

theorem pack_loop_big (fuel : Nat) (data : List Nat) (max_size offset end_ : Nat)
    (st : RtpJ2KState) (hforce : st.force_packet = false)
    (hsz : sub32 end_ offset > max_size) :
    pack_loop (fuel + 1) data max_size offset offset end_ st
      = Except.ok (sub32 end_ offset, end_, end_, st) := by
  rw [pack_loop]
  dsimp only
  rw [if_neg (by simp [hforce]), if_pos hsz, if_neg (by simp)]
  rfl

/-- A unit that fits one packet is emitted as one packet. -/
theorem emit_loop_single (fuel : Nat) (data : List Nat) (mtu end_ pu offset : Nat) (mk : Bool)
    (st : RtpJ2KState) (list : List Packet) (hpu : pu ≠ 0) (hm : 8 < mtu)
    (hfit : pu ≤ sub32 mtu HEADER_SIZE) (hin : offset + pu ≤ data.length)
    (hs : data.length < U32) :
    emit_loop (fuel + 2) data mtu end_ pu offset mk st list = Except.ok
      (RtpJ2KState.mk
          (RtpJ2KHeader.mk st.header.tp 0 st.header.mh_id 1 st.header.priority 0
            ((offset + pu) % 16777216))
          st.bitstream st.n_tiles st.next_sot st.force_packet,
        list ++ [⟨header_bytes (RtpJ2KHeader.mk st.header.tp
              (if st.header.MHF ≠ 0 then (if offset = 0 then 3 else 2) else 0)
              st.header.mh_id st.header.T st.header.priority st.header.tile st.header.offset)
            ++ (data.drop offset).take pu,
          if end_ ≥ data.length then true else mk⟩]) := by
  have hd := data_size_of_fit pu mtu hm hfit
  have h0 : sub32 pu pu = 0 := by unfold sub32 U32 at *; omega
  have ha : add32 offset pu = offset + pu := add32_of_lt (by omega)
  rw [emit_loop_step (fuel + 1) data mtu end_ pu offset mk st list hpu (by rw [hd]; exact hin),
    hd, h0, ha, emit_loop_done]
  simp only [true_and]
  by_cases hM : st.header.MHF = 0
  · simp only [hM, ne_eq, not_true_eq_false, if_false]
  · simp only [hM, ne_eq, not_false_eq_true, if_true]

/-! ## The pass of the payloader over the main header -/

/-- The scan of a main header: SOC, the marker segments `segs`, and the first
SOT marker at `p`. -/
theorem find_main_header (fuel : Nat) (data : List Nat) (p : Nat) (segs : List (Nat × Nat))
    (st : RtpJ2KState) (hs : data.length < U32) (hmode : st.bitstream = false)
    (hsoc0 : rd data 0 = Except.ok 255) (hsoc1 : rd data 1 = Except.ok J2K_MARKER_SOC)
    (hchain : seg_chain data 2 p segs = true)
    (h0 : rd data p = Except.ok 255) (h1 : rd data (p + 1) = Except.ok J2K_MARKER_SOT) :
    find_pu_end (fuel + 2 + segs.length) data data.length 0 st
      = Except.ok (p, RtpJ2KState.mk
          (RtpJ2KHeader.mk st.header.tp 1 st.header.mh_id st.header.T st.header.priority
            st.header.tile st.header.offset)
          false st.n_tiles st.next_sot true) := by
  have hp := rd_lt _ _ _ h1
  have hlt1 := rd_lt _ _ _ hsoc1
  unfold find_pu_end
  have e : fuel + 2 + segs.length = (fuel + 1 + segs.length) + 1 := by omega
  rw [e, find_pu_end_loop, if_neg (by omega),
    scan_marker_at (fuel + 1 + segs.length) data data.length 0 _ hs hlt1 hsoc0 hsoc1, ok_bind]
  dsimp only
  rw [hmode]
  simp only [Bool.false_eq_true, if_false, if_true]
  rw [find_skip_chain data p false _ hs (by omega) rfl segs (fuel + 1) 2 hchain,
    find_pu_end_loop, if_neg (by omega),
    scan_marker_at fuel data data.length p _ hs hp h0 h1, ok_bind]
  dsimp only
  simp only [Bool.false_eq_true, if_false]
  rw [if_neg (by decide), if_pos trivial, if_pos (by decide)]
  have e2 : sub32 (p + 2) 2 = p := by unfold sub32 U32 at *; omega
  rw [e2]
  rfl

/-- The first pass of the outer loop over a main header that fits one packet:
the header is emitted as a packet of its own, with MHF = 3 and T = 1 and
without the marker flag. -/
theorem outer_loop_main_header (fuel : Nat) (data : List Nat) (mtu p : Nat)
    (segs : List (Nat × Nat)) (hs : data.length < U32) (hm : 8 < mtu)
    (hsoc0 : rd data 0 = Except.ok 255) (hsoc1 : rd data 1 = Except.ok J2K_MARKER_SOC)
    (hchain : seg_chain data 2 p segs = true)
    (h0 : rd data p = Except.ok 255) (h1 : rd data (p + 1) = Except.ok J2K_MARKER_SOT)
    (hfit : p ≤ sub32 mtu HEADER_SIZE) :
    outer_loop (fuel + 3 + segs.length) data mtu (sub32 mtu HEADER_SIZE) 0 0 0 initial_state []
      = outer_loop (fuel + 2 + segs.length) data mtu (sub32 mtu HEADER_SIZE) p p p
          (mk_state 0 1 0 (p % 16777216) false 0 0 false)
          [⟨header_bytes ⟨0, 3, 0, 1, 255, 0, 0⟩ ++ data.take p, false⟩] := by
  have hp := rd_lt _ _ _ h1
  have hqp := seg_chain_le data p segs 2 hchain
  have hfind : find_pu_end (fuel + 2 + segs.length + 1) data (data.length % U32) 0 initial_state
      = Except.ok (p, mk_state 1 1 0 0 false 0 0 true) := by
    rw [Nat.mod_eq_of_lt hs]
    have e : fuel + 2 + segs.length + 1 = (fuel + 1) + 2 + segs.length := by omega
    rw [e]
    exact find_main_header (fuel + 1) data p segs initial_state hs rfl hsoc0 hsoc1 hchain h0 h1
  have h00 : sub32 0 0 = 0 := rfl
  have hp0 : sub32 p 0 = p := sub32_zero p (by omega)
  have hpack : pack_loop (fuel + 2 + segs.length + 1) data (sub32 mtu HEADER_SIZE) 0 0 0
      initial_state = Except.ok (p, p, p, mk_state 1 1 0 0 false 0 0 false) := by
    have e : fuel + 2 + segs.length = (fuel + 1 + segs.length) + 1 := by omega
    rw [pack_loop_scan (fuel + 2 + segs.length) data _ 0 0 0 p initial_state _ rfl
        (by rw [h00]; omega) (by omega) hfind, e,
      pack_loop_force (fuel + 1 + segs.length) data _ 0 0 p _ rfl, hp0]
    rfl
  have hemit : emit_loop (fuel + 2 + segs.length + 1) data mtu p p 0 false
      (mk_state 1 1 0 0 false 0 0 false) []
      = Except.ok (mk_state 0 1 0 (p % 16777216) false 0 0 false,
          [⟨header_bytes ⟨0, 3, 0, 1, 255, 0, 0⟩ ++ data.take p, false⟩]) := by
    have e2 : fuel + 2 + segs.length + 1 = fuel + 1 + segs.length + 2 := by omega
    have hge : ¬ p ≥ data.length := by omega
    rw [e2, emit_loop_single (fuel + 1 + segs.length) data mtu p p 0 false
      (mk_state 1 1 0 0 false 0 0 false) [] (by omega) hm hfit (by omega) hs,
      if_neg hge, Nat.zero_add, List.drop_zero]
    rfl
  have e1 : fuel + 3 + segs.length = (fuel + 2 + segs.length) + 1 := by omega
  have hlt : p < data.length := by omega
  rw [e1, outer_loop_step (fuel + 2 + segs.length) data mtu _ 0 0 0 initial_state [] _ _ _ _ _ _
    hpack hemit, if_pos hlt]

theorem bad_sot_long_length : bad_sot_long.length = 1606 := by
  simp only [bad_sot_long, List.length_append, List.length_cons, List.length_nil,
    List.length_replicate]

theorem bad_sot_long_find (f : Nat) :
    find_pu_end (f + 1) bad_sot_long (bad_sot_long.length % U32) 2
        (mk_state 0 1 0 2 false 0 0 false)
      = Except.ok (1606, mk_state 0 1 0 2 false 0 0 false) := by
  have h := find_bad_sot f bad_sot_long 2 4 false (mk_state 0 1 0 2 false 0 0 false)
    (by rw [bad_sot_long_length]; decide) rfl rfl rfl rfl rfl (by decide) (Or.inl (by decide))
  rw [bad_sot_long_length] at h ⊢
  exact h

theorem bad_sot_long_pack (f : Nat) :
    pack_loop (f + 2) bad_sot_long 1492 2 2 2 (mk_state 0 1 0 2 false 0 0 false)
      = Except.ok (1604, 1606, 1606, mk_state 0 1 0 2 false 0 0 false) := by
  rw [pack_loop_scan (f + 1) bad_sot_long 1492 2 2 2 1606 _ _ rfl (by decide)
      (by rw [bad_sot_long_length]; decide) (bad_sot_long_find (f + 1)),
    pack_loop_big f bad_sot_long 1492 2 1606 _ rfl (by decide)]
  rfl

set_option maxRecDepth 20000 in
theorem bad_sot_long_emit (f : Nat) (l : List Packet) :
    emit_loop (f + 3) bad_sot_long 1500 1606 1604 2 false (mk_state 0 1 0 2 false 0 0 false) l
      = Except.ok (mk_state 0 1 0 1606 false 0 0 false,
          l ++ [⟨header_bytes ⟨0, 0, 0, 1, 255, 0, 2⟩ ++ (bad_sot_long.drop 2).take 1492, false⟩,
            ⟨header_bytes ⟨0, 0, 0, 1, 255, 0, 1494⟩ ++ (bad_sot_long.drop 1494).take 112,
              true⟩]) := by
  have e1 : data_size_of 1604 1500 = 1492 := rfl
  have e2 : sub32 1604 1492 = 112 := rfl
  have e3 : add32 2 1492 = 1494 := rfl
  rw [emit_loop_step (f + 2) bad_sot_long 1500 1606 1604 2 false _ l (by decide)
    (by rw [bad_sot_long_length]; decide)]
  simp only [e1, e2, e3]
  rw [emit_loop_step (f + 1) bad_sot_long 1500 1606 112 1494 _ _ _ (by decide)
    (by rw [bad_sot_long_length]; decide)]
  have e4 : data_size_of 112 1500 = 112 := rfl
  have e5 : sub32 112 112 = 0 := rfl
  simp only [e4, e5]
  rw [emit_loop_done, List.append_assoc]
  rfl

theorem bad_sot_long_run (f : Nat) :
    gst_rtp_j2k_pay_handle_buffer (f + 4) bad_sot_long 1500 = Except.ok
      [ ⟨header_bytes ⟨0, 3, 0, 1, 255, 0, 0⟩ ++ bad_sot_long.take 2, false⟩,
        ⟨header_bytes ⟨0, 0, 0, 1, 255, 0, 2⟩ ++ (bad_sot_long.drop 2).take 1492, false⟩,
        ⟨header_bytes ⟨0, 0, 0, 1, 255, 0, 1494⟩ ++ (bad_sot_long.drop 1494).take 112,
          true⟩ ] := by
  unfold gst_rtp_j2k_pay_handle_buffer
  have e : sub32 1500 HEADER_SIZE = 1492 := rfl
  have h1 := outer_loop_main_header (f + 1) bad_sot_long 1500 2 []
    (by rw [bad_sot_long_length]; decide) (by decide) rfl rfl rfl rfl rfl (by decide)
  simp only [e] at h1 ⊢
  rw [if_neg (by decide)]
  have e4 : f + 4 = f + 1 + 3 + ([] : List (Nat × Nat)).length := rfl
  rw [e4, h1]
  have e5 : f + 1 + 2 + ([] : List (Nat × Nat)).length = (f + 2) + 1 := rfl
  rw [e5, outer_loop_step (f + 2) _ _ _ _ _ _ _ _ _ _ _ _ _ _ (bad_sot_long_pack (f + 1))
      (bad_sot_long_emit f _),
    if_neg (by rw [bad_sot_long_length]; decide)]
  rfl

/-! ## The packets emitted after a malformed SOT segment -/

/-- C19 (counterexample): in `bad_sot_long` (1606 bytes) the scanner bails on
the SOT at position 2, whose length field is 4, and returns the size; with the
MTU 1500 the payloader emits the remaining bytes [2, 1606) as two packets, of
1492 and of 112 bytes, the second of which carries the marker flag. -/
theorem malformed_sot_fragmented :
    find_pu_end 5 bad_sot_long 1606 2 (mk_state 0 1 0 2 false 0 0 false)
        = Except.ok (1606, mk_state 0 1 0 2 false 0 0 false) ∧
      gst_rtp_j2k_pay_handle_buffer 10 bad_sot_long 1500 = Except.ok
        [ ⟨header_bytes ⟨0, 3, 0, 1, 255, 0, 0⟩ ++ bad_sot_long.take 2, false⟩,
          ⟨header_bytes ⟨0, 0, 0, 1, 255, 0, 2⟩ ++ (bad_sot_long.drop 2).take 1492, false⟩,
          ⟨header_bytes ⟨0, 0, 0, 1, 255, 0, 1494⟩ ++ (bad_sot_long.drop 1494).take 112,
            true⟩ ] := by
  refine ⟨?_, bad_sot_long_run 6⟩
  have h := bad_sot_long_find 4
  rw [bad_sot_long_length] at h
  exact h

/-- C19 (amended): when a pass of the outer loop of
`gst_rtp_j2k_pay_handle_buffer` starts at the send offset `q` in header mode
(`offset = pos = end = q`, no main header pending), the scanner skips the
marker segments `segs` (none when `q = p`) and bails on a malformed SOT at `p`,
and the bytes from `q` on fit one packet (`size - q ≤ MTU - 8`), then the
payloader emits all remaining bytes [q, size) as one single packet, the last
of the list, and that packet carries the marker flag. -/
theorem malformed_sot_final_packet (fuel : Nat) (data : List Nat) (mtu q p len : Nat)
    (segs : List (Nat × Nat)) (st : RtpJ2KState) (list : List Packet)
    (hs : data.length < U32) (hm : 8 < mtu)
    (hmode : st.bitstream = false) (hmhf : st.header.MHF = 0)
    (hforce : st.force_packet = false)
    (hchain : seg_chain data q p segs = true)
    (h0 : rd data p = Except.ok 255) (h1 : rd data (p + 1) = Except.ok J2K_MARKER_SOT)
    (hl : gst_rtp_j2k_pay_header_size data (p + 2) = Except.ok len)
    (hno : p + 2 + len < U32)
    (hbad : len < 8 ∨ data.length ≤ p + 2 + len)
    (hfit : data.length - q ≤ sub32 mtu HEADER_SIZE) :
    outer_loop (fuel + 2 + segs.length) data mtu (sub32 mtu HEADER_SIZE) q q q st list
      = Except.ok (list ++ [⟨header_bytes st.header ++ data.drop q, true⟩]) := by
  have hp := rd_lt _ _ _ h0
  have hqp := seg_chain_le data p segs q hchain
  have hfind : find_pu_end (fuel + segs.length + 1 + 1) data (data.length % U32) q st
      = Except.ok (data.length, st) := by
    rw [Nat.mod_eq_of_lt hs]
    unfold find_pu_end
    have e : fuel + segs.length + 1 + 1 = fuel + 1 + 1 + segs.length := by omega
    rw [e, find_skip_chain data p false st hs (by omega) hmode segs (fuel + 1 + 1) q hchain]
    exact find_bad_sot (fuel + 1) data p len false st hs hmode hmhf h0 h1 hl hno hbad
  have hqq : sub32 q q = 0 := by unfold sub32 U32 at *; omega
  have hsq : sub32 data.length q = data.length - q := sub32_of_le (by omega) hs
  have hpack : pack_loop (fuel + segs.length + 1 + 1) data (sub32 mtu HEADER_SIZE) q q q st
      = Except.ok (data.length - q, data.length, data.length, st) := by
    rw [pack_loop_scan (fuel + segs.length + 1) data _ q q q data.length st st hforce
        (by rw [hqq]; omega) (by omega) hfind,
      pack_loop_done (fuel + segs.length) data _ q q data.length st hforce
        (by rw [hsq]; omega) rfl, hsq]
  have hemit := emit_loop_single (fuel + segs.length) data mtu data.length (data.length - q) q
    false st list (by omega) hm hfit (by omega) hs
  have e2 : fuel + 2 + segs.length = fuel + segs.length + 1 + 1 := by omega
  rw [e2, outer_loop_step (fuel + segs.length + 1) data mtu _ q q q st list _ _ _ _ _ _ hpack hemit,
    if_neg (by omega)]
  rw [if_neg (not_not.mpr hmhf), if_pos (le_refl _),
    List.take_of_length_le (by rw [List.length_drop])]
  have hh : (RtpJ2KHeader.mk st.header.tp 0 st.header.mh_id st.header.T st.header.priority
      st.header.tile st.header.offset) = st.header := by
    rw [← hmhf]
  rw [hh]
  rfl

/-- On `soc_bad_sot` the payloader emits the main header `FF 4F`, and then,
the scanner bailing on the SOT at position 2, the remaining six bytes as one
last packet with the marker flag. -/
theorem malformed_sot_final_packet_witness :
    gst_rtp_j2k_pay_handle_buffer 8 soc_bad_sot 1500 = Except.ok
      [ ⟨header_bytes ⟨0, 3, 0, 1, 255, 0, 0⟩ ++ soc_bad_sot.take 2, false⟩,
        ⟨header_bytes ⟨0, 0, 0, 1, 255, 0, 2⟩ ++ soc_bad_sot.drop 2, true⟩ ] :=
  (outer_loop_main_header 5 soc_bad_sot 1500 2 [] (by decide) (by decide) rfl rfl rfl rfl rfl
    (by decide)).trans
    (malformed_sot_final_packet 5 soc_bad_sot 1500 2 2 4 [] (mk_state 0 1 0 2 false 0 0 false)
      [⟨header_bytes ⟨0, 3, 0, 1, 255, 0, 0⟩ ++ soc_bad_sot.take 2, false⟩]
      (by decide) (by decide) rfl rfl rfl rfl rfl rfl rfl (by decide) (Or.inl (by decide))
      (by decide))

/-! ## A codestream with one tile-part -/

/-- The scan of a tile-part that starts at `p`: SOT with Lsot = 10, Isot = 0
and Psot = N, SOD, a bitstream without the byte `FF`, and EOC at `p + N`, the
last two bytes of the buffer. -/
theorem find_single_tile (f : Nat) (data : List Nat) (p N off : Nat)
    (hs : data.length < U32) (hf : data.length ≤ f)
    (h0 : rd data p = Except.ok 255) (h1 : rd data (p + 1) = Except.ok J2K_MARKER_SOT)
    (hl : gst_rtp_j2k_pay_header_size data (p + 2) = Except.ok 10)
    (ht : GST_READ_UINT16_BE data (p + 2 + 2) = Except.ok 0)
    (hP : GST_READ_UINT32_BE data (p + 2 + 4) = Except.ok N)
    (hend : p + N + 2 = data.length)
    (hd0 : rd data (p + 12) = Except.ok 255)
    (hd1 : rd data (p + 13) = Except.ok J2K_MARKER_SOD)
    (hbits : ∀ i, p + 14 ≤ i → i < p + N → ∃ b, rd data i = Except.ok b ∧ b ≠ 255)
    (he0 : rd data (p + N) = Except.ok 255)
    (he1 : rd data (p + N + 1) = Except.ok J2K_MARKER_EOC) :
    find_pu_end (f + 3) data data.length p (mk_state 0 1 0 off false 0 0 false)
      = Except.ok (data.length, mk_state 0 0 0 off false 0 (p + N) true) := by
  have hp := rd_lt _ _ _ h1
  have hd := rd_lt _ _ _ hd1
  have hN : 14 ≤ N := by
    by_contra hc
    rcases Nat.lt_or_ge (p + N) (p + 12) with h5 | h5
    · omega
    · rcases Nat.eq_or_lt_of_le h5 with h6 | h6
      · rw [← h6] at he1
        rw [he1] at hd1
        exact absurd (Except.ok.inj hd1) (by decide)
      · have h7 : p + N = p + 13 := by omega
        rw [h7] at he0
        rw [he0] at hd1
        exact absurd (Except.ok.inj hd1) (by decide)
  unfold find_pu_end
  rw [find_pu_end_loop, if_neg (by omega),
    scan_marker_at (f + 2) data data.length p _ hs hp h0 h1, ok_bind]
  dsimp only
  have hb : (mk_state 0 1 0 off false 0 0 false).bitstream = false := rfl
  rw [hb]
  simp only [Bool.false_eq_true, if_false]
  have hM : ¬ ((mk_state 0 1 0 off false 0 0 false).header.MHF ≠ 0) := not_not.mpr rfl
  rw [if_neg (by decide), if_pos trivial, if_neg hM, hl, ok_bind,
    if_neg (by decide)]
  have ea : add32 (p + 2) 10 = p + 12 := add32_of_lt (by omega)
  have hlt12 : ¬ p + 12 ≥ data.length := by omega
  rw [ea, if_neg hlt12, ht, ok_bind, hP, ok_bind]
  have hN0 : ¬ N = 0 := by omega
  have es : add32 (sub32 (p + 2) 2) N = p + N := by
    unfold add32 sub32 U32 at *; omega
  rw [if_neg hN0, es, find_pu_end_loop, if_neg (by omega),
    scan_marker_at (f + 1) data data.length (p + 12) _ hs hd hd0 hd1, ok_bind]
  dsimp only
  simp only [Bool.false_eq_true, if_false]
  rw [if_neg (by decide), if_neg (by decide), if_pos trivial]
  have ess : p + 12 + 2 = p + 14 := rfl
  rw [ess, find_pu_end_loop, if_neg (by omega),
    scan_marker_skip (f + 1) data data.length (p + 14) (p + N) _ hs (by omega) (by omega)
      (by omega) hbits he0 he1, ok_bind]
  dsimp only
  simp only [if_true]
  have e2 : add32 (p + N) 2 = p + N + 2 := add32_of_lt (by omega)
  have hge : p + N + 2 ≥ p + N := by omega
  rw [if_neg (by decide), if_neg (by decide), if_pos hge, e2,
    if_pos ⟨trivial, by omega⟩, hend]
  rfl

/-- The pass of the outer loop over a tile-part that ends the buffer and fits
one packet: it is emitted as one packet with T = 0 and the marker flag. -/
theorem outer_loop_single_tile (f : Nat) (data : List Nat) (mtu p N : Nat) (list : List Packet)
    (hs : data.length < U32) (hm : 8 < mtu) (hf : data.length ≤ f)
    (hfit : data.length - p ≤ sub32 mtu HEADER_SIZE)
    (h0 : rd data p = Except.ok 255) (h1 : rd data (p + 1) = Except.ok J2K_MARKER_SOT)
    (hl : gst_rtp_j2k_pay_header_size data (p + 2) = Except.ok 10)
    (ht : GST_READ_UINT16_BE data (p + 2 + 2) = Except.ok 0)
    (hP : GST_READ_UINT32_BE data (p + 2 + 4) = Except.ok N)
    (hend : p + N + 2 = data.length)
    (hd0 : rd data (p + 12) = Except.ok 255)
    (hd1 : rd data (p + 13) = Except.ok J2K_MARKER_SOD)
    (hbits : ∀ i, p + 14 ≤ i → i < p + N → ∃ b, rd data i = Except.ok b ∧ b ≠ 255)
    (he0 : rd data (p + N) = Except.ok 255)
    (he1 : rd data (p + N + 1) = Except.ok J2K_MARKER_EOC) :
    outer_loop (f + 3) data mtu (sub32 mtu HEADER_SIZE) p p p
        (mk_state 0 1 0 p false 0 0 false) list
      = Except.ok (list ++ [⟨header_bytes ⟨0, 0, 0, 0, 255, 0, p⟩ ++ data.drop p, true⟩]) := by
  have hp := rd_lt _ _ _ h1
  have hfind : find_pu_end (f + 2 + 1) data (data.length % U32) p
      (mk_state 0 1 0 p false 0 0 false)
      = Except.ok (data.length, mk_state 0 0 0 p false 0 (p + N) true) := by
    rw [Nat.mod_eq_of_lt hs]
    exact find_single_tile f data p N p hs hf h0 h1 hl ht hP hend hd0 hd1 hbits he0 he1
  have hpp : sub32 p p = 0 := by unfold sub32 U32 at *; omega
  have hsp : sub32 data.length p = data.length - p := sub32_of_le (by omega) hs
  have hpack : pack_loop (f + 2 + 1) data (sub32 mtu HEADER_SIZE) p p p
      (mk_state 0 1 0 p false 0 0 false)
      = Except.ok (data.length - p, data.length, data.length,
          mk_state 0 0 0 p false 0 (p + N) false) := by
    rw [pack_loop_scan (f + 2) data _ p p p data.length _ _ rfl (by rw [hpp]; omega) (by omega)
        hfind,
      pack_loop_force (f + 1) data _ p p data.length _ rfl, hsp]
    rfl
  have hemit : emit_loop (f + 2 + 1) data mtu data.length (data.length - p) p false
      (mk_state 0 0 0 p false 0 (p + N) false) list
      = Except.ok (mk_state 0 1 0 ((p + (data.length - p)) % 16777216) false 0 (p + N) false,
          list ++ [⟨header_bytes ⟨0, 0, 0, 0, 255, 0, p⟩ ++ data.drop p, true⟩]) := by
    rw [emit_loop_single (f + 1) data mtu data.length (data.length - p) p false _ list
      (by omega) hm hfit (by omega) hs, if_pos (le_refl _),
      List.take_of_length_le (by rw [List.length_drop])]
    rfl
  rw [outer_loop_step (f + 2) data mtu _ p p p _ list _ _ _ _ _ _ hpack hemit,
    if_neg (by omega)]
  rfl

theorem scenario1_head_length : scenario1_head.length = 22 := rfl

theorem scenario1_length : scenario1_codestream.length = 1200 := by
  simp only [scenario1_codestream, List.length_append, List.length_cons, List.length_nil,
    List.length_replicate, scenario1_head_length]

theorem scenario1_bits (i : Nat) (h1 : 22 ≤ i) (h2 : i < 1198) :
    ∃ b, rd scenario1_codestream i = Except.ok b ∧ b ≠ 255 := by
  refine ⟨7, ?_, by decide⟩
  have hl : (List.replicate 1176 7).length = 1176 := List.length_replicate _ _
  unfold rd scenario1_codestream
  rw [List.get?_eq_getElem?,
    List.getElem?_append_right (by rw [scenario1_head_length]; omega),
    List.getElem?_append_left (by rw [scenario1_head_length, hl]; omega),
    List.getElem?_replicate, scenario1_head_length, if_pos (by omega)]
  rfl

theorem scenario1_1198 : rd scenario1_codestream 1198 = Except.ok 255 := by
  have hl : (List.replicate 1176 7).length = 1176 := List.length_replicate _ _
  unfold rd scenario1_codestream
  rw [List.get?_eq_getElem?,
    List.getElem?_append_right (by rw [scenario1_head_length]; omega),
    List.getElem?_append_right (by have := scenario1_head_length; omega),
    scenario1_head_length, hl]
  rfl

theorem scenario1_1199 : rd scenario1_codestream 1199 = Except.ok J2K_MARKER_EOC := by
  have hl : (List.replicate 1176 7).length = 1176 := List.length_replicate _ _
  unfold rd scenario1_codestream
  rw [List.get?_eq_getElem?,
    List.getElem?_append_right (by rw [scenario1_head_length]; omega),
    List.getElem?_append_right (by have := scenario1_head_length; omega),
    scenario1_head_length, hl]
  rfl

/-! ## Scenario 1: a codestream with one tile under the MTU 1500 -/

/-- C20 (counterexample): for `scenario1_codestream` (1200 bytes, one tile,
SOT at position 8) and the MTU 1500 the payloader emits two packets, not one:
the main header, bytes [0, 8), with MHF = 3, T = 1 and no marker flag, and the
tile-part with EOC, bytes [8, 1200), with MHF = 0, T = 0, tile 0, fragment
offset 8 and the marker flag. -/
theorem scenario1_emits_two_packets :
    scenario1_codestream.length = 1200 ∧
      gst_rtp_j2k_pay_handle_buffer 1300 scenario1_codestream 1500 = Except.ok
        [ ⟨[3 * 16 + 1, 255, 0, 0, 0, 0, 0, 0] ++ scenario1_codestream.take 8, false⟩,
          ⟨[0, 255, 0, 0, 0, 0, 0, 8] ++ scenario1_codestream.drop 8, true⟩ ] := by
  refine ⟨scenario1_length, ?_⟩
  have hs : scenario1_codestream.length < U32 := by rw [scenario1_length]; decide
  have h1 := outer_loop_main_header 1296 scenario1_codestream 1500 8 [(0x51, 4)] hs (by decide)
    rfl rfl rfl rfl rfl (by decide)
  have h2 := outer_loop_single_tile 1296 scenario1_codestream 1500 8 1190
    [⟨header_bytes ⟨0, 3, 0, 1, 255, 0, 0⟩ ++ scenario1_codestream.take 8, false⟩]
    hs (by decide) (by rw [scenario1_length]; decide) (by rw [scenario1_length]; decide)
    rfl rfl rfl rfl rfl (by rw [scenario1_length]) rfl rfl scenario1_bits scenario1_1198
    scenario1_1199
  exact h1.trans h2

/-- C20 (amended): for every 1200-byte codestream made of SOC, marker segments
that lead to the SOT marker at `p`, SOT with Lsot = 10, Isot = 0 and Psot = N,
SOD, a bitstream without the byte `FF`, and EOC at `p + N` (the last two
bytes), the payloader with the MTU 1500 emits exactly two packets: the main
header [0, p) with MHF = 3, T = 1, tile 0, fragment offset 0 and no marker
flag, then the tile-part with EOC [p, 1200) with MHF = 0, T = 0, tile 0,
fragment offset `p` and the marker flag. -/
theorem scenario1_two_packets (f : Nat) (data : List Nat) (p N : Nat)
    (segs : List (Nat × Nat)) (hlen : data.length = 1200) (hf : 1200 ≤ f)
    (hsoc0 : rd data 0 = Except.ok 255) (hsoc1 : rd data 1 = Except.ok J2K_MARKER_SOC)
    (hchain : seg_chain data 2 p segs = true)
    (h0 : rd data p = Except.ok 255) (h1 : rd data (p + 1) = Except.ok J2K_MARKER_SOT)
    (hl : gst_rtp_j2k_pay_header_size data (p + 2) = Except.ok 10)
    (ht : GST_READ_UINT16_BE data (p + 2 + 2) = Except.ok 0)
    (hP : GST_READ_UINT32_BE data (p + 2 + 4) = Except.ok N)
    (hend : p + N + 2 = 1200)
    (hd0 : rd data (p + 12) = Except.ok 255)
    (hd1 : rd data (p + 13) = Except.ok J2K_MARKER_SOD)
    (hbits : ∀ i, p + 14 ≤ i → i < p + N → ∃ b, rd data i = Except.ok b ∧ b ≠ 255)
    (he0 : rd data (p + N) = Except.ok 255)
    (he1 : rd data (p + N + 1) = Except.ok J2K_MARKER_EOC) :
    gst_rtp_j2k_pay_handle_buffer (f + 4 + segs.length) data 1500 = Except.ok
      [ ⟨header_bytes ⟨0, 3, 0, 1, 255, 0, 0⟩ ++ data.take p, false⟩,
        ⟨header_bytes ⟨0, 0, 0, 0, 255, 0, p⟩ ++ data.drop p, true⟩ ] := by
  have hs : data.length < U32 := by rw [hlen]; decide
  have hp := rd_lt _ _ _ h1
  have e : sub32 1500 HEADER_SIZE = 1492 := rfl
  have hpm : p % 16777216 = p := Nat.mod_eq_of_lt (by omega)
  have p1 := outer_loop_main_header (f + 1) data 1500 p segs hs (by decide) hsoc0 hsoc1 hchain
    h0 h1 (by rw [e]; omega)
  have p2 := outer_loop_single_tile (f + segs.length) data 1500 p N
    [⟨header_bytes ⟨0, 3, 0, 1, 255, 0, 0⟩ ++ data.take p, false⟩]
    hs (by decide) (by omega) (by rw [e]; omega) h0 h1 hl ht hP (by rw [hlen]; exact hend)
    hd0 hd1 hbits he0 he1
  have e1 : f + 4 + segs.length = f + 1 + 3 + segs.length := by omega
  have e2 : f + 1 + 2 + segs.length = f + segs.length + 3 := by omega
  unfold gst_rtp_j2k_pay_handle_buffer
  rw [hpm, e2] at p1
  rw [e] at p1 p2 ⊢
  rw [if_neg (by decide), e1, p1, p2]
  rfl

/-- The codestream `scenario1_codestream` is of that form, with `p = 8` and
N = 1190, and yields the two packets. -/
theorem scenario1_two_packets_witness :
    gst_rtp_j2k_pay_handle_buffer (1295 + 4 + [(0x51, 4)].length) scenario1_codestream 1500
      = Except.ok
        [ ⟨header_bytes ⟨0, 3, 0, 1, 255, 0, 0⟩ ++ scenario1_codestream.take 8, false⟩,
          ⟨header_bytes ⟨0, 0, 0, 0, 255, 0, 8⟩ ++ scenario1_codestream.drop 8, true⟩ ] :=
  scenario1_two_packets 1295 scenario1_codestream 8 1190 [(0x51, 4)] scenario1_length
    (by decide) rfl rfl rfl rfl rfl rfl rfl rfl rfl rfl rfl scenario1_bits scenario1_1198
    scenario1_1199

/-! ## The header cache across `gst_rtp_j2k_depay_flush_frame` -/

theorem getD_set_ne (l : List (Option Buffer)) (i j : Nat) (b : Option Buffer) (h : j ≠ i) :
    (l.set j b).getD i none = l.getD i none := by
  rw [List.getD_eq_getElem?_getD, List.getD_eq_getElem?_getD, List.getElem?_set_ne h]

theorem getD_set_zero (l : List (Option Buffer)) : (l.set 0 none).getD 0 none = none := by
  cases l with
  | nil => rfl
  | cons a t => rfl

theorem flush_pu_MH (fuel : Nat) (d d1 : GstRtpJ2KDepay)
    (h : gst_rtp_j2k_depay_flush_pu fuel d = Except.ok d1) :
    d1.last_mh_id = d.last_mh_id ∧ d1.MH.length = d.MH.length ∧
      ∀ i, i ≠ d.last_mh_id → d1.MH.getD i none = d.MH.getD i none := by
  unfold gst_rtp_j2k_depay_flush_pu at h
  dsimp only at h
  split at h
  · rw [pure_ok_iff] at h; subst h; exact ⟨rfl, rfl, fun _ _ => rfl⟩
  · split at h
    · obtain ⟨t, _, h2⟩ := (bind_ok_iff _ _ _).mp h
      rw [pure_ok_iff] at h2; subst h2; exact ⟨rfl, rfl, fun _ _ => rfl⟩
    · obtain ⟨mh, _, h2⟩ := (bind_ok_iff _ _ _).mp h
      obtain ⟨d2, h3, h4⟩ := (bind_ok_iff _ _ _).mp h2
      rw [pure_ok_iff] at h4; subst h4
      rw [store_mheader_ok _ _ _ _ h3]
      refine ⟨rfl, List.length_set _ _ _, fun i hi => ?_⟩
      exact getD_set_ne _ _ _ _ (Ne.symm hi)

theorem flush_tile_MH (fuel : Nat) (d d1 : GstRtpJ2KDepay)
    (h : gst_rtp_j2k_depay_flush_tile fuel d = Except.ok d1) :
    d1.last_mh_id = d.last_mh_id ∧ d1.MH.length = d.MH.length ∧
      ∀ i, i ≠ d.last_mh_id → d1.MH.getD i none = d.MH.getD i none := by
  unfold gst_rtp_j2k_depay_flush_tile at h
  obtain ⟨d2, h1, h2⟩ := (bind_ok_iff _ _ _).mp h
  have e := flush_pu_MH fuel d d2 h1
  dsimp only at h2
  split at h2
  · rw [pure_ok_iff] at h2; subst h2; exact e
  · obtain ⟨fOpt, _, h4⟩ := (bind_ok_iff _ _ _).mp h2
    cases fOpt with
    | none => dsimp only at h4; rw [pure_ok_iff] at h4; subst h4; exact e
    | some f =>
      dsimp only at h4
      obtain ⟨end_, _, h6⟩ := (bind_ok_iff _ _ _).mp h4
      obtain ⟨res, _, h8⟩ := (bind_ok_iff _ _ _).mp h6
      split at h8
      · rw [pure_ok_iff] at h8; subst h8; exact e
      · rw [pure_ok_iff] at h8; subst h8; exact e

theorem flush_frame_MH (fuel : Nat) (d d1 : GstRtpJ2KDepay)
    (h : gst_rtp_j2k_depay_flush_frame fuel d = Except.ok d1) :
    ∃ d2, gst_rtp_j2k_depay_flush_tile fuel d = Except.ok d2 ∧ d1.MH = d2.MH.set 0 none := by
  unfold gst_rtp_j2k_depay_flush_frame at h
  obtain ⟨d2, h1, h2⟩ := (bind_ok_iff _ _ _).mp h
  refine ⟨d2, h1, ?_⟩
  dsimp only at h2
  split at h2
  · rw [store_mheader_ok _ _ _ _ h2]
  · obtain ⟨d3, h3, h4⟩ := (bind_ok_iff _ _ _).mp h2
    rw [store_mheader_ok _ _ _ _ h4]
    show d3.MH.set 0 none = d2.MH.set 0 none
    split at h3
    · obtain ⟨fo, _, h5⟩ := (bind_ok_iff _ _ _).mp h3
      obtain ⟨f, outbuf⟩ := fo
      rw [push_ok _ _ _ h5]
    · rw [pure_ok_iff] at h3; subst h3; rfl

/-- With nothing pending in the three adapters `gst_rtp_j2k_depay_flush_frame`
returns, and all it does to the cache is to empty the slot 0. -/
theorem flush_frame_idle (fuel : Nat) (d : GstRtpJ2KDepay)
    (hp : d.pu_adapter = []) (ht : d.t_adapter = []) (hf : d.f_adapter = []) :
    gst_rtp_j2k_depay_flush_frame fuel d
      = Except.ok { d with have_sync := false, last_tile := U32 - 1, MH := d.MH.set 0 none } := by
  obtain ⟨rt, mh, tl, MH, pm, pu, t, f, nf, hs, bl⟩ := d
  simp only at hp ht hf
  subst hp; subst ht; subst hf
  rfl

theorem cached_headers_run :
    gst_rtp_j2k_depay_flush_frame 10 cached_headers_state = Except.ok cached_headers_flushed := rfl

/-- C24: whenever `gst_rtp_j2k_depay_flush_frame` returns, the slot 0 of the
header cache is empty, the cache keeps its length, and every slot other than 0
and `last_mh_id` holds what it held before the call. -/
theorem flush_frame_clears_slot_zero (fuel : Nat) (d d1 : GstRtpJ2KDepay)
    (h : gst_rtp_j2k_depay_flush_frame fuel d = Except.ok d1) :
    d1.MH.getD 0 none = none ∧ d1.MH.length = d.MH.length ∧
      ∀ i, i ≠ 0 → i ≠ d.last_mh_id → d1.MH.getD i none = d.MH.getD i none := by
  obtain ⟨d2, h1, h2⟩ := flush_frame_MH fuel d d1 h
  obtain ⟨_, hl, hk⟩ := flush_tile_MH fuel d d2 h1
  rw [h2]
  refine ⟨getD_set_zero _, ?_, fun i h0 hi => ?_⟩
  · rw [List.length_set]; exact hl
  · rw [getD_set_ne _ _ _ _ (Ne.symm h0)]; exact hk i hi

theorem flush_frame_clears_slot_zero_witness :
    gst_rtp_j2k_depay_flush_frame 10 cached_headers_state = Except.ok cached_headers_flushed ∧
      cached_headers_state.MH.getD 0 none = some [0xFF, 0x4F, 0] ∧
      cached_headers_flushed.MH.getD 0 none = none ∧
      cached_headers_flushed.MH.length = cached_headers_state.MH.length ∧
      cached_headers_flushed.MH.getD 2 none = cached_headers_state.MH.getD 2 none :=
  ⟨cached_headers_run, rfl,
    (flush_frame_clears_slot_zero 10 cached_headers_state cached_headers_flushed
      cached_headers_run).1,
    (flush_frame_clears_slot_zero 10 cached_headers_state cached_headers_flushed
      cached_headers_run).2.1,
    (flush_frame_clears_slot_zero 10 cached_headers_state cached_headers_flushed
      cached_headers_run).2.2 2 (by decide) (by decide)⟩

/-! ## The adapters: bytes that are taken stay, bytes that are copied come from
the front -/

/-- C26: `gst_adapter_take_buffer` returns the first bytes of the adapter as
one buffer but removes nothing: `gst_rtp_j2k_depay_flush_pu` takes all 8 bytes
of a pending header of two buffers into the header cache, and afterwards the
PU adapter still holds the same two buffers, 8 bytes available. -/
theorem take_buffer_keeps_bytes :
    gst_adapter_take_buffer header_pending_state.pu_adapter 8 = Except.ok sample_header ∧
      ∃ d, gst_rtp_j2k_depay_flush_pu 10 header_pending_state = Except.ok d ∧
        d.MH.getD 1 none = some sample_header ∧
        d.pu_adapter = [[0xFF, 0x4F, 0xFF, 0x51], [0, 4, 1, 2]] ∧
        gst_adapter_available d.pu_adapter = 8 :=
  ⟨rfl, _, rfl, rfl, rfl, rfl⟩

/-- C25: the state reached from a fresh depayloader by one complete main-header
packet has `have_sync` false while the PU adapter holds the 8 header bytes,
which `gst_adapter_take_buffer` copied into the header cache without removing
them. -/
theorem header_bytes_stay_without_sync :
    ∃ d, Reachable d ∧ d.have_sync = false ∧ d.MH.getD 1 none = some sample_header ∧
      gst_adapter_available d.pu_adapter = 8 :=
  ⟨_, Reachable.step 10 GstRtpJ2KDepay.new header_packet_id1 _ Reachable.fresh rfl,
    rfl, rfl, rfl⟩

/-- C27: `gst_adapter_copy` of 2 bytes at offset 2 of the single buffer
1, 2, 3, 4 writes the first two bytes 1, 2, not the last two; the same call at
offset 1 of the buffers 1, 2, 3 and 4, 5, 6 writes 1, 2 and not 2, 3; and at
offset 4 of these two buffers, the last two bytes, it writes at `dest + 3`,
outside the two bytes of `dest`. -/
theorem copy_reads_front :
    gst_adapter_copy [[1, 2, 3, 4]] [none, none] 2 2 = Except.ok [some 1, some 2] ∧
      gst_adapter_copy [[1, 2, 3], [4, 5, 6]] [none, none] 1 2 = Except.ok [some 1, some 2] ∧
      gst_adapter_copy [[1, 2, 3], [4, 5, 6]] [none, none] 4 2 = Except.error Fault.undefined :=
  ⟨rfl, rfl, rfl⟩

/-- C23 (failing input): the header `sample_header` is cached in the slot 1 and
frame B arrives with mh_id = 1 and no header packet, its tile-part in the two
packets `tile_fragment_1` and `tile_fragment_2`.  The flush of the tile puts
the cached header and the first packet of the tile into the frame adapter,
with Psot rewritten from 20 to 14; the six bytes of the second packet are in
no adapter afterwards.  This holds from the state with a drained frame adapter
and from the state reached through a first frame, given a list in the vector
`bufferLists`. -/
theorem cached_header_frame_loses_fragment :
    (∃ d d1, depay_run 10 header_cached_state [tile_fragment_1, tile_fragment_2] = Except.ok d ∧
        d.pu_adapter = [tile_fragment_1.payload.drop 8, tile_fragment_2.payload.drop 8] ∧
        d.t_adapter = [] ∧ d.f_adapter = [] ∧
        gst_rtp_j2k_depay_flush_tile 10 d = Except.ok d1 ∧
        d1.f_adapter = [sample_header,
          [0xFF, 0x90, 0, 10, 0, 0, 0, 0, 0, 14, 0, 1, 0xFF, 0x93]] ∧
        d1.pu_adapter = [] ∧ d1.t_adapter = []) ∧
      (∃ d0 d d1, depay_run 10 depay_with_list [header_packet_id1, short_tile_packet_id1]
          = Except.ok d0 ∧ d0.MH.getD 1 none = some sample_header ∧
        depay_run 10 d0 [tile_fragment_1, tile_fragment_2] = Except.ok d ∧
        gst_rtp_j2k_depay_flush_tile 10 d = Except.ok d1 ∧
        d1.f_adapter = [sample_header,
          [0xFF, 0x90, 0, 10, 0, 0, 0, 0, 0, 14, 0, 1, 0xFF, 0x93]] ∧
        d1.pu_adapter = [] ∧ d1.t_adapter = []) :=
  ⟨⟨_, _, rfl, rfl, rfl, rfl, rfl, rfl, rfl, rfl⟩, ⟨_, _, _, rfl, rfl, rfl, rfl, rfl, rfl, rfl⟩⟩

/-! ## The main header leaves as a packet of its own -/

/-- C30: a codestream that starts with SOC, whose marker segments `segs` lead
from position 2 exactly to an SOT marker at `p`, with `p ≤ MTU - 8`.  The first
call of `find_pu_end` returns `p` with `force_packet` set (and MHF = 1, nothing
else changed); the run of `gst_rtp_j2k_pay_handle_buffer` is the run of the
outer loop from `p` with the list holding one packet, the bytes `[0, p)` behind
the header MHF = 3, T = 1, tile = 0, fragment offset 0; and that packet is the
first of every list the run returns. -/
theorem main_header_packed_separately (fuel : Nat) (data : List Nat) (mtu p : Nat)
    (segs : List (Nat × Nat)) (hs : data.length < U32) (hm : 8 < mtu) (hmtu : mtu < U32)
    (hsoc0 : rd data 0 = Except.ok 255) (hsoc1 : rd data 1 = Except.ok J2K_MARKER_SOC)
    (hchain : seg_chain data 2 p segs = true)
    (h0 : rd data p = Except.ok 255) (h1 : rd data (p + 1) = Except.ok J2K_MARKER_SOT)
    (hfit : p ≤ mtu - 8) :
    find_pu_end (fuel + 2 + segs.length) data (data.length % U32) 0 initial_state
        = Except.ok (p, mk_state 1 1 0 0 false 0 0 true) ∧
      gst_rtp_j2k_pay_handle_buffer (fuel + 3 + segs.length) data mtu
        = outer_loop (fuel + 2 + segs.length) data mtu (mtu - 8) p p p
            (mk_state 0 1 0 (p % 16777216) false 0 0 false)
            [⟨header_bytes ⟨0, 3, 0, 1, 255, 0, 0⟩ ++ data.take p, false⟩] ∧
      ∀ pkts, gst_rtp_j2k_pay_handle_buffer (fuel + 3 + segs.length) data mtu = Except.ok pkts →
        ∃ rest, pkts = ⟨header_bytes ⟨0, 3, 0, 1, 255, 0, 0⟩ ++ data.take p, false⟩ :: rest := by
  have e : sub32 mtu HEADER_SIZE = mtu - 8 := by
    have h8 : HEADER_SIZE ≤ mtu := by unfold HEADER_SIZE; omega
    rw [sub32_of_le h8 hmtu]; rfl
  have hne : ¬ (mtu - 8 = 0) := by omega
  have hp := rd_lt _ _ _ h1
  have hrun := outer_loop_main_header fuel data mtu p segs hs hm hsoc0 hsoc1 hchain h0 h1
    (by rw [e]; exact hfit)
  rw [e] at hrun
  have hhb : gst_rtp_j2k_pay_handle_buffer (fuel + 3 + segs.length) data mtu
      = outer_loop (fuel + 2 + segs.length) data mtu (mtu - 8) p p p
          (mk_state 0 1 0 (p % 16777216) false 0 0 false)
          [⟨header_bytes ⟨0, 3, 0, 1, 255, 0, 0⟩ ++ data.take p, false⟩] := by
    unfold gst_rtp_j2k_pay_handle_buffer
    dsimp only
    rw [e, if_neg hne, hrun]
  refine ⟨?_, hhb, ?_⟩
  · rw [Nat.mod_eq_of_lt hs]
    exact find_main_header fuel data p segs initial_state hs rfl hsoc0 hsoc1 hchain h0 h1
  · intro pkts h
    rw [hhb] at h
    obtain ⟨new, hnew, _⟩ := outer_loop_spec _ data mtu (mtu - 8) hm hs p p p _ _ pkts
      (by omega) (by omega) (by omega) (by simp [HdrOK, mk_state]) rfl h
    exact ⟨new, hnew⟩

/-- The codestream `two_tile_codestream` at the MTU 1500: the main header is
the 8 bytes before the first SOT. -/
theorem main_header_packed_separately_witness :
    find_pu_end (10 + 2 + [(0x51, 4)].length) two_tile_codestream
        (two_tile_codestream.length % U32) 0 initial_state
        = Except.ok (8, mk_state 1 1 0 0 false 0 0 true) ∧
      gst_rtp_j2k_pay_handle_buffer (10 + 3 + [(0x51, 4)].length) two_tile_codestream 1500
        = outer_loop (10 + 2 + [(0x51, 4)].length) two_tile_codestream 1500 (1500 - 8) 8 8 8
            (mk_state 0 1 0 (8 % 16777216) false 0 0 false)
            [⟨header_bytes ⟨0, 3, 0, 1, 255, 0, 0⟩ ++ two_tile_codestream.take 8, false⟩] ∧
      ∃ rest, two_tile_packets
        = ⟨header_bytes ⟨0, 3, 0, 1, 255, 0, 0⟩ ++ two_tile_codestream.take 8, false⟩ :: rest :=
  have h := main_header_packed_separately 10 two_tile_codestream 1500 8 [(0x51, 4)]
    (by decide) (by decide) (by decide) rfl rfl rfl rfl rfl (by decide)
  ⟨h.1, h.2.1, h.2.2 two_tile_packets rfl⟩

/-! ## Fragmentation of a unit that is longer than a packet -/

/-- Inside a pass of the outer loop the recorded boundary `pos` is either
`offset` (none found yet) or at most `MTU - 8` bytes after it: the pack loop,
entered with such a `pos`, returns `pos1 = end1` unless it rolls back, and
when it rolls back the unit `[offset, pos1)` fits one packet. -/
theorem pack_loop_boundary_fits (data : List Nat) (mtu offset : Nat) (hm : 8 < mtu)
    (hs : data.length + mtu ≤ U32) (ho : offset ≤ data.length) :
    ∀ fuel pos end_ st pu pos1 end1 st1,
      (pos = offset ∨ (offset < pos ∧ pos - offset ≤ mtu - 8)) → pos ≤ data.length →
      end_ ≤ data.length → HdrOK st.header →
      pack_loop fuel data (mtu - 8) offset pos end_ st = Except.ok (pu, pos1, end1, st1) →
      pos1 = end1 ∨
        (offset < pos1 ∧ pos1 - offset ≤ mtu - 8 ∧ mtu - 8 < sub32 end1 offset ∧
          pu = pos1 - offset ∧ st1.force_packet = false) := by
  intro fuel
  induction fuel with
  | zero => intro pos e st pu pos1 end1 st1 _ _ _ _ h; simp [pack_loop, throw_ne_ok] at h
  | succ n ih =>
    intro pos e st pu pos1 end1 st1 hinv hp he hh h
    rw [pack_loop] at h
    dsimp only at h
    split at h
    · rw [pure_ok_iff] at h
      simp only [Prod.mk.injEq] at h
      obtain ⟨_, rfl, rfl, _⟩ := h
      left; rfl
    · rename_i hforce
      split at h
      · rename_i hsz
        split at h
        · rename_i hpos
          rw [pure_ok_iff] at h
          simp only [Prod.mk.injEq] at h
          obtain ⟨rfl, rfl, rfl, rfl⟩ := h
          right
          rcases hinv with h1 | ⟨h1, h2⟩
          · exact absurd h1 hpos
          · refine ⟨h1, h2, hsz, sub32_of_le (Nat.le_of_lt h1) (by unfold U32 at *; omega), ?_⟩
            simpa using hforce
        · rw [pure_ok_iff] at h
          simp only [Prod.mk.injEq] at h
          obtain ⟨_, rfl, rfl, _⟩ := h
          left; rfl
      · rename_i hsz
        split at h
        · rw [pure_ok_iff] at h
          simp only [Prod.mk.injEq] at h
          obtain ⟨_, rfl, rfl, _⟩ := h
          left; rfl
        · obtain ⟨⟨e2, st2⟩, hfind, h⟩ := (bind_ok_iff _ _ _).mp h
          dsimp only at h
          have hlen : data.length % U32 = data.length :=
            Nat.mod_eq_of_lt (by unfold U32 at *; omega)
          rw [hlen] at hfind
          obtain ⟨he2, hh2, _⟩ := find_pu_end_spec _ data _ (by unfold U32 at *; omega) _ _ _ _
            hh hfind
          refine ih e e2 st2 pu pos1 end1 st1 ?_ he he2 hh2 h
          rcases Nat.lt_or_ge e offset with hlt | hge
          · exfalso
            apply hsz
            unfold sub32 U32 at *
            omega
          · rcases Nat.eq_or_lt_of_le hge with heq | hgt
            · left; exact heq.symm
            · right
              refine ⟨hgt, ?_⟩
              have : sub32 e offset = e - offset :=
                sub32_of_le hge (by unfold U32 at *; omega)
              rw [this] at hsz
              omega

theorem rollback_sample_pass :
    pack_loop 60 rollback_codestream (28 - 8) 16 16 16 (mk_state 0 1 0 16 true 0 48 false)
      = Except.ok (16, 32, 40, mk_state 0 1 0 16 true 0 48 false) := rfl

/-- C29 (amended to the case in which no packet is forced): at the head of the
pack loop with `force_packet` clear, more than `MTU - 8` bytes scanned
(`end - offset`) and a boundary `pos > offset` on record, which is at most
`MTU - 8` bytes after `offset` as the size test let it pass, the pass of the
outer loop emits exactly one packet, which carries the bytes `[offset, pos)`,
and the next pass starts at `pos`. -/
theorem rollback_to_boundary (fuel : Nat) (data : List Nat) (mtu offset pos end_ : Nat)
    (st : RtpJ2KState) (list : List Packet) (hm : 8 < mtu) (hmtu : mtu < U32)
    (hs : data.length < U32) (hforce : st.force_packet = false)
    (hsz : mtu - 8 < end_ - offset) (hpos : offset < pos) (hfit : pos - offset ≤ mtu - 8)
    (he : end_ ≤ data.length) :
    pack_loop (fuel + 2) data (mtu - 8) offset pos end_ st
        = Except.ok (pos - offset, pos, end_, st) ∧
      ∃ p st1, p.data = (data.drop offset).take (pos - offset) ∧
        p.data.length = pos - offset ∧
        outer_loop (fuel + 2) data mtu (mtu - 8) offset pos end_ st list
          = outer_loop (fuel + 1) data mtu (mtu - 8) pos pos end_ st1 (list ++ [p]) := by
  have h8 : HEADER_SIZE ≤ mtu := by unfold HEADER_SIZE; omega
  have e : sub32 mtu HEADER_SIZE = mtu - 8 := by rw [sub32_of_le h8 hmtu]; rfl
  have e1 : sub32 end_ offset = end_ - offset := sub32_of_le (by omega) (by omega)
  have e2 : sub32 pos offset = pos - offset := sub32_of_le (by omega) (by omega)
  have hsz2 : sub32 end_ offset > mtu - 8 := by rw [e1]; exact hsz
  have hne : pos ≠ offset := by omega
  have hpack := pack_loop_rollback (fuel + 1) data (mtu - 8) offset pos end_ st hforce hsz2 hne
  rw [e2] at hpack
  have hemit := emit_loop_single fuel data mtu end_ (pos - offset) offset false st list
    (by omega) hm (by rw [e]; exact hfit) (by omega) hs
  obtain ⟨st1, hdr, mk, hemit⟩ : ∃ st1 hdr mk,
      emit_loop (fuel + 2) data mtu end_ (pos - offset) offset false st list
        = Except.ok (st1, list ++ [⟨header_bytes hdr ++ (data.drop offset).take (pos - offset),
            mk⟩]) := ⟨_, _, _, hemit⟩
  have hlt : pos < data.length := by omega
  refine ⟨hpack, ⟨header_bytes hdr ++ (data.drop offset).take (pos - offset), mk⟩, st1,
    data_header_append _ _ _, ?_, ?_⟩
  · rw [data_header_append, List.length_take, List.length_drop]
    omega
  · rw [outer_loop_step (fuel + 1) data mtu (mtu - 8) offset pos end_ st list _ _ _ _ _ _
      hpack hemit, if_pos hlt]

/-- The codestream `rollback_codestream` at the MTU 28, in the pass that
starts at the first SOP (offset 16): the scan has reached 40 and the boundary
32 is on record; the pass emits the 16 bytes `[16, 32)`. -/
theorem rollback_to_boundary_witness :
    pack_loop (58 + 2) rollback_codestream (28 - 8) 16 32 40 (mk_state 0 1 0 16 true 0 48 false)
        = Except.ok (32 - 16, 32, 40, mk_state 0 1 0 16 true 0 48 false) ∧
      ∃ p st1, p.data = (rollback_codestream.drop 16).take (32 - 16) ∧
        p.data.length = 32 - 16 ∧
        outer_loop (58 + 2) rollback_codestream 28 (28 - 8) 16 32 40
            (mk_state 0 1 0 16 true 0 48 false) []
          = outer_loop (58 + 1) rollback_codestream 28 (28 - 8) 32 32 40 st1 ([] ++ [p]) :=
  rollback_to_boundary 58 rollback_codestream 28 16 32 40 (mk_state 0 1 0 16 true 0 48 false) []
    (by decide) (by decide) (by decide) rfl (by decide) (by decide) (by decide) (by decide)

/-- C29 (counterexample): the codestream `forced_split_codestream` at the MTU
28.  In the pass that starts at the first SOP (offset 16) the scan finds the
unit boundaries 24 and 32 and then returns 40 with `force_packet` set: 24
bytes are scanned, more than `MTU - 8 = 20`, the boundary 32 is on record, and
the pack loop returns the whole 24 bytes.  The packets emitted carry
`[16, 36)` and `[36, 40)`: the boundary 36 lies strictly inside the unit
`[32, 38)`, which has 6 bytes. -/
theorem forced_packet_splits_unit :
    pack_loop 60 forced_split_codestream (28 - 8) 16 16 16 (mk_state 0 1 0 16 true 0 38 false)
        = Except.ok (24, 40, 40, mk_state 0 1 0 16 false 0 38 false) ∧
      pack_loop 58 forced_split_codestream (28 - 8) 16 24 32 (mk_state 0 1 0 16 true 0 38 false)
        = Except.ok (24, 40, 40, mk_state 0 1 0 16 false 0 38 false) ∧
      (forced_split_codestream.drop 32).take 2 = [0xFF, J2K_MARKER_SOP] ∧
      (forced_split_codestream.drop 38).take 2 = [0xFF, J2K_MARKER_EOC] ∧
      gst_rtp_j2k_pay_handle_buffer 60 forced_split_codestream 28 = Except.ok
        [ ⟨header_bytes ⟨0, 3, 0, 1, 255, 0, 0⟩ ++ (forced_split_codestream.drop 0).take 2,
            false⟩,
          ⟨header_bytes ⟨0, 0, 0, 0, 255, 0, 2⟩ ++ (forced_split_codestream.drop 2).take 14,
            false⟩,
          ⟨header_bytes ⟨0, 0, 0, 1, 255, 0, 16⟩ ++ (forced_split_codestream.drop 16).take 20,
            false⟩,
          ⟨header_bytes ⟨0, 0, 0, 1, 255, 0, 36⟩ ++ (forced_split_codestream.drop 36).take 4,
            true⟩ ] :=
  ⟨rfl, rfl, rfl, rfl, rfl⟩

/-! ## The scanner inside the bitstream of a tile-part -/

theorem rd_ok_of_lt (data : List Nat) (i : Nat) (h : i < data.length) :
    ∃ b, rd data i = Except.ok b := by
  refine ⟨data.get ⟨i, h⟩, ?_⟩
  exact rd_of_get _ _ _ (List.get?_eq_get h)

theorem rd_of_byte_at (data : List Nat) (i b : Nat) (h : byte_at data i b = true) :
    rd data i = Except.ok b := by
  unfold byte_at at h
  exact rd_of_get _ _ _ (of_decide_eq_true h)

theorem byte_at_of_rd (data : List Nat) (i b : Nat) (h : rd data i = Except.ok b) :
    byte_at data i b = true := by
  unfold byte_at
  unfold rd at h
  cases hg : data.get? i with
  | none => rw [hg] at h; cases h
  | some x =>
    rw [hg] at h
    have : x = b := Except.ok.inj h
    rw [this]
    exact decide_eq_true rfl

theorem no_eoc_in_spec (data : List Nat) (lo hi : Nat) (h : no_eoc_in data lo hi = true)
    (q : Nat) (h1 : lo ≤ q) (h2 : q < hi) (hq : rd data q = Except.ok 255) :
    rd data (q + 1) ≠ Except.ok J2K_MARKER_EOC := by
  intro hc
  unfold no_eoc_in at h
  rw [List.all_eq_true] at h
  have hm : q ∈ List.range' lo (hi - lo) := by
    rw [List.mem_range'_1]
    omega
  have := h q hm
  rw [byte_at_of_rd _ _ _ hq, byte_at_of_rd _ _ _ hc] at this
  exact absurd this (by decide)

/-- The first byte `FF` at or after `o`, when there is one at `hi`. -/
theorem first_ff (data : List Nat) (hi : Nat) (hff : rd data hi = Except.ok 255) :
    ∀ k o, o + k = hi → ∃ q, o ≤ q ∧ q ≤ hi ∧ rd data q = Except.ok 255 ∧
      ∀ i, o ≤ i → i < q → ∃ b, rd data i = Except.ok b ∧ b ≠ 255 := by
  intro k
  induction k with
  | zero =>
    intro o h
    refine ⟨hi, by omega, Nat.le_refl _, hff, ?_⟩
    intro i h1 h2
    omega
  | succ n ih =>
    intro o h
    have hlt : o < data.length := by have := rd_lt _ _ _ hff; omega
    obtain ⟨b, hb⟩ := rd_ok_of_lt data o hlt
    by_cases h255 : b = 255
    · subst h255
      exact ⟨o, Nat.le_refl _, by omega, hb, fun i h1 h2 => by omega⟩
    · obtain ⟨q, q1, q2, q3, q4⟩ := ih (o + 1) (by omega)
      refine ⟨q, by omega, q2, q3, ?_⟩
      intro i h1 h2
      rcases Nat.eq_or_lt_of_le h1 with he | hl
      · subst he; exact ⟨b, hb, h255⟩
      · exact q4 i hl h2

/-- The scan in the bitstream of a tile-part whose end `next_sot` holds the
next SOT marker, or the EOC marker that ends the buffer.  From a position `o`
of the bitstream the scan returns either the position of an SOP marker inside
the bitstream, the state untouched, or, with `force_packet` set and `bitstream`
cleared, the end of the tile-part (the end of the buffer when the EOC marker
itself was met). -/
theorem find_bitstream (data : List Nat) (st : RtpJ2KState) (lo mk : Nat)
    (hs : data.length < U32) (hb : st.bitstream = true)
    (hnx : st.next_sot + 2 ≤ data.length)
    (hF : rd data st.next_sot = Except.ok 255) (hM : rd data (st.next_sot + 1) = Except.ok mk)
    (hmk : mk = J2K_MARKER_SOT ∨ (mk = J2K_MARKER_EOC ∧ st.next_sot + 2 = data.length))
    (hno : ∀ q, lo ≤ q → q < st.next_sot → rd data q = Except.ok 255 →
      rd data (q + 1) ≠ Except.ok J2K_MARKER_EOC) :
    ∀ fuel o c, lo ≤ o → o ≤ st.next_sot → data.length + 2 ≤ fuel + o →
      ∃ e st1, find_pu_end_loop fuel data data.length o c st = Except.ok (e, st1) ∧
        ((st1 = st ∧ o ≤ e ∧ (c = false → o + 2 ≤ e) ∧ e + 2 ≤ st.next_sot ∧
            rd data e = Except.ok 255 ∧ rd data (e + 1) = Except.ok J2K_MARKER_SOP) ∨
          (st1 = { st with bitstream := false, force_packet := true } ∧
            (e = st.next_sot ∨ (e = st.next_sot + 2 ∧ st.next_sot + 2 = data.length)))) := by
  intro fuel
  induction fuel with
  | zero => intro o c _ h2 h3; omega
  | succ n ih =>
    intro o c hlo ho hf
    obtain ⟨q, q1, q2, q3, q4⟩ := first_ff data st.next_sot hF (st.next_sot - o) o (by omega)
    obtain ⟨m, hm⟩ := rd_ok_of_lt data (q + 1) (by omega)
    have hscan := scan_marker_skip (n + 1) data data.length o q m hs q1 (by omega) (by omega)
      q4 q3 hm
    have hsub : sub32 (q + 2) 2 = q := by unfold sub32 U32 at *; omega
    rw [find_pu_end_loop, if_neg (by omega), hscan, ok_bind]
    dsimp only
    rw [hb]
    simp only [if_true]
    -- the marker read at the end of the tile-part is not SOP or EPH
    have hend : q + 2 ≤ st.next_sot ∨ (m ≠ J2K_MARKER_SOP ∧ m ≠ J2K_MARKER_EPH ∧
        (m = J2K_MARKER_EOC → q = st.next_sot ∧ st.next_sot + 2 = data.length)) := by
      rcases Nat.lt_or_ge (q + 1) st.next_sot with h1 | h1
      · left; omega
      · right
        rcases Nat.eq_or_lt_of_le q2 with h2 | h2
        · subst h2
          rw [hM] at hm
          have hmm : mk = m := Except.ok.inj hm
          subst hmm
          rcases hmk with h3 | ⟨h3, h4⟩
          · subst h3
            exact ⟨by decide, by decide, fun h => absurd h (by decide)⟩
          · subst h3
            exact ⟨by decide, by decide, fun _ => ⟨rfl, h4⟩⟩
        · have h3 : q + 1 = st.next_sot := by omega
          rw [h3, hF] at hm
          have hmm : 255 = m := Except.ok.inj hm
          subst hmm
          exact ⟨by decide, by decide, fun h => absurd h (by decide)⟩
    by_cases hsop : m = J2K_MARKER_SOP
    · have hq : q + 2 ≤ st.next_sot := by
        rcases hend with h | ⟨h, _⟩
        · exact h
        · exact absurd hsop h
      rw [if_pos hsop]
      subst hsop
      cases c with
      | true =>
        simp only [if_true]
        rw [hsub]
        exact ⟨q, st, rfl, Or.inl ⟨rfl, q1, fun h => absurd h (by decide), hq, q3, hm⟩⟩
      | false =>
        simp only [Bool.false_eq_true, if_false]
        obtain ⟨e, st1, hrun, hres⟩ := ih (q + 2) true (by omega) hq (by omega)
        refine ⟨e, st1, hrun, ?_⟩
        rcases hres with ⟨a, b, _, d⟩ | h
        · exact Or.inl ⟨a, by omega, fun _ => by omega, d⟩
        · exact Or.inr h
    · rw [if_neg hsop]
      by_cases heph : m = J2K_MARKER_EPH
      · have hq : q + 2 ≤ st.next_sot := by
          rcases hend with h | ⟨_, h, _⟩
          · exact h
          · exact absurd heph h
        rw [if_pos heph]
        obtain ⟨e, st1, hrun, hres⟩ := ih (q + 2) c (by omega) hq (by omega)
        refine ⟨e, st1, hrun, ?_⟩
        rcases hres with ⟨a, b, b2, d⟩ | h
        · exact Or.inl ⟨a, by omega, fun h => by have := b2 h; omega, d⟩
        · exact Or.inr h
      · rw [if_neg heph]
        by_cases hge : q + 2 ≥ st.next_sot
        · rw [if_pos hge]
          have hadd : add32 st.next_sot 2 = st.next_sot + 2 := add32_of_lt (by omega)
          rw [hadd]
          by_cases heoc : m = J2K_MARKER_EOC
          · -- the EOC marker itself
            have hq : q = st.next_sot ∧ st.next_sot + 2 = data.length := by
              rcases hend with h | ⟨_, _, h⟩
              · exfalso
                have h5 : q < st.next_sot := by omega
                rw [heoc] at hm
                exact hno q (by omega) h5 q3 hm
              · exact h heoc
            rw [if_pos ⟨heoc, by omega⟩]
            exact ⟨_, _, rfl, Or.inr ⟨rfl, Or.inr ⟨rfl, hq.2⟩⟩⟩
          · rw [if_neg (fun h => heoc h.1)]
            exact ⟨_, _, rfl, Or.inr ⟨rfl, Or.inl rfl⟩⟩
        · rw [if_neg hge]
          obtain ⟨e, st1, hrun, hres⟩ := ih (q + 2) c (by omega) (by omega) (by omega)
          refine ⟨e, st1, hrun, ?_⟩
          rcases hres with ⟨a, b, b2, d⟩ | h
          · exact Or.inl ⟨a, by omega, fun h => by have := b2 h; omega, d⟩
          · exact Or.inr h

/-! ## The scan from the SOT marker of a tile-part -/

theorem seg_chain_len (data : List Nat) (p : Nat) :
    ∀ (segs : List (Nat × Nat)) (o : Nat), seg_chain data o p segs = true →
      o + 2 * segs.length ≤ p := by
  intro segs
  induction segs with
  | nil =>
    intro o h
    rw [seg_chain] at h
    simp only [decide_eq_true_eq] at h
    simp only [List.length_nil]
    omega
  | cons s rest ih =>
    intro o h
    obtain ⟨m, len⟩ := s
    have h4 := (seg_chain_cons data o p m len rest h).2.2.2.2
    have := ih _ h4
    simp only [List.length_cons]
    omega

theorem ok_match_decide (x : Except Fault Nat) (v : Nat)
    (h : (match x with
      | Except.ok l => decide (l = v)
      | Except.error _ => false) = true) : x = Except.ok v := by
  cases x with
  | error e => cases h
  | ok l =>
    simp only [decide_eq_true_eq] at h
    rw [h]

/-- What `tile_part_ok` says, as propositions. -/
theorem tile_part_ok_spec (data : List Nat) (t : TilePart) (h : tile_part_ok data t = true) :
    rd data t.s = Except.ok 255 ∧ rd data (t.s + 1) = Except.ok J2K_MARKER_SOT ∧
      gst_rtp_j2k_pay_header_size data (t.s + 2) = Except.ok t.lsot ∧ 8 ≤ t.lsot ∧
      GST_READ_UINT16_BE data (t.s + 2 + 2) = Except.ok t.isot ∧ t.isot < 65536 ∧
      GST_READ_UINT32_BE data (t.s + 2 + 4) = Except.ok t.psot ∧
      seg_chain data (t.s + 2 + t.lsot) t.d t.segs = true ∧
      rd data t.d = Except.ok 255 ∧ rd data (t.d + 1) = Except.ok J2K_MARKER_SOD ∧
      t.d + 2 ≤ t.s + t.psot ∧ no_eoc_in data (t.d + 2) (t.s + t.psot) = true := by
  unfold tile_part_ok at h
  simp only [Bool.and_eq_true, decide_eq_true_eq] at h
  obtain ⟨⟨⟨⟨⟨⟨⟨⟨⟨⟨⟨a1, a2⟩, a3⟩, a4⟩, a5⟩, a6⟩, a7⟩, a8⟩, a9⟩, a10⟩, a11⟩, a12⟩ := h
  exact ⟨rd_of_byte_at _ _ _ a1, rd_of_byte_at _ _ _ a2, ok_match_decide _ _ a3, a4,
    ok_match_decide _ _ a5, a6, ok_match_decide _ _ a7, a8, rd_of_byte_at _ _ _ a9,
    rd_of_byte_at _ _ _ a10, a11, a12⟩

/-- What follows a tile-part: the next SOT marker, or the EOC marker that ends
the buffer. -/
theorem tiles_ok_head (data : List Nat) (o : Nat) (ts : List TilePart)
    (h : tiles_ok data o ts = true) :
    o + 2 ≤ data.length ∧ rd data o = Except.ok 255 ∧
      ∃ mk, rd data (o + 1) = Except.ok mk ∧
        (mk = J2K_MARKER_SOT ∨ (mk = J2K_MARKER_EOC ∧ o + 2 = data.length)) := by
  cases ts with
  | nil =>
    rw [tiles_ok] at h
    simp only [Bool.and_eq_true, decide_eq_true_eq] at h
    obtain ⟨⟨a1, a2⟩, a3⟩ := h
    exact ⟨by omega, rd_of_byte_at _ _ _ a1, _, rd_of_byte_at _ _ _ a2, Or.inr ⟨rfl, a3⟩⟩
  | cons t ts =>
    rw [tiles_ok] at h
    simp only [Bool.and_eq_true, decide_eq_true_eq] at h
    obtain ⟨⟨a1, a2⟩, _⟩ := h
    obtain ⟨b1, b2, _⟩ := tile_part_ok_spec data t a2
    subst a1
    have := rd_lt _ _ _ b2
    exact ⟨by omega, b1, _, b2, Or.inl rfl⟩

/-- The scan from the SOT marker of a tile-part, in header mode with no main
header pending and no tile counted: T becomes 0, the tile number Isot, the
end of the tile-part is recorded in `next_sot`, `force_packet` is set, and the
scan returns the position of the first SOP marker of the bitstream or, when
there is none, the end of the tile-part. -/
theorem find_tile_start (data : List Nat) (t : TilePart) (mk : Nat) (hs : data.length < U32)
    (ht : tile_part_ok data t = true)
    (hF : rd data (t.s + t.psot) = Except.ok 255)
    (hM : rd data (t.s + t.psot + 1) = Except.ok mk)
    (hmk : mk = J2K_MARKER_SOT ∨ (mk = J2K_MARKER_EOC ∧ t.s + t.psot + 2 = data.length))
    (tp mh_id T priority tile off ns : Nat) (fuel : Nat)
    (hf : data.length + 2 ≤ fuel + t.s) :
    ∃ e b, find_pu_end fuel data data.length t.s
          ⟨⟨tp, 0, mh_id, T, priority, tile, off⟩, false, 0, ns, false⟩
        = Except.ok (e, ⟨⟨tp, 0, mh_id, 0, priority, t.isot, off⟩, b, 0, t.s + t.psot, true⟩) ∧
      ((b = true ∧ t.d + 2 ≤ e ∧ e + 2 ≤ t.s + t.psot ∧
          rd data e = Except.ok 255 ∧ rd data (e + 1) = Except.ok J2K_MARKER_SOP) ∨
        (b = false ∧
          (e = t.s + t.psot ∨ (e = t.s + t.psot + 2 ∧ t.s + t.psot + 2 = data.length)))) := by
  obtain ⟨a1, a2, a3, a4, a5, a6, a7, a8, a9, a10, a11, a12⟩ := tile_part_ok_spec data t ht
  have hlen := seg_chain_len data t.d t.segs _ a8
  have hd := rd_lt _ _ _ a10
  have hnx := rd_lt _ _ _ hM
  have hp := rd_lt _ _ _ a2
  obtain ⟨f, rfl⟩ : ∃ f, fuel = f + 1 + t.segs.length + 1 :=
    ⟨fuel - t.segs.length - 2, by omega⟩
  unfold find_pu_end
  rw [find_pu_end_loop, if_neg (by omega),
    scan_marker_at (f + 1 + t.segs.length) data data.length t.s _ hs hp a1 a2, ok_bind]
  dsimp only
  simp only [Bool.false_eq_true, if_false]
  have hM0 : ¬ ((0 : Nat) ≠ 0) := fun h => h rfl
  rw [if_neg (by decide), if_pos trivial, if_neg hM0, a3, ok_bind, if_neg (by omega)]
  have ea : add32 (t.s + 2) t.lsot = t.s + 2 + t.lsot := add32_of_lt (by omega)
  have hlt : ¬ t.s + 2 + t.lsot ≥ data.length := by omega
  rw [ea, if_neg hlt, a5, ok_bind, a7, ok_bind]
  have hP0 : ¬ t.psot = 0 := by omega
  have es : add32 (sub32 (t.s + 2) 2) t.psot = t.s + t.psot := by
    unfold add32 sub32 U32 at *; omega
  have ei : t.isot % 65536 = t.isot := Nat.mod_eq_of_lt a6
  rw [if_neg hP0, es, ei]
  simp only [if_true]
  rw [find_skip_chain data t.d false _ hs (by omega) rfl t.segs (f + 1) _ a8]
  rw [find_pu_end_loop, if_neg (by omega),
    scan_marker_at f data data.length t.d _ hs hd a9 a10, ok_bind]
  dsimp only
  simp only [Bool.false_eq_true, if_false]
  rw [if_neg (by decide), if_neg (by decide), if_pos trivial]
  obtain ⟨e, st1, hrun, hres⟩ := find_bitstream data
    ⟨⟨tp, 0, mh_id, 0, priority, t.isot, off⟩, true, 0, t.s + t.psot, true⟩ (t.d + 2) mk hs rfl
    (by show t.s + t.psot + 2 ≤ data.length; omega) hF hM hmk
    (fun q h1 h2 h3 => no_eoc_in_spec data _ _ a12 q h1 h2 h3)
    f (t.d + 2) true (Nat.le_refl _) a11 (by omega)
  rw [hrun]
  rcases hres with ⟨h1, h2, _, h4, h5, h6⟩ | ⟨h1, h2⟩
  · subst h1
    exact ⟨e, true, rfl, Or.inl ⟨rfl, h2, h4, h5, h6⟩⟩
  · subst h1
    exact ⟨e, false, rfl, Or.inr ⟨rfl, h2⟩⟩

/-! ## One pass of the emit loop, with its first packet and the state it leaves -/

theorem data_size_of_bounds (pu mtu : Nat) (hpu : pu < U32) (h0 : pu ≠ 0) (hm : 8 < mtu) :
    data_size_of pu mtu ≤ pu ∧ 0 < data_size_of pu mtu ∧
      (pu + 8 < U32 → data_size_of pu mtu + 8 ≤ mtu) ∧
      (2 ≤ pu → 10 ≤ mtu → 2 ≤ data_size_of pu mtu) := by
  unfold data_size_of add32 sub32 HEADER_SIZE U32 at *
  split <;> omega

/-- The emit loop on a unit of `pu` bytes at `offset`: it returns, its first
packet carries the header fields of the state (MHF adjusted when the unit ends
a main header) and the first `data_size_of pu mtu` bytes of the unit, the
packets cover the unit, and the state is left with the header reset and the
fragment offset behind the unit. -/
theorem emit_loop_run (data : List Nat) (mtu end_ : Nat) (hm : 8 < mtu)
    (hs : data.length < U32) :
    ∀ fuel pu offset mk st list, pu ≠ 0 → offset + pu ≤ data.length → pu < fuel →
      HdrOK st.header → st.header.offset = offset % 16777216 →
      ∃ mkr rest, emit_loop fuel data mtu end_ pu offset mk st list
          = Except.ok
            (RtpJ2KState.mk
              (RtpJ2KHeader.mk st.header.tp 0 st.header.mh_id 1 st.header.priority 0
                ((offset + pu) % 16777216))
              st.bitstream st.n_tiles st.next_sot st.force_packet,
            list ++ (⟨header_bytes (RtpJ2KHeader.mk st.header.tp
                (if sub32 pu (data_size_of pu mtu) = 0 ∧ st.header.MHF ≠ 0
                  then (if offset = 0 then 3 else 2) else st.header.MHF)
                st.header.mh_id st.header.T st.header.priority st.header.tile st.header.offset)
              ++ (data.drop offset).take (data_size_of pu mtu), mkr⟩ :: rest)) ∧
        Cover data mtu offset (⟨header_bytes (RtpJ2KHeader.mk st.header.tp
                (if sub32 pu (data_size_of pu mtu) = 0 ∧ st.header.MHF ≠ 0
                  then (if offset = 0 then 3 else 2) else st.header.MHF)
                st.header.mh_id st.header.T st.header.priority st.header.tile st.header.offset)
              ++ (data.drop offset).take (data_size_of pu mtu), mkr⟩ :: rest) (offset + pu) := by
  intro fuel
  induction fuel with
  | zero => intro pu offset mk st list _ _ h; omega
  | succ n ih =>
    intro pu offset mk st list hpu hin hf hh hoff
    obtain ⟨d1, d2, d3, _⟩ := data_size_of_bounds pu mtu (by omega) hpu hm
    rw [emit_loop_step n data mtu end_ pu offset mk st list hpu (by omega)]
    have e1 : sub32 pu (data_size_of pu mtu) = pu - data_size_of pu mtu :=
      sub32_of_le d1 (by omega)
    have e2 : add32 offset (data_size_of pu mtu) = offset + data_size_of pu mtu :=
      add32_of_lt (by omega)
    rw [e1, e2]
    have hh0 : HdrOK (RtpJ2KHeader.mk st.header.tp
        (if pu - data_size_of pu mtu = 0 ∧ st.header.MHF ≠ 0
          then (if offset = 0 then 3 else 2) else st.header.MHF)
        st.header.mh_id st.header.T st.header.priority st.header.tile st.header.offset) := by
      unfold HdrOK at *
      simp only
      split
      · split <;> omega
      · omega
    by_cases hz : pu - data_size_of pu mtu = 0
    · have hde : data_size_of pu mtu = pu := by omega
      obtain ⟨n2, rfl⟩ : ∃ n2, n = n2 + 1 := ⟨n - 1, by omega⟩
      rw [hz, emit_loop_done, hde]
      refine ⟨_, [], rfl, ?_⟩
      rw [hde] at hh0 d3
      rw [Nat.sub_self] at hh0
      exact ⟨_, pu, hh0, hoff, by omega, fun h => d3 (by omega), hin, rfl, Cover_nil _ _ _⟩
    · have hh1 : HdrOK (RtpJ2KHeader.mk st.header.tp 0 st.header.mh_id 1 st.header.priority 0
          ((offset + data_size_of pu mtu) % 16777216)) := by
        unfold HdrOK at *
        simp only
        omega
      obtain ⟨mkr, rest, hrun, hcov⟩ := ih (pu - data_size_of pu mtu)
        (offset + data_size_of pu mtu)
        (if pu - data_size_of pu mtu = 0 ∧ end_ ≥ data.length then true else mk)
        (RtpJ2KState.mk
          (RtpJ2KHeader.mk st.header.tp 0 st.header.mh_id 1 st.header.priority 0
            ((offset + data_size_of pu mtu) % 16777216))
          st.bitstream st.n_tiles st.next_sot st.force_packet)
        (list ++ [⟨header_bytes (RtpJ2KHeader.mk st.header.tp
              (if pu - data_size_of pu mtu = 0 ∧ st.header.MHF ≠ 0
                then (if offset = 0 then 3 else 2) else st.header.MHF)
              st.header.mh_id st.header.T st.header.priority st.header.tile st.header.offset)
            ++ (data.drop offset).take (data_size_of pu mtu),
          if pu - data_size_of pu mtu = 0 ∧ end_ ≥ data.length then true else mk⟩])
        hz (by omega) (by omega) hh1 rfl
      have he : offset + data_size_of pu mtu + (pu - data_size_of pu mtu) = offset + pu := by
        omega
      rw [he] at hrun hcov
      rw [hrun, List.append_assoc]
      refine ⟨_, _, rfl, ?_⟩
      exact ⟨_, data_size_of pu mtu, hh0, hoff, d2, fun h => d3 (by omega), by omega, rfl, hcov⟩

/-- The scan from an EOC marker that ends the buffer, in header mode. -/
theorem find_final_eoc (fuel : Nat) (data : List Nat) (o : Nat) (st : RtpJ2KState)
    (hs : data.length < U32) (hmode : st.bitstream = false)
    (h0 : rd data o = Except.ok 255) (h1 : rd data (o + 1) = Except.ok J2K_MARKER_EOC) :
    find_pu_end (fuel + 1) data data.length o st = Except.ok (o + 2, st) := by
  have hlt := rd_lt _ _ _ h1
  unfold find_pu_end
  rw [find_pu_end_loop, if_neg (by omega),
    scan_marker_at fuel data data.length o _ hs hlt h0 h1, ok_bind]
  dsimp only
  rw [hmode]
  simp only [Bool.false_eq_true, if_false]
  rw [if_neg (by decide), if_neg (by decide), if_neg (by decide), if_pos trivial]
  rfl

/-! ## The pack loop inside a tile-part -/

/-- The pass of the pack loop that starts at the SOT marker of a tile-part: it
ends, forced, at the first SOP marker of the bitstream or at the end of the
tile-part, with T = 0 and the tile number Isot in the header. -/
theorem pack_tile_start (data : List Nat) (t : TilePart) (mk m : Nat) (hs : data.length < U32)
    (ht : tile_part_ok data t = true)
    (hF : rd data (t.s + t.psot) = Except.ok 255)
    (hM : rd data (t.s + t.psot + 1) = Except.ok mk)
    (hmk : mk = J2K_MARKER_SOT ∨ (mk = J2K_MARKER_EOC ∧ t.s + t.psot + 2 = data.length))
    (tp mh_id T priority tile off ns : Nat) (fuel : Nat)
    (hf : data.length + 4 ≤ fuel + t.s) :
    ∃ e b, pack_loop fuel data m t.s t.s t.s
          ⟨⟨tp, 0, mh_id, T, priority, tile, off⟩, false, 0, ns, false⟩
        = Except.ok (e - t.s, e, e,
            ⟨⟨tp, 0, mh_id, 0, priority, t.isot, off⟩, b, 0, t.s + t.psot, false⟩) ∧
      ((b = true ∧ t.d + 2 ≤ e ∧ e + 2 ≤ t.s + t.psot ∧
          rd data e = Except.ok 255 ∧ rd data (e + 1) = Except.ok J2K_MARKER_SOP) ∨
        (b = false ∧
          (e = t.s + t.psot ∨ (e = t.s + t.psot + 2 ∧ t.s + t.psot + 2 = data.length)))) := by
  obtain ⟨f, rfl⟩ : ∃ f, fuel = f + 1 + 1 := ⟨fuel - 2, by have := rd_lt _ _ _ hM; omega⟩
  obtain ⟨e, b, hfind, hres⟩ := find_tile_start data t mk hs ht hF hM hmk tp mh_id T priority
    tile off ns (f + 1 + 1) (by omega)
  obtain ⟨a1, a2, a3, a4, a5, a6, a7, a8, a9, a10, a11, a12⟩ := tile_part_ok_spec data t ht
  have hlen := seg_chain_len data t.d t.segs _ a8
  have hd := rd_lt _ _ _ a10
  have hnx := rd_lt _ _ _ hM
  have hes : t.s ≤ e ∧ e ≤ data.length := by
    rcases hres with ⟨_, h1, h2, _⟩ | ⟨_, h1 | ⟨h1, h2⟩⟩ <;> omega
  have z : sub32 t.s t.s = 0 := by unfold sub32 U32 at *; omega
  have hlm : data.length % U32 = data.length := Nat.mod_eq_of_lt hs
  rw [← hlm] at hfind
  have hsz : ¬ sub32 t.s t.s > m := by rw [z]; omega
  have hne : t.s ≠ data.length := by omega
  rw [pack_loop_scan (f + 1) data m t.s t.s t.s e _ _ rfl hsz hne hfind,
    pack_loop_force f data m t.s t.s e _ rfl, sub32_of_le hes.1 (by omega)]
  exact ⟨e, b, rfl, hres⟩

/-- The pack loop in the bitstream of a tile-part, entered with `force_packet`
clear: it returns with `pos1 > offset`, and either the scan is still inside
the bitstream, the state untouched, or the pass ends at the end of the
tile-part with `bitstream` cleared. -/
theorem pack_bitstream (data : List Nat) (st : RtpJ2KState) (lo mk m offset : Nat)
    (hs : data.length < U32) (hb : st.bitstream = true) (hfp : st.force_packet = false)
    (hnx : st.next_sot + 2 ≤ data.length)
    (hF : rd data st.next_sot = Except.ok 255) (hM : rd data (st.next_sot + 1) = Except.ok mk)
    (hmk : mk = J2K_MARKER_SOT ∨ (mk = J2K_MARKER_EOC ∧ st.next_sot + 2 = data.length))
    (hno : ∀ q, lo ≤ q → q < st.next_sot → rd data q = Except.ok 255 →
      rd data (q + 1) ≠ Except.ok J2K_MARKER_EOC) :
    ∀ fuel pos end_, (pos = offset ∨ (offset < pos ∧ pos - offset ≤ m)) → offset ≤ pos →
      pos ≤ end_ → lo ≤ end_ → end_ + 2 ≤ st.next_sot → data.length + 3 ≤ fuel + end_ →
      ∃ pos1 end1 st1, pack_loop fuel data m offset pos end_ st
          = Except.ok (pos1 - offset, pos1, end1, st1) ∧ offset < pos1 ∧
        ((st1 = st ∧ pos1 ≤ end1 ∧ lo ≤ end1 ∧ end1 + 2 ≤ st.next_sot) ∨
          (st1 = RtpJ2KState.mk st.header false st.n_tiles st.next_sot false ∧ pos1 = end1 ∧
            (end1 = st.next_sot ∨
              (end1 = st.next_sot + 2 ∧ st.next_sot + 2 = data.length)))) := by
  intro fuel
  induction fuel with
  | zero => intro pos e _ _ _ _ h1 h2; omega
  | succ n ih =>
    intro pos e hinv hop hpe hlo he hf
    have e1 : sub32 e offset = e - offset := sub32_of_le (by omega) (by omega)
    have e2 : sub32 pos offset = pos - offset := sub32_of_le hop (by omega)
    by_cases hsz : sub32 e offset > m
    · by_cases hpos : pos ≠ offset
      · rw [pack_loop_rollback n data m offset pos e st hfp hsz hpos, e2]
        exact ⟨pos, e, st, rfl, by omega, Or.inl ⟨rfl, hpe, hlo, he⟩⟩
      · have hpo : pos = offset := not_not.mp hpos
        subst hpo
        rw [pack_loop_big n data m pos e st hfp hsz, e1]
        rw [e1] at hsz
        exact ⟨e, e, st, rfl, by omega, Or.inl ⟨rfl, Nat.le_refl _, hlo, he⟩⟩
    · obtain ⟨e3, st3, hfind, hres⟩ := find_bitstream data st lo mk hs hb hnx hF hM hmk hno
        (n + 1) e false hlo (by omega) (by omega)
      have hlm : data.length % U32 = data.length := Nat.mod_eq_of_lt hs
      have hfind2 : find_pu_end (n + 1) data (data.length % U32) e st = Except.ok (e3, st3) := by
        rw [hlm]; exact hfind
      rw [pack_loop_scan n data m offset pos e e3 st st3 hfp hsz (by omega) hfind2]
      rw [e1] at hsz
      rcases hres with ⟨h1, h2, h3, h4, _⟩ | ⟨h1, h2⟩
      · subst h1
        have h5 := h3 rfl
        obtain ⟨pos1, end1, st1, hrun, hp1, hcase⟩ := ih e e3
          (by rcases Nat.eq_or_lt_of_le (Nat.le_trans hop hpe) with h | h
              · left; exact h.symm
              · right; exact ⟨h, by omega⟩)
          (by omega) (by omega) (by omega) h4 (by omega)
        exact ⟨pos1, end1, st1, hrun, hp1, hcase⟩
      · subst h1
        obtain ⟨n2, rfl⟩ : ∃ n2, n = n2 + 1 := ⟨n - 1, by omega⟩
        have hge : offset ≤ e3 := by rcases h2 with h | ⟨h, _⟩ <;> omega
        rw [pack_loop_force n2 data m offset e e3 _ rfl, sub32_of_le hge (by omega)]
        refine ⟨e3, e3, _, rfl, by rcases h2 with h | ⟨h, _⟩ <;> omega, Or.inr ⟨rfl, rfl, h2⟩⟩

/-! ## The outer loop over the tile-parts of a codestream -/

theorem TileStart_append (data : List Nat) (mtu o m : Nat) (em new : List Packet)
    (t : TilePart) (hc : Cover data mtu o em m) (h : TileStart data mtu m new t) :
    TileStart data mtu o (em ++ new) t := by
  obtain ⟨pre, mkr, post, d, h1, h2, h3⟩ := h
  refine ⟨em ++ pre, mkr, post, d, h1, Cover_append data mtu em pre o m t.s hc h2, ?_⟩
  rw [h3, List.append_assoc]

/-- The passes of the outer loop inside the bitstream of a tile-part, followed
by the run over the tile-parts `ts` behind it. -/
theorem outer_bitstream (data : List Nat) (mtu : Nat) (hm : 10 ≤ mtu) (hs : data.length < U32)
    (lo nx mk : Nat) (ts : List TilePart)
    (hnx : nx + 2 ≤ data.length)
    (hF : rd data nx = Except.ok 255) (hM : rd data (nx + 1) = Except.ok mk)
    (hmk : mk = J2K_MARKER_SOT ∨ (mk = J2K_MARKER_EOC ∧ nx + 2 = data.length))
    (hno : ∀ q, lo ≤ q → q < nx → rd data q = Except.ok 255 →
      rd data (q + 1) ≠ Except.ok J2K_MARKER_EOC)
    (hlast : nx + 2 = data.length → ts = [])
    (hrest : ∀ fuel list, data.length + 4 ≤ fuel + nx →
      ∃ new, outer_loop fuel data mtu (mtu - 8) nx nx nx
          ⟨⟨0, 0, 0, 1, 255, 0, nx % 16777216⟩, false, 0, nx, false⟩ list
          = Except.ok (list ++ new) ∧
        Cover data mtu nx new data.length ∧ ∀ t ∈ ts, TileStart data mtu nx new t) :
    ∀ fuel offset end_ list, offset ≤ end_ → lo ≤ end_ → end_ + 2 ≤ nx →
      data.length + 4 ≤ fuel + offset →
      ∃ new, outer_loop fuel data mtu (mtu - 8) offset offset end_
          ⟨⟨0, 0, 0, 1, 255, 0, offset % 16777216⟩, true, 0, nx, false⟩ list
          = Except.ok (list ++ new) ∧
        Cover data mtu offset new data.length ∧ ∀ t ∈ ts, TileStart data mtu offset new t := by
  intro fuel
  induction fuel with
  | zero => intro offset e list _ _ _ h; omega
  | succ n ih =>
    intro offset e list hoe hlo he hf
    obtain ⟨pos1, end1, st1, hpack, hp1, hcase⟩ := pack_bitstream data
      ⟨⟨0, 0, 0, 1, 255, 0, offset % 16777216⟩, true, 0, nx, false⟩ lo mk (mtu - 8) offset hs
      rfl rfl hnx hF hM hmk hno (n + 1) offset e (Or.inl rfl) (Nat.le_refl _) hoe hlo he
      (by omega)
    have hp1len : pos1 ≤ data.length := by
      rcases hcase with ⟨_, h1, _, h3⟩ | ⟨_, h1, h2 | ⟨h2, h3⟩⟩
      · have : end1 + 2 ≤ nx := h3
        omega
      · have : end1 = nx := h2
        omega
      · have : end1 = nx + 2 := h2
        omega
    have hst1 : st1.header = ⟨0, 0, 0, 1, 255, 0, offset % 16777216⟩ ∧ st1.n_tiles = 0 ∧
        st1.next_sot = nx ∧ st1.force_packet = false := by
      rcases hcase with ⟨h, _⟩ | ⟨h, _⟩ <;> subst h <;> exact ⟨rfl, rfl, rfl, rfl⟩
    obtain ⟨mkr, rest, hemit, hcov⟩ := emit_loop_run data mtu end1 (by omega) hs (n + 1)
      (pos1 - offset) offset false st1 list (by omega) (by omega) (by omega)
      (by rw [hst1.1]; simp [HdrOK]) (by rw [hst1.1])
    have hsum : offset + (pos1 - offset) = pos1 := by omega
    rw [hsum] at hemit hcov
    rw [outer_loop_step n data mtu (mtu - 8) offset offset e _ list _ _ _ _ _ _ hpack hemit]
    rcases hcase with ⟨h, h1, h2, h3⟩ | ⟨h, h1, h2⟩
    · -- still inside the bitstream
      subst h
      have h3n : end1 + 2 ≤ nx := h3
      rw [if_pos (by omega)]
      obtain ⟨new, hrun, hc, htl⟩ := ih pos1 end1 (list ++ _ :: rest) h1 h2 h3 (by omega)
      rw [hrun, List.append_assoc]
      exact ⟨_, rfl, Cover_append data mtu _ _ offset pos1 _ hcov hc,
        fun t ht => TileStart_append data mtu offset pos1 _ _ t hcov (htl t ht)⟩
    · subst h
      rcases h2 with h2 | ⟨h2, h3⟩
      · -- the pass ends at the end of the tile-part
        have h2n : end1 = nx := h2
        have hpn : pos1 = nx := by omega
        have hlt : nx < data.length := by omega
        rw [hpn] at hcov
        rw [hpn, h2n, if_pos hlt]
        obtain ⟨new, hrun, hc, htl⟩ := hrest n (list ++ _ :: rest) (by omega)
        rw [hrun, List.append_assoc]
        exact ⟨_, rfl, Cover_append data mtu _ _ offset nx _ hcov hc,
          fun t ht => TileStart_append data mtu offset nx _ _ t hcov (htl t ht)⟩
      · -- the pass ends at the end of the buffer
        have h2n : end1 = nx + 2 := h2
        have h3n : nx + 2 = data.length := h3
        have hpn : pos1 = data.length := by omega
        rw [hpn] at hcov
        rw [hpn, if_neg (Nat.lt_irrefl _)]
        refine ⟨_, rfl, hcov, ?_⟩
        rw [hlast h3n]
        intro t ht
        cases ht

theorem tiles_ok_last (data : List Nat) (o : Nat) (ts : List TilePart)
    (h : tiles_ok data o ts = true) (hl : o + 2 = data.length) : ts = [] := by
  cases ts with
  | nil => rfl
  | cons t ts =>
    exfalso
    rw [tiles_ok] at h
    simp only [Bool.and_eq_true, decide_eq_true_eq] at h
    obtain ⟨⟨a1, a2⟩, _⟩ := h
    obtain ⟨_, _, _, b4, _, _, _, b8, _, b10, _, _⟩ := tile_part_ok_spec data t a2
    have := seg_chain_le data t.d t.segs _ b8
    have := rd_lt _ _ _ b10
    omega

/-- The run of the outer loop from the start of a sequence of tile-parts, in
header mode with the header fields reset: it returns, the packets cover the
rest of the buffer, and for every tile-part one packet begins at its SOT
marker, with T = 0 and the tile number Isot. -/
theorem outer_tiles (data : List Nat) (mtu : Nat) (hm : 10 ≤ mtu) (hs : data.length < U32) :
    ∀ (ts : List TilePart) (o : Nat), tiles_ok data o ts = true →
      ∀ fuel ns list, data.length + 4 ≤ fuel + o →
        ∃ new, outer_loop fuel data mtu (mtu - 8) o o o
            ⟨⟨0, 0, 0, 1, 255, 0, o % 16777216⟩, false, 0, ns, false⟩ list
            = Except.ok (list ++ new) ∧
          Cover data mtu o new data.length ∧ ∀ t ∈ ts, TileStart data mtu o new t := by
  intro ts
  induction ts with
  | nil =>
    intro o h fuel ns list hf
    rw [tiles_ok] at h
    simp only [Bool.and_eq_true, decide_eq_true_eq] at h
    obtain ⟨⟨a1, a2⟩, a3⟩ := h
    have h0 := rd_of_byte_at _ _ _ a1
    have h1 := rd_of_byte_at _ _ _ a2
    obtain ⟨f, rfl⟩ : ∃ f, fuel = f + 1 + 1 := ⟨fuel - 2, by omega⟩
    have hlm : data.length % U32 = data.length := Nat.mod_eq_of_lt hs
    have hfind := find_final_eoc (f + 1) data o
      ⟨⟨0, 0, 0, 1, 255, 0, o % 16777216⟩, false, 0, ns, false⟩ hs rfl h0 h1
    rw [← hlm] at hfind
    have z : sub32 o o = 0 := by unfold sub32 U32 at *; omega
    have z2 : sub32 (o + 2) o = 2 := by unfold sub32 U32 at *; omega
    have hsz : ¬ sub32 o o > mtu - 8 := by rw [z]; omega
    have hsz2 : ¬ sub32 (o + 2) o > mtu - 8 := by rw [z2]; omega
    have hpack : pack_loop (f + 1 + 1) data (mtu - 8) o o o
        ⟨⟨0, 0, 0, 1, 255, 0, o % 16777216⟩, false, 0, ns, false⟩
        = Except.ok (2, o + 2, o + 2,
          ⟨⟨0, 0, 0, 1, 255, 0, o % 16777216⟩, false, 0, ns, false⟩) := by
      rw [pack_loop_scan (f + 1) data (mtu - 8) o o o (o + 2) _ _ rfl hsz (by omega) hfind,
        pack_loop_done f data (mtu - 8) o o (o + 2) _ rfl hsz2 a3, z2]
    obtain ⟨mkr, rest, hemit, hcov⟩ := emit_loop_run data mtu (o + 2) (by omega) hs (f + 1 + 1)
      2 o false ⟨⟨0, 0, 0, 1, 255, 0, o % 16777216⟩, false, 0, ns, false⟩ list (by omega)
      (by omega) (by omega) (by simp [HdrOK]) rfl
    rw [outer_loop_step (f + 1) data mtu (mtu - 8) o o o _ list _ _ _ _ _ _ hpack hemit,
      if_neg (by omega)]
    rw [a3] at hcov
    exact ⟨_, rfl, hcov, fun t ht => by cases ht⟩
  | cons t ts ih =>
    intro o h fuel ns list hf
    rw [tiles_ok] at h
    simp only [Bool.and_eq_true, decide_eq_true_eq] at h
    obtain ⟨⟨a1, a2⟩, a3⟩ := h
    subst a1
    obtain ⟨hnx, hF, mk, hM, hmk⟩ := tiles_ok_head data _ ts a3
    obtain ⟨b1, b2, b3, b4, b5, b6, b7, b8, b9, b10, b11, b12⟩ := tile_part_ok_spec data t a2
    have hlen := seg_chain_len data t.d t.segs _ b8
    obtain ⟨e, b, hpack, hres⟩ := pack_tile_start data t mk (mtu - 8) hs a2 hF hM
      (by rcases hmk with h | ⟨h1, h2⟩
          · exact Or.inl h
          · exact Or.inr ⟨h1, h2⟩)
      0 0 1 255 0 (t.s % 16777216) ns fuel hf
    have hes : t.s + 2 ≤ e ∧ e ≤ data.length := by
      rcases hres with ⟨_, h1, h2, _⟩ | ⟨_, h1 | ⟨h1, h2⟩⟩ <;> omega
    obtain ⟨n, rfl⟩ : ∃ n, fuel = n + 1 := ⟨fuel - 1, by omega⟩
    obtain ⟨mkr, rest, hemit, hcov⟩ := emit_loop_run data mtu e (by omega) hs (n + 1)
      (e - t.s) t.s false ⟨⟨0, 0, 0, 0, 255, t.isot, t.s % 16777216⟩, b, 0, t.s + t.psot, false⟩
      list (by omega) (by omega) (by omega) (by simp [HdrOK]; exact b6) rfl
    have hsum : t.s + (e - t.s) = e := by omega
    rw [hsum] at hemit hcov
    simp only [ne_eq, not_true_eq_false, and_false, if_false] at hemit hcov
    obtain ⟨_, _, _, d4⟩ := data_size_of_bounds (e - t.s) mtu (by omega) (by omega)
      (by omega : 8 < mtu)
    have hd2 : 2 ≤ data_size_of (e - t.s) mtu := d4 (by omega) hm
    rw [outer_loop_step n data mtu (mtu - 8) t.s t.s t.s _ list _ _ _ _ _ _ hpack hemit]
    have hself : ∀ post, TileStart data mtu t.s
        (⟨header_bytes ⟨0, 0, 0, 0, 255, t.isot, t.s % 16777216⟩
          ++ (data.drop t.s).take (data_size_of (e - t.s) mtu), mkr⟩ :: post) t :=
      fun post => ⟨[], mkr, post, _, hd2, Cover_nil _ _ _, rfl⟩
    rcases hres with ⟨hb, h1, h2, _⟩ | ⟨hb, h1 | ⟨h1, h2⟩⟩
    · -- the first pass ends at an SOP marker of the bitstream
      subst hb
      rw [if_pos (by omega)]
      obtain ⟨new, hrun, hc, htl⟩ := outer_bitstream data mtu hm hs (t.d + 2) (t.s + t.psot) mk
        ts hnx hF hM hmk (fun q q1 q2 q3 => no_eoc_in_spec data _ _ b12 q q1 q2 q3)
        (fun hl => tiles_ok_last data _ ts a3 hl)
        (fun fuel list hf2 => ih _ a3 fuel (t.s + t.psot) list hf2)
        n e e (list ++ _ :: rest) (Nat.le_refl _) h1 h2 (by omega)
      rw [hrun, List.append_assoc]
      refine ⟨_, rfl, Cover_append data mtu _ _ t.s e _ hcov hc, ?_⟩
      intro t2 ht2
      rcases List.mem_cons.mp ht2 with h | h
      · subst h
        exact hself _
      · exact TileStart_append data mtu t.s e _ _ t2 hcov (htl t2 h)
    · -- the first pass ends at the end of the tile-part
      subst hb
      subst h1
      rw [if_pos (by omega)]
      obtain ⟨new, hrun, hc, htl⟩ := ih _ a3 n (t.s + t.psot) (list ++ _ :: rest) (by omega)
      rw [hrun, List.append_assoc]
      refine ⟨_, rfl, Cover_append data mtu _ _ t.s _ _ hcov hc, ?_⟩
      intro t2 ht2
      rcases List.mem_cons.mp ht2 with h | h
      · subst h
        exact hself _
      · exact TileStart_append data mtu t.s _ _ _ t2 hcov (htl t2 h)
    · -- the first pass ends at the end of the buffer
      subst hb
      subst h1
      have hnl : ¬ t.s + t.psot + 2 < data.length := by omega
      rw [if_neg hnl]
      rw [h2] at hcov hself
      rw [h2]
      refine ⟨_, rfl, hcov, ?_⟩
      rw [tiles_ok_last data _ ts a3 h2]
      intro t2 ht2
      rcases List.mem_cons.mp ht2 with h | h
      · subst h
        exact hself _
      · cases h

/-! ## Buffers with a long run of one byte -/

theorem rd_run_head (a c : List Nat) (n v k : Nat) (hk : k < a.length) :
    rd (a ++ List.replicate n v ++ c) k = rd a k := by
  unfold rd
  rw [List.get?_eq_getElem?, List.get?_eq_getElem?,
    List.getElem?_append_left (by rw [List.length_append]; omega),
    List.getElem?_append_left hk]

theorem rd_run_mid (a c : List Nat) (n v i : Nat) (h1 : a.length ≤ i) (h2 : i < a.length + n) :
    rd (a ++ List.replicate n v ++ c) i = Except.ok v := by
  unfold rd
  rw [List.get?_eq_getElem?,
    List.getElem?_append_left (by rw [List.length_append, List.length_replicate]; omega),
    List.getElem?_append_right h1, List.getElem?_replicate, if_pos (by omega)]
  rfl

theorem rd_run_tail (a c : List Nat) (n v k : Nat) :
    rd (a ++ List.replicate n v ++ c) (a.length + n + k) = rd c k := by
  unfold rd
  have hl : (a ++ List.replicate n v).length = a.length + n := by
    rw [List.length_append, List.length_replicate]
  rw [List.get?_eq_getElem?, List.get?_eq_getElem?,
    List.getElem?_append_right (by rw [hl]; omega), hl, Nat.add_sub_cancel_left]

theorem no_eoc_in_of_ne (data : List Nat) (lo hi : Nat)
    (h : ∀ q, lo ≤ q → q < hi → rd data q ≠ Except.ok 255) : no_eoc_in data lo hi = true := by
  unfold no_eoc_in
  rw [List.all_eq_true]
  intro q hq
  rw [List.mem_range'_1] at hq
  have hne := h q hq.1 (by omega)
  have hb : byte_at data q 255 = false := by
    cases hc : byte_at data q 255 with
    | false => rfl
    | true => exact absurd (rd_of_byte_at _ _ _ hc) hne
  rw [hb]
  rfl

theorem no_eoc_in_run (a c : List Nat) (n v : Nat) (hv : v ≠ 255) :
    no_eoc_in (a ++ List.replicate n v ++ c) a.length (a.length + n) = true := by
  apply no_eoc_in_of_ne
  intro q h1 h2 hc
  rw [rd_run_mid a c n v q h1 h2] at hc
  exact hv (Except.ok.inj hc)

theorem header_size_shift (data c : List Nat) (o j m : Nat)
    (h : ∀ k, k < m → rd data (o + k) = rd c k) (hj : j + 1 < m) :
    gst_rtp_j2k_pay_header_size data (o + j) = gst_rtp_j2k_pay_header_size c j := by
  unfold gst_rtp_j2k_pay_header_size
  rw [h j (by omega), Nat.add_assoc o j 1, h (j + 1) hj]

theorem read16_shift (data c : List Nat) (o j m : Nat)
    (h : ∀ k, k < m → rd data (o + k) = rd c k) (hj : j + 1 < m) :
    GST_READ_UINT16_BE data (o + j) = GST_READ_UINT16_BE c j := by
  unfold GST_READ_UINT16_BE
  rw [h j (by omega), Nat.add_assoc o j 1, h (j + 1) hj]

theorem read32_shift (data c : List Nat) (o j m : Nat)
    (h : ∀ k, k < m → rd data (o + k) = rd c k) (hj : j + 3 < m) :
    GST_READ_UINT32_BE data (o + j) = GST_READ_UINT32_BE c j := by
  unfold GST_READ_UINT32_BE
  rw [h j (by omega), Nat.add_assoc o j 1, h (j + 1) (by omega), Nat.add_assoc o j 2,
    h (j + 2) (by omega), Nat.add_assoc o j 3, h (j + 3) hj]

/-- The conditions of `tile_part_ok`, put together. -/
theorem tile_part_ok_intro (data : List Nat) (t : TilePart)
    (h1 : rd data t.s = Except.ok 255) (h2 : rd data (t.s + 1) = Except.ok J2K_MARKER_SOT)
    (h3 : gst_rtp_j2k_pay_header_size data (t.s + 2) = Except.ok t.lsot) (h4 : 8 ≤ t.lsot)
    (h5 : GST_READ_UINT16_BE data (t.s + 2 + 2) = Except.ok t.isot) (h6 : t.isot < 65536)
    (h7 : GST_READ_UINT32_BE data (t.s + 2 + 4) = Except.ok t.psot)
    (h8 : seg_chain data (t.s + 2 + t.lsot) t.d t.segs = true)
    (h9 : rd data t.d = Except.ok 255) (h10 : rd data (t.d + 1) = Except.ok J2K_MARKER_SOD)
    (h11 : t.d + 2 ≤ t.s + t.psot) (h12 : no_eoc_in data (t.d + 2) (t.s + t.psot) = true) :
    tile_part_ok data t = true := by
  unfold tile_part_ok
  rw [byte_at_of_rd _ _ _ h1, byte_at_of_rd _ _ _ h2, h3, h5, h7, h8, byte_at_of_rd _ _ _ h9,
    byte_at_of_rd _ _ _ h10, h12]
  simp only [Bool.and_true, Bool.true_and, decide_eq_true_eq, decide_True, h4, h6, h11]

theorem tiles_ok_cons_intro (data : List Nat) (t : TilePart) (ts : List TilePart)
    (h1 : tile_part_ok data t = true) (h2 : tiles_ok data (t.s + t.psot) ts = true) :
    tiles_ok data t.s (t :: ts) = true := by
  rw [tiles_ok, h1, h2]
  simp only [decide_True, Bool.and_self]

theorem tiles_ok_nil_intro (data : List Nat) (o : Nat) (h1 : rd data o = Except.ok 255)
    (h2 : rd data (o + 1) = Except.ok J2K_MARKER_EOC) (h3 : o + 2 = data.length) :
    tiles_ok data o [] = true := by
  rw [tiles_ok, byte_at_of_rd _ _ _ h1, byte_at_of_rd _ _ _ h2]
  simp only [h3, decide_True, Bool.and_self]

theorem valid_codestream_intro (data : List Nat) (p : Nat) (segs : List (Nat × Nat))
    (t : TilePart) (ts : List TilePart)
    (h0 : rd data 0 = Except.ok 255) (h1 : rd data 1 = Except.ok J2K_MARKER_SOC)
    (h2 : seg_chain data 2 p segs = true) (h3 : tiles_ok data p (t :: ts) = true) :
    valid_codestream data p segs (t :: ts) = true := by
  unfold valid_codestream
  rw [byte_at_of_rd _ _ _ h0, byte_at_of_rd _ _ _ h1, h2, h3]
  rfl

/-! ## The payloader on a codestream with tile-parts -/

/-- What `valid_codestream` says, as propositions. -/
theorem valid_codestream_spec (data : List Nat) (p : Nat) (segs : List (Nat × Nat))
    (tiles : List TilePart) (h : valid_codestream data p segs tiles = true) :
    rd data 0 = Except.ok 255 ∧ rd data 1 = Except.ok J2K_MARKER_SOC ∧
      seg_chain data 2 p segs = true ∧ tiles ≠ [] ∧ tiles_ok data p tiles = true := by
  unfold valid_codestream at h
  simp only [Bool.and_eq_true, Bool.not_eq_true', List.isEmpty_eq_false] at h
  obtain ⟨⟨⟨⟨a1, a2⟩, a3⟩, a4⟩, a5⟩ := h
  refine ⟨rd_of_byte_at _ _ _ a1, rd_of_byte_at _ _ _ a2, a3, ?_, a5⟩
  intro hc
  rw [hc] at a4
  exact a4 rfl

/-- The payloader on a codestream with tile-parts, with an MTU of 10 or more
and fuel for the length of the buffer: it returns, the packets carry the
buffer slice by slice, and for every tile-part one packet begins at its SOT
marker, with MHF = 0, T = 0 and the tile number Isot in its header. -/
theorem handle_buffer_tiles (data : List Nat) (p : Nat) (segs : List (Nat × Nat))
    (tiles : List TilePart) (mtu fuel : Nat)
    (hv : valid_codestream data p segs tiles = true) (hm : 10 ≤ mtu) (hmtu : mtu < U32)
    (hs : data.length < U32) (hf : data.length + 5 ≤ fuel) :
    ∃ pkts, gst_rtp_j2k_pay_handle_buffer fuel data mtu = Except.ok pkts ∧
      Cover data mtu 0 pkts data.length ∧ ∀ t ∈ tiles, TileStart data mtu 0 pkts t := by
  obtain ⟨hsoc0, hsoc1, hchain, hne, htiles⟩ := valid_codestream_spec data p segs tiles hv
  obtain ⟨hp2, h0, mk, h1, hmk⟩ := tiles_ok_head data p tiles htiles
  have hsot : rd data (p + 1) = Except.ok J2K_MARKER_SOT := by
    rcases hmk with h | ⟨_, h⟩
    · rw [h1, h]
    · exact absurd (tiles_ok_last data p tiles htiles h) hne
  have hlen := seg_chain_len data p segs 2 hchain
  have h8 : HEADER_SIZE ≤ mtu := by unfold HEADER_SIZE; omega
  have e : sub32 mtu HEADER_SIZE = mtu - 8 := by rw [sub32_of_le h8 hmtu]; rfl
  have hne0 : ¬ (mtu - 8 = 0) := by omega
  obtain ⟨f, rfl⟩ : ∃ f, fuel = f + 2 + segs.length + 1 :=
    ⟨fuel - segs.length - 3, by omega⟩
  have hfind := find_main_header (f + 1) data p segs initial_state hs rfl hsoc0 hsoc1 hchain
    h0 hsot
  have hlm : data.length % U32 = data.length := Nat.mod_eq_of_lt hs
  have e0 : f + 1 + 2 + segs.length = f + 2 + segs.length + 1 := by omega
  rw [← hlm, e0] at hfind
  have z0 : sub32 0 0 = 0 := rfl
  have zp : sub32 p 0 = p := sub32_zero _ (by omega)
  have hsz0 : ¬ sub32 0 0 > mtu - 8 := by rw [z0]; omega
  have hend0 : (0 : Nat) ≠ data.length := by omega
  have e1 : f + 2 + segs.length = f + 1 + segs.length + 1 := by omega
  have hpack : pack_loop (f + 2 + segs.length + 1) data (mtu - 8) 0 0 0 initial_state
      = Except.ok (p, p, p, mk_state 1 1 0 0 false 0 0 false) := by
    rw [pack_loop_scan (f + 2 + segs.length) data (mtu - 8) 0 0 0 p initial_state _ rfl hsz0
      hend0 hfind]
    rw [e1, pack_loop_force (f + 1 + segs.length) data (mtu - 8) 0 0 p _ rfl, zp]
    rfl
  obtain ⟨mkr, rest, hemit, hcov⟩ := emit_loop_run data mtu p (by omega) hs
    (f + 2 + segs.length + 1) p 0 false (mk_state 1 1 0 0 false 0 0 false) [] (by omega)
    (by omega) (by omega) (by simp [HdrOK, mk_state]) rfl
  rw [Nat.zero_add] at hemit hcov
  obtain ⟨new, hrun, hc, htl⟩ := outer_tiles data mtu hm hs tiles p htiles
    (f + 2 + segs.length) 0 ([] ++ _ :: rest) (by omega)
  refine ⟨_ :: rest ++ new, ?_, Cover_append data mtu _ _ 0 p _ hcov hc,
    fun t ht => TileStart_append data mtu 0 p _ _ t hcov (htl t ht)⟩
  unfold gst_rtp_j2k_pay_handle_buffer
  dsimp only
  rw [e, if_neg hne0, outer_loop_step (f + 2 + segs.length) data mtu (mtu - 8) 0 0 0
    initial_state [] _ _ _ _ _ _ hpack hemit, if_pos (by omega)]
  exact hrun

theorem Cover_sum (data : List Nat) (mtu : Nat) :
    ∀ (pkts : List Packet) (o L : Nat), Cover data mtu o pkts L →
      o + (pkts.map (fun q => q.data.length)).sum = L := by
  intro pkts
  induction pkts with
  | nil => intro o L h; simp only [Cover] at h; simp [h]
  | cons p ps ih =>
    intro o L h
    obtain ⟨hd, d, _, _, _, _, hin, hp, hrest⟩ := h
    have := ih _ _ hrest
    have hl : p.data.length = d := by
      cases p with
      | mk payload marker =>
        simp only at hp
        subst hp
        rw [data_header_append, List.length_take, List.length_drop]
        omega
    simp only [List.map_cons, List.sum_cons, hl]
    omega

theorem Cover_mem_offset (data : List Nat) (mtu : Nat) :
    ∀ (pkts : List Packet) (o L : Nat), Cover data mtu o pkts L →
      ∀ q ∈ pkts, parse_frag_offset q.payload < 16777216 := by
  intro pkts
  induction pkts with
  | nil => intro o L _ q hq; cases hq
  | cons p ps ih =>
    intro o L h q hq
    obtain ⟨hd, d, _, _, _, _, _, hp, hrest⟩ := h
    rcases List.mem_cons.mp hq with h1 | h1
    · subst h1
      rw [hp, parse_frag_offset_header]
      exact Nat.mod_lt _ (by decide)
    · exact ih _ _ hrest q h1

/-- Two decompositions of one packet list: the packet boundary before `q2`
does not lie strictly inside the packet `q`. -/
theorem no_straddle (pkts pre post pre2 post2 : List Packet) (q q2 : Packet)
    (h1 : pkts = pre ++ q :: post) (h2 : pkts = pre2 ++ q2 :: post2) :
    ¬ ((pre.map (fun x => x.data.length)).sum < (pre2.map (fun x => x.data.length)).sum ∧
      (pre2.map (fun x => x.data.length)).sum
        < (pre.map (fun x => x.data.length)).sum + q.data.length) := by
  rw [h1] at h2
  intro hc
  rcases List.append_eq_append_iff.mp h2 with ⟨a, ha, hb⟩ | ⟨c, hc1, hc2⟩
  · cases a with
    | nil =>
      rw [List.append_nil] at ha
      rw [ha] at hc
      omega
    | cons x xs =>
      rw [List.cons_append] at hb
      injection hb with hx hy
      subst hx
      rw [ha] at hc
      simp only [List.map_append, List.sum_append, List.map_cons, List.sum_cons] at hc
      omega
  · rw [hc1] at hc
    simp only [List.map_append, List.sum_append] at hc
    omega

/-! ## The sample codestreams are codestreams with tile-parts -/

theorem two_tile_valid :
    valid_codestream two_tile_codestream 8 [(0x51, 4)] two_tile_layout = true := by decide

theorem head_800_length : head_800.length = 214 := by
  simp only [head_800, List.length_append, List.length_cons, List.length_nil,
    List.length_replicate]

theorem two_tiles_800_length : two_tiles_800.length = 1802 := by
  simp only [two_tiles_800, tile_800, List.length_append, List.length_cons, List.length_nil,
    List.length_replicate]

theorem two_tiles_800_split0 :
    two_tiles_800 = head_800 ++ List.replicate 786 7 ++ (tile_800 1 ++ [0xFF, 0xD9]) := by
  simp only [two_tiles_800, tile_800, head_800, List.append_assoc]

theorem two_tiles_800_split1 :
    two_tiles_800 = (head_800 ++ List.replicate 786 7
        ++ [0xFF, 0x90, 0, 10, 0, 1, 0, 0, 3, 32, 0, 2, 0xFF, 0x93])
      ++ List.replicate 786 7 ++ [0xFF, 0xD9] := by
  simp only [two_tiles_800, tile_800, head_800, List.append_assoc]

set_option maxRecDepth 100000 in
theorem two_tiles_800_valid :
    valid_codestream two_tiles_800 200 [(0x51, 196)] two_tiles_800_layout = true := by
  have hl1 : (head_800 ++ List.replicate 786 7
      ++ [0xFF, 0x90, 0, 10, 0, 1, 0, 0, 3, 32, 0, 2, 0xFF, 0x93]).length = 1014 := by
    simp only [List.length_append, List.length_cons, List.length_nil, List.length_replicate,
      head_800_length]
  have n0 : no_eoc_in two_tiles_800 214 1000 = true := by
    have h := no_eoc_in_run head_800 (tile_800 1 ++ [0xFF, 0xD9]) 786 7 (by decide)
    rw [head_800_length, ← two_tiles_800_split0] at h
    exact h
  have n1 : no_eoc_in two_tiles_800 1014 1800 = true := by
    have h := no_eoc_in_run (head_800 ++ List.replicate 786 7
      ++ [0xFF, 0x90, 0, 10, 0, 1, 0, 0, 3, 32, 0, 2, 0xFF, 0x93]) [0xFF, 0xD9] 786 7
      (by decide)
    rw [hl1, ← two_tiles_800_split1] at h
    exact h
  have t0 : tile_part_ok two_tiles_800 ⟨200, 0, 10, 800, [], 212⟩ = true :=
    tile_part_ok_intro _ _ rfl rfl rfl (by decide) rfl (by decide) rfl rfl rfl rfl
      (by decide) n0
  have t1 : tile_part_ok two_tiles_800 ⟨1000, 1, 10, 800, [], 1012⟩ = true :=
    tile_part_ok_intro _ _ rfl rfl rfl (by decide) rfl (by decide) rfl rfl rfl rfl
      (by decide) n1
  have e : tiles_ok two_tiles_800 1800 [] = true :=
    tiles_ok_nil_intro _ _ rfl rfl (by rw [two_tiles_800_length])
  exact valid_codestream_intro _ _ _ _ _ rfl rfl (by decide)
    (tiles_ok_cons_intro _ _ _ t0 (tiles_ok_cons_intro _ _ _ t1 e))

theorem wide_length : wide_codestream.length = 16777248 := by
  have h1 : wide_head.length = 16 := rfl
  have h2 : wide_tail.length = 16 := rfl
  simp only [wide_codestream, List.length_append, List.length_replicate, h1, h2]

theorem wide_rd_head (k : Nat) (hk : k < 16) : rd wide_codestream k = rd wide_head k :=
  rd_run_head wide_head wide_tail 16777216 0 k hk

theorem wide_rd_tail (k : Nat) : rd wide_codestream (16777232 + k) = rd wide_tail k :=
  rd_run_tail wide_head wide_tail 16777216 0 k

theorem wide_valid : valid_codestream wide_codestream 2 [] wide_layout = true := by
  have hh : ∀ k, k < 16 → rd wide_codestream (0 + k) = rd wide_head k := by
    intro k hk
    rw [Nat.zero_add]
    exact wide_rd_head k hk
  have ht : ∀ k, k < 16 → rd wide_codestream (16777232 + k) = rd wide_tail k :=
    fun k _ => wide_rd_tail k
  have n0 : no_eoc_in wide_codestream 16 16777232 = true :=
    no_eoc_in_run wide_head wide_tail 16777216 0 (by decide)
  have n1 : no_eoc_in wide_codestream 16777246 16777246 = true :=
    no_eoc_in_of_ne _ _ _ (fun q h1 h2 => by omega)
  have t0 : tile_part_ok wide_codestream ⟨2, 0, 10, 16777230, [], 14⟩ = true :=
    tile_part_ok_intro _ _ ((hh 2 (by decide)).trans rfl) ((hh 3 (by decide)).trans rfl)
      ((header_size_shift _ wide_head 0 4 16 hh (by decide)).trans rfl) (by decide)
      ((read16_shift _ wide_head 0 6 16 hh (by decide)).trans rfl) (by decide)
      ((read32_shift _ wide_head 0 8 16 hh (by decide)).trans rfl)
      (by rw [seg_chain]; rfl)
      ((hh 14 (by decide)).trans rfl) ((hh 15 (by decide)).trans rfl) (by decide) n0
  have t1 : tile_part_ok wide_codestream ⟨16777232, 1, 10, 14, [], 16777244⟩ = true :=
    tile_part_ok_intro _ _ ((wide_rd_tail 0).trans rfl) ((wide_rd_tail 1).trans rfl)
      ((header_size_shift _ wide_tail 16777232 2 16 ht (by decide)).trans rfl) (by decide)
      ((read16_shift _ wide_tail 16777232 4 16 ht (by decide)).trans rfl) (by decide)
      ((read32_shift _ wide_tail 16777232 6 16 ht (by decide)).trans rfl)
      (by rw [seg_chain]; rfl)
      ((wide_rd_tail 12).trans rfl) ((wide_rd_tail 13).trans rfl) (by decide) n1
  have e : tiles_ok wide_codestream 16777246 [] = true :=
    tiles_ok_nil_intro _ _ ((wide_rd_tail 14).trans rfl) ((wide_rd_tail 15).trans rfl)
      (by rw [wide_length])
  exact valid_codestream_intro _ _ _ _ _ ((hh 0 (by decide)).trans rfl)
    ((hh 1 (by decide)).trans rfl) (by rw [seg_chain]; rfl)
    (tiles_ok_cons_intro _ _ _ t0 (tiles_ok_cons_intro _ _ _ t1 e))

/-! ## The packet at the SOT marker of a tile-part -/

theorem tiles_ok_mem (data : List Nat) :
    ∀ (ts : List TilePart) (o : Nat), tiles_ok data o ts = true →
      ∀ t ∈ ts, tile_part_ok data t = true := by
  intro ts
  induction ts with
  | nil => intro o _ t ht; cases ht
  | cons x xs ih =>
    intro o h t ht
    rw [tiles_ok] at h
    simp only [Bool.and_eq_true, decide_eq_true_eq] at h
    obtain ⟨⟨_, a2⟩, a3⟩ := h
    rcases List.mem_cons.mp ht with h1 | h1
    · subst h1; exact a2
    · exact ih _ a3 t h1

theorem get_of_rd (data : List Nat) (i b : Nat) (h : rd data i = Except.ok b) :
    data.get? i = some b := by
  unfold rd at h
  cases hg : data.get? i with
  | none => rw [hg] at h; cases h
  | some x =>
    rw [hg] at h
    rw [Except.ok.inj h]

theorem take_two_of_rd (data : List Nat) (s d a b : Nat) (h0 : rd data s = Except.ok a)
    (h1 : rd data (s + 1) = Except.ok b) (hd : 2 ≤ d) :
    ((data.drop s).take d).take 2 = [a, b] := by
  have g0 := get_of_rd _ _ _ h0
  have g1 := get_of_rd _ _ _ h1
  have l0 := rd_lt _ _ _ h0
  have l1 := rd_lt _ _ _ h1
  rw [List.get?_eq_getElem?, List.getElem?_eq_getElem l0] at g0
  rw [List.get?_eq_getElem?, List.getElem?_eq_getElem l1] at g1
  rw [List.take_take, Nat.min_eq_left hd, List.drop_eq_getElem_cons l0,
    List.drop_eq_getElem_cons l1, Option.some.inj g0, Option.some.inj g1]
  rfl

/-- C21 (amended): for a codestream with tile-parts, an MTU of 10 or more and
fuel for the length of the buffer, the payloader returns, and for every
tile-part, the first of the frame or a later one, the packet that begins at
its SOT marker `t.s` (the packets before it carry `t.s` bytes) has T = 0 and
the tile number `t.isot` in its header, with MHF = 0 and the fragment offset
`t.s` reduced to 24 bits. -/
theorem sot_packet_T_zero (data : List Nat) (p : Nat) (segs : List (Nat × Nat))
    (tiles : List TilePart) (mtu fuel : Nat)
    (hv : valid_codestream data p segs tiles = true) (hm : 10 ≤ mtu) (hmtu : mtu < U32)
    (hs : data.length < U32) (hf : data.length + 5 ≤ fuel) :
    ∃ pkts, gst_rtp_j2k_pay_handle_buffer fuel data mtu = Except.ok pkts ∧
      ∀ t ∈ tiles, ∃ pre mkr post d, 2 ≤ d ∧
        (pre.map (fun q => q.data.length)).sum = t.s ∧
        pkts = pre ++ ⟨header_bytes ⟨0, 0, 0, 0, 255, t.isot, t.s % 16777216⟩
          ++ (data.drop t.s).take d, mkr⟩ :: post := by
  obtain ⟨pkts, hrun, _, htl⟩ := handle_buffer_tiles data p segs tiles mtu fuel hv hm hmtu hs hf
  refine ⟨pkts, hrun, ?_⟩
  intro t ht
  obtain ⟨pre, mkr, post, d, h1, h2, h3⟩ := htl t ht
  have hsum := Cover_sum data mtu pre 0 t.s h2
  rw [Nat.zero_add] at hsum
  exact ⟨pre, mkr, post, d, h1, hsum, h3⟩

/-- The codestream `two_tile_codestream` at the MTU 1500: the packet that
begins at the SOT marker of the second tile-part (position 26, Isot = 1). -/
theorem sot_packet_T_zero_witness :
    ∃ pkts, gst_rtp_j2k_pay_handle_buffer 51 two_tile_codestream 1500 = Except.ok pkts ∧
      ∃ pre mkr post d, 2 ≤ d ∧ (pre.map (fun q => q.data.length)).sum = 26 ∧
        pkts = pre ++ ⟨header_bytes ⟨0, 0, 0, 0, 255, 1, 26 % 16777216⟩
          ++ (two_tile_codestream.drop 26).take d, mkr⟩ :: post := by
  obtain ⟨pkts, hrun, h⟩ := sot_packet_T_zero two_tile_codestream 8 [(0x51, 4)] two_tile_layout
    1500 51 two_tile_valid (by decide) (by decide) (by decide) (by decide)
  exact ⟨pkts, hrun, h ⟨26, 1, 10, 18, [], 38⟩ (by decide)⟩

/-- C21 (counterexample): the packet that begins with the SOT marker of the
second tile-part has T = 0, not 1.  For `two_tile_codestream` at the MTU 1500
the three packets are the header packet (first byte 49: MHF = 3, T = 1), the
packet of tile-part 0 (first byte 0: T = 0, tile 0) and the packet of
tile-part 1 (first byte 0: T = 0, tile 1).  For `two_tiles_800`, a main header
of 200 bytes followed by two tile-parts with Psot = 800, at the MTU 1500 the
packet that begins at the SOT marker of tile-part 1 (position 1000) carries
the header bytes 0, 255, 0, 1: T = 0, tile 1. -/
theorem later_tile_packet_T_zero :
    gst_rtp_j2k_pay_handle_buffer 51 two_tile_codestream 1500 = Except.ok two_tile_packets ∧
      two_tile_packets.map (fun q => q.payload.take 4)
        = [[49, 255, 0, 0], [0, 255, 0, 0], [0, 255, 0, 1]] ∧
      header_bytes ⟨0, 0, 0, 0, 255, 1, 1000⟩ = [0, 255, 0, 1, 0, 0, 3, 232] ∧
      ∃ pkts pre mkr post d,
        gst_rtp_j2k_pay_handle_buffer 1807 two_tiles_800 1500 = Except.ok pkts ∧
        2 ≤ d ∧ (pre.map (fun q => q.data.length)).sum = 1000 ∧
        pkts = pre ++ ⟨header_bytes ⟨0, 0, 0, 0, 255, 1, 1000⟩
          ++ (two_tiles_800.drop 1000).take d, mkr⟩ :: post := by
  refine ⟨rfl, rfl, rfl, ?_⟩
  obtain ⟨pkts, hrun, _, htl⟩ := handle_buffer_tiles two_tiles_800 200 [(0x51, 196)]
    two_tiles_800_layout 1500 1807 two_tiles_800_valid (by decide) (by decide)
    (by rw [two_tiles_800_length]; decide) (by rw [two_tiles_800_length])
  obtain ⟨pre, mkr, post, d, h1, h2, h3⟩ := htl ⟨1000, 1, 10, 800, [], 1012⟩ (by decide)
  have hsum := Cover_sum _ _ pre 0 _ h2
  rw [Nat.zero_add] at hsum
  exact ⟨pkts, pre, mkr, post, d, hrun, h1, hsum, h3⟩

/-- C28 (amended to buffers of at most `2^24` bytes and an MTU of 10 or more):
for a codestream with tile-parts the payloader returns, and for every tile-part
`t` some packet begins at its SOT marker: the packets before it carry `t.s`
bytes, its fragment offset is `t.s`, its data begin with the bytes `FF 90`
and its tile field is `t.isot`; and no packet has the position `t.s`
strictly inside its slice of the buffer. -/
theorem tile_boundaries_preserved (data : List Nat) (p : Nat) (segs : List (Nat × Nat))
    (tiles : List TilePart) (mtu fuel : Nat)
    (hv : valid_codestream data p segs tiles = true) (hm : 10 ≤ mtu) (hmtu : mtu < U32)
    (hs : data.length ≤ 16777216) (hf : data.length + 5 ≤ fuel) :
    ∃ pkts, gst_rtp_j2k_pay_handle_buffer fuel data mtu = Except.ok pkts ∧
      ∀ t ∈ tiles,
        (∃ pre q post, pkts = pre ++ q :: post ∧
          (pre.map (fun x => x.data.length)).sum = t.s ∧
          parse_frag_offset q.payload = t.s ∧ q.data.take 2 = [0xFF, J2K_MARKER_SOT] ∧
          parse_tile q.payload = t.isot) ∧
        ∀ pre q post, pkts = pre ++ q :: post →
          ¬ ((pre.map (fun x => x.data.length)).sum < t.s ∧
            t.s < (pre.map (fun x => x.data.length)).sum + q.data.length) := by
  obtain ⟨pkts, hrun, _, htl⟩ := handle_buffer_tiles data p segs tiles mtu fuel hv hm hmtu
    (by unfold U32; omega) hf
  refine ⟨pkts, hrun, ?_⟩
  intro t ht
  obtain ⟨_, _, _, _, htiles⟩ := valid_codestream_spec data p segs tiles hv
  obtain ⟨b1, b2, _, _, _, b6, _⟩ := tile_part_ok_spec data t (tiles_ok_mem data tiles p htiles t ht)
  obtain ⟨pre, mkr, post, d, h1, h2, h3⟩ := htl t ht
  have hsum := Cover_sum data mtu pre 0 t.s h2
  rw [Nat.zero_add] at hsum
  have hlt := rd_lt _ _ _ b1
  constructor
  · refine ⟨pre, _, post, h3, hsum, ?_, ?_, ?_⟩
    · rw [parse_frag_offset_header]
      show t.s % 16777216 % 16777216 = t.s
      rw [Nat.mod_mod, Nat.mod_eq_of_lt (by omega)]
    · rw [data_header_append]
      exact take_two_of_rd data t.s d _ _ b1 b2 h1
    · rw [parse_tile_header]
      exact Nat.mod_eq_of_lt b6
  · intro pre2 q2 post2 h4
    have := no_straddle pkts pre2 post2 pre post q2 _ h4 h3
    rw [hsum] at this
    exact this

/-- The codestream `two_tile_codestream` at the MTU 1500 and its second
tile-part (SOT at 26, Isot = 1): the third packet begins there, and the second
packet, which carries the 18 bytes from 8 on, ends there. -/
theorem tile_boundaries_preserved_witness :
    gst_rtp_j2k_pay_handle_buffer 51 two_tile_codestream 1500 = Except.ok two_tile_packets ∧
      (∃ pre q post, two_tile_packets = pre ++ q :: post ∧
        (pre.map (fun x => x.data.length)).sum = 26 ∧
        parse_frag_offset q.payload = 26 ∧ q.data.take 2 = [0xFF, J2K_MARKER_SOT] ∧
        parse_tile q.payload = 1) ∧
      ¬ ((8 : Nat) < 26 ∧ 26 < 8 + 18) := by
  obtain ⟨pkts, hrun, h⟩ := tile_boundaries_preserved two_tile_codestream 8 [(0x51, 4)]
    two_tile_layout 1500 51 two_tile_valid (by decide) (by decide) (by decide) (by decide)
  have hp : pkts = two_tile_packets := (Except.ok.inj (hrun.symm.trans rfl))
  subst hp
  obtain ⟨h1, h2⟩ := h ⟨26, 1, 10, 18, [], 38⟩ (by decide)
  exact ⟨rfl, h1, h2 [⟨[49, 255, 0, 0, 0, 0, 0, 0, 255, 79, 255, 81, 0, 4, 1, 2], false⟩]
    ⟨[0, 255, 0, 0, 0, 0, 0, 8, 255, 144, 0, 10, 0, 0, 0, 0, 0, 18, 0, 2,
      255, 147, 1, 2, 3, 4], false⟩
    [⟨[0, 255, 0, 1, 0, 0, 0, 26, 255, 144, 0, 10, 0, 1, 0, 0, 0, 18, 0, 2,
      255, 147, 5, 6, 7, 8, 255, 217], true⟩] rfl⟩

/-- C28 (counterexample): `wide_codestream` is a codestream with two
tile-parts, the second with its SOT marker at `2^24 + 16 = 16777232`.  At the
MTU 1500 the payloader returns; no packet has the fragment offset 16777232,
and the packet that begins at that SOT marker holds the fragment offset 16. -/
theorem wide_tile_offset_wraps :
    valid_codestream wide_codestream 2 [] wide_layout = true ∧
      ∃ pkts, gst_rtp_j2k_pay_handle_buffer 16777253 wide_codestream 1500 = Except.ok pkts ∧
        (∀ q ∈ pkts, parse_frag_offset q.payload ≠ 16777232) ∧
        ∃ pre q post, pkts = pre ++ q :: post ∧
          (pre.map (fun x => x.data.length)).sum = 16777232 ∧
          q.data.take 2 = [0xFF, J2K_MARKER_SOT] ∧ parse_frag_offset q.payload = 16 := by
  refine ⟨wide_valid, ?_⟩
  obtain ⟨pkts, hrun, hcov, htl⟩ := handle_buffer_tiles wide_codestream 2 [] wide_layout 1500
    16777253 wide_valid (by decide) (by decide) (by rw [wide_length]; decide)
    (by rw [wide_length])
  refine ⟨pkts, hrun, ?_, ?_⟩
  · intro q hq hc
    have := Cover_mem_offset _ _ pkts 0 _ hcov q hq
    omega
  · obtain ⟨pre, mkr, post, d, h1, h2, h3⟩ := htl ⟨16777232, 1, 10, 14, [], 16777244⟩
      (by decide)
    have hsum := Cover_sum _ _ pre 0 _ h2
    rw [Nat.zero_add] at hsum
    refine ⟨pre, _, post, h3, hsum, ?_, ?_⟩
    · rw [data_header_append]
      exact take_two_of_rd wide_codestream 16777232 d _ _ ((wide_rd_tail 0).trans rfl)
        ((wide_rd_tail 1).trans rfl) h1
    · rw [parse_frag_offset_header]
      rfl

/-! ## Failing inputs: flags of a fragmented header, flushes, reads outside the buffer -/

/-- C31 (failing input): `long_header_codestream` has its first SOT at 16; at
the MTU 20 the main header leaves in two packets, the 12 bytes `[0, 12)` with
MHF = 1 and the 4 bytes `[12, 16)` with MHF = 0, not 2: after the first packet
the loop resets MHF to 0, so the test `if (state.header.MHF)` fails at the end
of the unit. -/
theorem fragmented_header_ends_without_flag :
    gst_rtp_j2k_pay_handle_buffer 60 long_header_codestream 20 = Except.ok
      [ ⟨header_bytes ⟨0, 1, 0, 1, 255, 0, 0⟩ ++ (long_header_codestream.drop 0).take 12,
          false⟩,
        ⟨header_bytes ⟨0, 0, 0, 1, 255, 0, 12⟩ ++ (long_header_codestream.drop 12).take 4,
          false⟩,
        ⟨header_bytes ⟨0, 0, 0, 0, 255, 0, 16⟩ ++ (long_header_codestream.drop 16).take 12,
          false⟩,
        ⟨header_bytes ⟨0, 0, 0, 1, 255, 0, 28⟩ ++ (long_header_codestream.drop 28).take 8,
          true⟩ ] ∧
      parse_MHF (header_bytes ⟨0, 1, 0, 1, 255, 0, 0⟩) = 1 ∧
      parse_MHF (header_bytes ⟨0, 0, 0, 1, 255, 0, 12⟩) = 0 :=
  ⟨rfl, rfl, rfl⟩

/-- C34 (failing input): two packets leave a unit of two buffers, 14 and 4
bytes, in the PU adapter with pu_MHF = 0; `gst_rtp_j2k_depay_flush_pu` then
empties the PU adapter and pushes the first buffer only into the tile adapter:
the 4 bytes of the second buffer are in no adapter afterwards. -/
theorem flush_pu_keeps_first_buffer :
    ∃ d d1, depay_run 10 GstRtpJ2KDepay.new two_fragment_unit = Except.ok d ∧
      d.pu_MHF = 0 ∧
      d.pu_adapter = [[0xFF, 0x90, 0, 10, 0, 0, 0, 0, 0, 0, 0, 1, 0xFF, 0x93], [1, 2, 3, 4]] ∧
      d.t_adapter = [] ∧
      gst_rtp_j2k_depay_flush_pu 10 d = Except.ok d1 ∧
      d1.pu_adapter = [] ∧
      d1.t_adapter = [[0xFF, 0x90, 0, 10, 0, 0, 0, 0, 0, 0, 0, 1, 0xFF, 0x93]] ∧
      d1.f_adapter = [] ∧ d1.have_sync = false :=
  ⟨_, _, rfl, rfl, rfl, rfl, rfl, rfl, rfl, rfl, rfl⟩

set_option maxRecDepth 100000 in
/-- C35 (failing input): a tile of 489 bytes in one buffer, ending in the EOC
marker, with the wire Psot 500.  `gst_rtp_j2k_depay_flush_tile` pushes it with
Psot = 489, the EOC bytes counted, not 487: the two bytes that
`gst_adapter_copy` puts into `end` are the first two bytes of the tile,
`FF 90`. -/
theorem psot_rewritten_to_avail :
    tile_489.length = 489 ∧ tile_489.drop 487 = [0xFF, J2K_MARKER_EOC] ∧
      GST_READ_UINT32_BE tile_489 6 = Except.ok 500 ∧
      gst_adapter_copy [tile_489] [none, none] 487 2 = Except.ok [some 0xFF, some 0x90] ∧
      ∃ d, gst_rtp_j2k_depay_flush_tile 10 tile_489_state = Except.ok d ∧
        d.f_adapter = [sample_header, GST_WRITE_UINT32_BE tile_489 6 489] ∧
        GST_READ_UINT32_BE (GST_WRITE_UINT32_BE tile_489 6 489) 6 = Except.ok 489 :=
  ⟨rfl, rfl, rfl, rfl, _, rfl, rfl, rfl⟩

/-- C36 (failing input): a tile of two buffers, a tile-part header of 14 bytes
with Psot = 0 and two data bytes.  `gst_rtp_j2k_depay_flush_tile` takes both
buffers out of the tile adapter and pushes the first one only: the frame
adapter holds the header and the 14 bytes, the two data bytes are in no
adapter afterwards. -/
theorem flush_tile_keeps_first_buffer :
    gst_adapter_available two_buffer_tile_state.t_adapter = 16 ∧
      ∃ d, gst_rtp_j2k_depay_flush_tile 10 two_buffer_tile_state = Except.ok d ∧
        d.f_adapter = [sample_header, [0xFF, 0x90, 0, 10, 0, 0, 0, 0, 0, 0, 0, 1, 0xFF, 0x93]] ∧
        gst_adapter_available d.f_adapter = 8 + 14 ∧
        d.t_adapter = [] ∧ d.pu_adapter = [] :=
  ⟨rfl, _, rfl, rfl, rfl, rfl, rfl⟩

/-- C37 (failing input): in the state reached by a header packet and a short
tile packet `gst_rtp_j2k_depay_flush_frame` finds 8 bytes in the frame adapter.
On the depayloader as constructed the hand-over calls `back()` on the empty
vector `bufferLists`.  With a list in the vector the call returns, having reset
`last_mh_id`, `next_frag` and `have_sync`, but the frame adapter still holds
the 8 bytes; a second flush right after it prepares the same 8 bytes for the
hand-over again and returns the same state. -/
theorem frame_adapter_not_drained :
    depay_run 10 GstRtpJ2KDepay.new [header_packet_id1, short_tile_packet_unmarked]
        = Except.ok short_tile_state ∧
      gst_rtp_j2k_depay_flush_frame 10 short_tile_state = Except.error Fault.undefined ∧
      ∃ d1, gst_rtp_j2k_depay_flush_frame 10 { short_tile_state with bufferLists := [[]] }
          = Except.ok d1 ∧
        d1.pu_adapter = [] ∧ d1.t_adapter = [] ∧ d1.f_adapter = [sample_header] ∧
        d1.last_mh_id = U32 - 1 ∧ d1.next_frag = 0 ∧ d1.have_sync = false ∧
        flush_frame_outbuf d1.f_adapter 8 = Except.ok ([sample_header], sample_header) ∧
        gst_rtp_j2k_depay_flush_frame 10 d1 = Except.ok d1 :=
  ⟨rfl, rfl, _, rfl, rfl, rfl, rfl, rfl, rfl, rfl, rfl, rfl⟩

/-- C40 (failing input): on the two bytes `FF 90` the scanner reads the length
of the SOT segment at the indices 2 and 3, outside the buffer; and on
`bad_psot_codestream`, whose Psot is 1, the scan from the SOP marker at 16
returns 5, below its start, after which the pack loop computes
`end - offset = 5 - 16` modulo `2^32` and the emit loop asks for a slice
outside the buffer. -/
theorem scanner_reads_outside :
    gst_rtp_j2k_pay_header_size [0xFF, 0x90] 2 = Except.error Fault.undefined ∧
      find_pu_end 60 [0xFF, 0x90] 2 0 initial_state = Except.error Fault.undefined ∧
      gst_rtp_j2k_pay_handle_buffer 60 [0xFF, 0x90] 1500 = Except.error Fault.undefined ∧
      find_pu_end 60 bad_psot_codestream 22 16 (mk_state 0 1 0 16 true 0 3 false)
        = Except.ok (5, mk_state 0 1 0 16 false 0 3 true) ∧
      pack_loop 60 bad_psot_codestream 1492 16 16 16 (mk_state 0 1 0 16 true 0 3 false)
        = Except.ok (4294967285, 5, 5, mk_state 0 1 0 16 false 0 3 false) ∧
      gst_buffer_copy_region bad_psot_codestream 16 1492 = some (16, 22) ∧
      gst_rtp_j2k_pay_handle_buffer 60 bad_psot_codestream 1500
        = Except.error Fault.undefined :=
  ⟨rfl, rfl, rfl, rfl, rfl, rfl, rfl⟩

/-! ## The scanner reads the buffer from its cursor on -/

theorem scan_loop_congr (d1 d2 : List Nat) (size : Nat) (hs : size < U32) :
    ∀ fuel o, o < size → (∀ i, o ≤ i → rd d1 i = rd d2 i) →
      scan_loop fuel d1 size o = scan_loop fuel d2 size o := by
  intro fuel
  induction fuel with
  | zero => intro o _ _; rfl
  | succ n ih =>
    intro o ho hag
    have ha : add32 o 1 = o + 1 := add32_of_lt (by omega)
    rw [scan_loop, scan_loop, hag o (Nat.le_refl _)]
    apply bind_congr_ok
    intro b _
    dsimp only
    rw [ha]
    by_cases hc : b ≠ J2K_MARKER ∧ o + 1 < size
    · rw [if_pos hc, if_pos hc]
      exact ih (o + 1) hc.2 (fun i hi => hag i (by omega))
    · rw [if_neg hc, if_neg hc]

theorem scan_marker_congr (d1 d2 : List Nat) (size : Nat) (hs : size < U32) (fuel o : Nat)
    (ho : o < size) (hag : ∀ i, o ≤ i → rd d1 i = rd d2 i) :
    gst_rtp_j2k_pay_scan_marker fuel d1 size o = gst_rtp_j2k_pay_scan_marker fuel d2 size o := by
  unfold gst_rtp_j2k_pay_scan_marker
  rw [scan_loop_congr d1 d2 size hs fuel o ho hag]
  apply bind_congr_ok
  intro o1 h1
  have hb := scan_loop_bound fuel d2 size hs o o1 ho h1
  by_cases hc : o1 ≥ size
  · rw [if_pos hc, if_pos hc]
  · rw [if_neg hc, if_neg hc, hag o1 (by omega)]

theorem header_size_congr (d1 d2 : List Nat) (o i : Nat) (hi : o ≤ i)
    (hag : ∀ i, o ≤ i → rd d1 i = rd d2 i) :
    gst_rtp_j2k_pay_header_size d1 i = gst_rtp_j2k_pay_header_size d2 i := by
  unfold gst_rtp_j2k_pay_header_size
  rw [hag i hi, hag (i + 1) (by omega)]

theorem read16_congr (d1 d2 : List Nat) (o i : Nat) (hi : o ≤ i)
    (hag : ∀ i, o ≤ i → rd d1 i = rd d2 i) :
    GST_READ_UINT16_BE d1 i = GST_READ_UINT16_BE d2 i := by
  unfold GST_READ_UINT16_BE
  rw [hag i hi, hag (i + 1) (by omega)]

theorem read32_congr (d1 d2 : List Nat) (o i : Nat) (hi : o ≤ i)
    (hag : ∀ i, o ≤ i → rd d1 i = rd d2 i) :
    GST_READ_UINT32_BE d1 i = GST_READ_UINT32_BE d2 i := by
  unfold GST_READ_UINT32_BE
  rw [hag i hi, hag (i + 1) (by omega), hag (i + 2) (by omega), hag (i + 3) (by omega)]

theorem header_size_small (d : List Nat) (i len : Nat) (hb : ∀ j b, rd d j = Except.ok b → b < 256)
    (h : gst_rtp_j2k_pay_header_size d i = Except.ok len) : len < 65536 := by
  unfold gst_rtp_j2k_pay_header_size at h
  obtain ⟨hi, h1, h2⟩ := (bind_ok_iff _ _ _).mp h
  obtain ⟨lo, h3, h4⟩ := (bind_ok_iff _ _ _).mp h2
  rw [pure_ok_iff] at h4
  have b1 := hb _ _ h1
  have b2 := hb _ _ h3
  rw [← h4, or2 _ _ b2]
  omega

/-- The scan of `find_pu_end` from the cursor `o` reads the buffer at `o` and
behind it only: on two buffers that agree from `o` on it gives the same
result.  The buffers are byte buffers with `size + 65536 ≤ 2^32`, so that no
cursor wraps. -/
theorem find_congr (d1 d2 : List Nat) (size : Nat) (hs : size + 65536 ≤ U32)
    (hb : ∀ j b, rd d2 j = Except.ok b → b < 256) :
    ∀ fuel o c st, (∀ i, o ≤ i → rd d1 i = rd d2 i) →
      find_pu_end_loop fuel d1 size o c st = find_pu_end_loop fuel d2 size o c st := by
  have hs32 : size < U32 := by omega
  intro fuel
  induction fuel with
  | zero => intro o c st _; rfl
  | succ n ih =>
    intro o c st hag
    rw [find_pu_end_loop, find_pu_end_loop]
    by_cases hlt : o < size
    · have hn : ¬ ¬ o < size := not_not.mpr hlt
      rw [if_neg hn, if_neg hn, scan_marker_congr d1 d2 size hs32 (n + 1) o hlt hag]
      apply bind_congr_ok
      intro r hr
      obtain ⟨m, o1⟩ := r
      obtain ⟨b1, b2, _⟩ := scan_marker_bound _ _ _ _ _ _ hs32 hlt hr
      have hag1 : ∀ i, o1 ≤ i → rd d1 i = rd d2 i := fun i hi => hag i (by omega)
      have hrec : ∀ c2 st2, find_pu_end_loop n d1 size o1 c2 st2
          = find_pu_end_loop n d2 size o1 c2 st2 := fun c2 st2 => ih o1 c2 st2 hag1
      have hskip : ∀ len c2 st2, gst_rtp_j2k_pay_header_size d2 o1 = Except.ok len →
          find_pu_end_loop n d1 size (add32 o1 len) c2 st2
            = find_pu_end_loop n d2 size (add32 o1 len) c2 st2 := by
        intro len c2 st2 hl
        have := header_size_small d2 o1 len hb hl
        have ha : add32 o1 len = o1 + len := add32_of_lt (by omega)
        rw [ha]
        exact ih (o1 + len) c2 st2 (fun i hi => hag i (by omega))
      dsimp only
      rw [header_size_congr d1 d2 o1 o1 (Nat.le_refl _) hag1,
        read16_congr d1 d2 o1 (o1 + 2) (by omega) hag1,
        read32_congr d1 d2 o1 (o1 + 4) (by omega) hag1]
      split_ifs
      all_goals first
        | rfl
        | exact hrec _ _
        | (apply bind_congr_ok
           intro len hl
           first
             | exact hskip len _ _ hl
             | (split_ifs
                all_goals first
                  | rfl
                  | (apply bind_congr_ok
                     intro tile _
                     apply bind_congr_ok
                     intro psot _
                     exact hskip len _ _ hl)))
    · rw [if_pos hlt, if_pos hlt]

/-! ## Marker segments of the main header are skipped as a whole -/

/-- One pass of the header-mode loop from a cursor ahead of a marker segment
that is skipped: the bytes before the marker hold no `FF`. -/
theorem find_skip_seg_from (fuel : Nat) (data : List Nat) (o q m len : Nat) (cut : Bool)
    (st : RtpJ2KState) (hs : data.length < U32) (hmode : st.bitstream = false)
    (hoq : o ≤ q) (hf : q ≤ o + fuel)
    (hne : ∀ i, o ≤ i → i < q → ∃ b, rd data i = Except.ok b ∧ b ≠ 255)
    (h0 : rd data q = Except.ok 255) (h1 : rd data (q + 1) = Except.ok m)
    (hm : skippable m = true)
    (hl : gst_rtp_j2k_pay_header_size data (q + 2) = Except.ok len)
    (hno : q + 2 + len < U32) :
    find_pu_end_loop (fuel + 1) data data.length o cut st
      = find_pu_end_loop fuel data data.length (q + 2 + len) cut st := by
  have hlt := rd_lt _ _ _ h1
  obtain ⟨n1, n2, n3, n4⟩ := skippable_ne m hm
  rw [find_pu_end_loop]
  rw [if_neg (by omega),
    scan_marker_skip (fuel + 1) data data.length o q m hs hoq (by omega) hlt hne h0 h1, ok_bind]
  dsimp only
  rw [hmode]
  simp only [Bool.false_eq_true, if_false]
  rw [if_neg n1, if_neg n2, if_neg n3, if_neg n4, hl, ok_bind, add32_of_lt hno]

theorem rd_mem (data : List Nat) (j b : Nat) (h : rd data j = Except.ok b) : b ∈ data := by
  have hg := get_of_rd data j b h
  obtain ⟨hlt, he⟩ := List.get?_eq_some.mp hg
  rw [← he]
  exact List.get_mem data j hlt

/-- Two buffers that differ in a middle part only hold the same bytes outside
that part. -/
theorem rd_same_outside (a p1 p2 b : List Nat) (hl : p1.length = p2.length) (i : Nat)
    (h : i < a.length ∨ a.length + p1.length ≤ i) :
    rd (a ++ p1 ++ b) i = rd (a ++ p2 ++ b) i := by
  unfold rd
  rcases h with h | h
  · rw [List.append_assoc, List.append_assoc, List.get?_append h, List.get?_append h]
  · rw [List.get?_append_right (by simp; omega), List.get?_append_right (by simp; omega)]
    simp [hl]

/-- Claim C33: in header mode a marker segment other than SOC, SOT, SOD and EOC
is skipped as a whole. With the cursor at `o`, no `FF` before the marker at
`q`, and the length field `n` of the segment, one pass of the loop of
`find_pu_end` resumes at `q + 2 + n`, the first byte after the segment; and a
second codestream of the same length that differs from the first only in the
payload bytes of the segment, the positions from `q + 4` up to `q + 2 + n`,
gives the same result, return value and state. -/
theorem segment_payload_skipped (d1 d2 : List Nat) (o q m n : Nat) (c : Bool)
    (st : RtpJ2KState) (fuel : Nat)
    (hlen : d2.length = d1.length) (hs : d1.length + 65536 ≤ U32)
    (hb : ∀ b ∈ d1, b < 256)
    (hmode : st.bitstream = false)
    (hoq : o ≤ q) (hf : q ≤ o + fuel)
    (hne : ∀ i, o ≤ i → i < q → ∃ b, rd d1 i = Except.ok b ∧ b ≠ 255)
    (h0 : rd d1 q = Except.ok 255) (h1 : rd d1 (q + 1) = Except.ok m)
    (hm : skippable m = true)
    (hl : gst_rtp_j2k_pay_header_size d1 (q + 2) = Except.ok n)
    (hsame : ∀ i, i < q + 4 ∨ q + 2 + n ≤ i → rd d1 i = rd d2 i) :
    find_pu_end_loop (fuel + 1) d1 d1.length o c st
        = find_pu_end_loop fuel d1 d1.length (q + 2 + n) c st ∧
      find_pu_end_loop (fuel + 1) d2 d2.length o c st
        = find_pu_end_loop (fuel + 1) d1 d1.length o c st := by
  have hbb : ∀ j b, rd d1 j = Except.ok b → b < 256 := fun j b h => hb b (rd_mem d1 j b h)
  have hn := header_size_small d1 (q + 2) n hbb hl
  have hlt := rd_lt _ _ _ h1
  have hs1 : d1.length < U32 := by omega
  have hs2 : d2.length < U32 := by omega
  have hno : q + 2 + n < U32 := by omega
  have hne2 : ∀ i, o ≤ i → i < q → ∃ b, rd d2 i = Except.ok b ∧ b ≠ 255 := by
    intro i hi1 hi2
    rw [← hsame i (Or.inl (by omega))]
    exact hne i hi1 hi2
  have h02 : rd d2 q = Except.ok 255 := by rw [← hsame q (Or.inl (by omega))]; exact h0
  have h12 : rd d2 (q + 1) = Except.ok m := by
    rw [← hsame (q + 1) (Or.inl (by omega))]; exact h1
  have hl2 : gst_rtp_j2k_pay_header_size d2 (q + 2) = Except.ok n := by
    rw [← hl]
    unfold gst_rtp_j2k_pay_header_size
    rw [hsame (q + 2) (Or.inl (by omega)), hsame (q + 2 + 1) (Or.inl (by omega))]
  have e1 := find_skip_seg_from fuel d1 o q m n c st hs1 hmode hoq hf hne h0 h1 hm hl hno
  have e2 := find_skip_seg_from fuel d2 o q m n c st hs2 hmode hoq hf hne2 h02 h12 hm hl2 hno
  refine ⟨e1, ?_⟩
  rw [e2, e1, hlen]
  exact find_congr d2 d1 d1.length hs hbb fuel (q + 2 + n) c st
    (fun i hi => (hsame i (Or.inr hi)).symm)

theorem segment_payload_skipped_witness :
    (find_pu_end_loop (20 + 1) (comment_codestream [0xFF, 0x90, 0xFF, 0x93])
        (comment_codestream [0xFF, 0x90, 0xFF, 0x93]).length 2 false
        (RtpJ2KState.mk (RtpJ2KHeader.mk 0 1 0 1 255 0 0) false 0 0 false)
        = find_pu_end_loop 20 (comment_codestream [0xFF, 0x90, 0xFF, 0x93])
            (comment_codestream [0xFF, 0x90, 0xFF, 0x93]).length (2 + 2 + 6) false
            (RtpJ2KState.mk (RtpJ2KHeader.mk 0 1 0 1 255 0 0) false 0 0 false) ∧
      find_pu_end_loop (20 + 1) (comment_codestream [0, 0, 0, 0])
        (comment_codestream [0, 0, 0, 0]).length 2 false
        (RtpJ2KState.mk (RtpJ2KHeader.mk 0 1 0 1 255 0 0) false 0 0 false)
        = find_pu_end_loop (20 + 1) (comment_codestream [0xFF, 0x90, 0xFF, 0x93])
            (comment_codestream [0xFF, 0x90, 0xFF, 0x93]).length 2 false
            (RtpJ2KState.mk (RtpJ2KHeader.mk 0 1 0 1 255 0 0) false 0 0 false)) ∧
      find_pu_end 21 (comment_codestream [0xFF, 0x90, 0xFF, 0x93]) 30 0 initial_state
        = Except.ok (10, RtpJ2KState.mk (RtpJ2KHeader.mk 0 1 0 1 255 0 0) false 0 0 true) ∧
      find_pu_end 21 (comment_codestream [0, 0, 0, 0]) 30 0 initial_state
        = Except.ok (10, RtpJ2KState.mk (RtpJ2KHeader.mk 0 1 0 1 255 0 0) false 0 0 true) :=
  ⟨segment_payload_skipped (comment_codestream [0xFF, 0x90, 0xFF, 0x93])
      (comment_codestream [0, 0, 0, 0]) 2 2 0x64 6 false
      (RtpJ2KState.mk (RtpJ2KHeader.mk 0 1 0 1 255 0 0) false 0 0 false) 20 rfl (by decide)
      (by decide) rfl (by decide) (by decide)
      (fun i h1 h2 => absurd h1 (by omega))
      rfl rfl rfl rfl
      (fun i hi => rd_same_outside [0xFF, 0x4F, 0xFF, 0x64, 0, 6] [0xFF, 0x90, 0xFF, 0x93]
        [0, 0, 0, 0] _ rfl i (by simpa using hi)),
    rfl, rfl⟩

/-! ## The end of a tile-part in bitstream mode -/

/-- Counterexample to claim C32 as stated. In bitstream mode with
`next_sot = 2`: on the buffer `00 00 01 02 FF D9` the bytes at `next_sot` and
`next_sot + 1` are `01 02`, not `FF D9`, and the function returns
`next_sot + 2 = 4`, the EOC marker having been found at offset 4; on the
buffer `FF 00 FF D9` the bytes at `next_sot` and `next_sot + 1` are `FF D9`
with `next_sot + 2 ≤ size`, and the function returns `next_sot = 2`, the marker
found being `FF 00` at offset 0; and on `00 00 01 02 05 06`, which holds no
marker, the scan runs to the end of the buffer and reports EOC. -/
theorem end_of_tile_uses_scanned_marker :
    bitstream_state_sot2.bitstream = true ∧ bitstream_state_sot2.next_sot = 2 ∧
      find_pu_end 10 [0, 0, 1, 2, 0xFF, 0xD9] 6 0 bitstream_state_sot2
        = Except.ok (4, { bitstream_state_sot2 with bitstream := false, force_packet := true }) ∧
      find_pu_end 10 [0xFF, 0, 0xFF, 0xD9] 4 0 bitstream_state_sot2
        = Except.ok (2, { bitstream_state_sot2 with bitstream := false, force_packet := true }) ∧
      find_pu_end 10 [0, 0, 1, 2, 5, 6] 6 0 bitstream_state_sot2
        = Except.ok (4, { bitstream_state_sot2 with bitstream := false, force_packet := true }) :=
  ⟨rfl, rfl, rfl, rfl, rfl⟩

/-- Claim C32, amended: in bitstream mode, when the scan from the cursor `o`
gives a marker `m` other than SOP and EPH and leaves the cursor `o1` at or
beyond `next_sot`, the loop of `find_pu_end` sets `bitstream = false` and
`force_packet = true` and returns `next_sot + 2` exactly when the scanned
marker `m` is EOC and `next_sot + 2 ≤ size`, and `next_sot` otherwise. -/
theorem end_of_tile_rule (fuel : Nat) (data : List Nat) (size o m o1 : Nat) (c : Bool)
    (st : RtpJ2KState) (ho : o < size) (hmode : st.bitstream = true)
    (hscan : gst_rtp_j2k_pay_scan_marker (fuel + 1) data size o = Except.ok (m, o1))
    (h1 : m ≠ J2K_MARKER_SOP) (h2 : m ≠ J2K_MARKER_EPH) (h3 : st.next_sot ≤ o1) :
    find_pu_end_loop (fuel + 1) data size o c st
      = Except.ok (if m = J2K_MARKER_EOC ∧ add32 st.next_sot 2 ≤ size then add32 st.next_sot 2
          else st.next_sot, { st with bitstream := false, force_packet := true }) := by
  rw [find_pu_end_loop]
  rw [if_neg (by omega), hscan, ok_bind]
  dsimp only
  rw [hmode]
  simp only [if_true]
  rw [if_neg h1, if_neg h2, if_pos (by omega)]
  split_ifs <;> rfl

theorem end_of_tile_rule_witness :
    find_pu_end_loop (9 + 1) [1, 2, 0xFF, 0xD9] 4 0 false bitstream_state_sot2
        = Except.ok (if J2K_MARKER_EOC = J2K_MARKER_EOC ∧ add32 bitstream_state_sot2.next_sot 2 ≤ 4
            then add32 bitstream_state_sot2.next_sot 2 else bitstream_state_sot2.next_sot,
          { bitstream_state_sot2 with bitstream := false, force_packet := true }) ∧
      find_pu_end 10 [1, 2, 0xFF, 0xD9] 4 0 bitstream_state_sot2
        = Except.ok (4, { bitstream_state_sot2 with bitstream := false, force_packet := true }) :=
  ⟨end_of_tile_rule 9 [1, 2, 0xFF, 0xD9] 4 0 J2K_MARKER_EOC 4 false bitstream_state_sot2
      (by decide) rfl rfl (by decide) (by decide) (by decide),
    rfl⟩

/-! ## A packet that begins with SOP: the tile check -/

theorem flush_pu_last_tile (fuel : Nat) (d d1 : GstRtpJ2KDepay)
    (h : gst_rtp_j2k_depay_flush_pu fuel d = Except.ok d1) : d1.last_tile = d.last_tile := by
  unfold gst_rtp_j2k_depay_flush_pu at h
  dsimp only at h
  split at h
  · rw [pure_ok_iff] at h; subst h; rfl
  · split at h
    · obtain ⟨t, _, h2⟩ := (bind_ok_iff _ _ _).mp h
      rw [pure_ok_iff] at h2; subst h2; rfl
    · obtain ⟨mh, _, h2⟩ := (bind_ok_iff _ _ _).mp h
      obtain ⟨d2, h3, h4⟩ := (bind_ok_iff _ _ _).mp h2
      rw [pure_ok_iff] at h4; subst h4
      unfold store_mheader at h3
      split at h3
      · rw [pure_ok_iff] at h3; subst h3; rfl
      · cases h3

/-- Claim C38: a packet that is accepted (timestamp of the frame, mh_id of the
frame or none recorded yet) and whose body, longer than two bytes, begins with
SOP. With `d4` the state after the bookkeeping of the packet header (mh_id
recorded, `next_frag` advanced, the PU adapter cleared on a gap), the PU is
flushed; then, when the tile number of the packet differs from `last_tile`, the
tile is flushed if `last_tile` is not −1, `last_tile` becomes −1, `have_sync`
becomes false and the body is not stored; and when it equals `last_tile`,
`have_sync` becomes true and the body is appended to the PU adapter. -/
theorem sop_tile_check (fuel : Nat) (d : GstRtpJ2KDepay) (hdr body : List Nat) (mk : Bool)
    (hh : hdr.length = 8) (hl : 2 < body.length) (hsz : 8 + body.length < U32)
    (htime : d.last_rtptime = 0)
    (hid : d.last_mh_id = U32 - 1 ∨ d.last_mh_id = parse_mh_id hdr)
    (hb0 : body.getD 0 0 = 0xff) (hb1 : body.getD 1 0 = J2K_MARKER_SOP) :
    gst_rtp_j2k_depay_process fuel d ⟨hdr ++ body, mk⟩
      = (let d3 := { d with last_mh_id := parse_mh_id hdr,
                            next_frag := add32 (parse_frag_offset hdr) body.length }
         let d4 := if sub32 (parse_frag_offset hdr) d.next_frag ≠ 0 then
           gst_rtp_j2k_depay_clear_pu d3 else d3
         gst_rtp_j2k_depay_flush_pu fuel d4 >>= fun d1 =>
           if d.last_tile ≠ parse_tile hdr then
             (if d.last_tile ≠ U32 - 1 then gst_rtp_j2k_depay_flush_tile fuel d1 else pure d1)
               >>= fun d2 =>
                 if mk = true then
                   gst_rtp_j2k_depay_flush_frame fuel
                     { d2 with last_tile := U32 - 1, have_sync := false }
                 else pure { d2 with last_tile := U32 - 1, have_sync := false }
           else
             (if parse_MHF hdr &&& 2 ≠ 0 then
                gst_rtp_j2k_depay_flush_pu fuel
                  { d1 with
                    have_sync := true,
                    pu_MHF := if gst_adapter_available d1.pu_adapter = 0 then parse_MHF hdr
                      else d1.pu_MHF,
                    pu_adapter := gst_adapter_push d1.pu_adapter body }
              else pure
                  { d1 with
                    have_sync := true,
                    pu_MHF := if gst_adapter_available d1.pu_adapter = 0 then parse_MHF hdr
                      else d1.pu_MHF,
                    pu_adapter := gst_adapter_push d1.pu_adapter body })
               >>= fun d6 =>
                 if mk = true then gst_rtp_j2k_depay_flush_frame fuel d6 else pure d6) := by
  obtain ⟨rt, mh, tile, MH, puMHF, pu, t, f, nf, hs, bl⟩ := d
  simp only at htime hid
  subst htime
  have hlen : (hdr.length + body.length) % U32 = 8 + body.length := by
    rw [hh]; exact Nat.mod_eq_of_lt hsz
  have hj : sub32 (8 + body.length) HEADER_SIZE = body.length := by
    unfold sub32 HEADER_SIZE U32 at *; omega
  have hc : ¬ (8 + body.length < HEADER_SIZE) := by unfold HEADER_SIZE; omega
  have hid2 : ¬ (¬ mh = U32 - 1 ∧ ¬ mh = parse_mh_id hdr) := by
    rintro ⟨a, b⟩; rcases hid with h | h
    · exact a h
    · exact b h
  have hd2 : (if mh = U32 - 1 then
        (⟨0, parse_mh_id hdr, tile, MH, puMHF, pu, t, f, nf, hs, bl⟩ : GstRtpJ2KDepay)
      else ⟨0, mh, tile, MH, puMHF, pu, t, f, nf, hs, bl⟩)
      = ⟨0, parse_mh_id hdr, tile, MH, puMHF, pu, t, f, nf, hs, bl⟩ := by
    split
    · rfl
    · rename_i h1
      rcases hid with h | h
      · exact absurd h h1
      · rw [h]
  unfold gst_rtp_j2k_depay_process
  simp only [parse_MHF_append _ _ hh, parse_mh_id_append _ _ hh, parse_tile_append _ _ hh,
    parse_frag_offset_append _ _ hh, body_getD_0 _ _ hh, body_getD_1 _ _ hh, body_drop _ _ hh,
    List.length_append, hlen, hj, hb0, hb1, hc, if_false, gst_rtp_buffer_get_timestamp, ne_eq,
    not_true_eq_false, pure_bind, hid2, hd2, hl, gt_iff_lt, and_self, if_true]
  unfold sync_switch
  rw [if_neg (by decide), if_neg (by decide), if_pos rfl]
  rw [bind_assoc]
  refine bind_congr_ok _ _ _ (fun d1 h1 => ?_)
  have ht := flush_pu_last_tile _ _ _ h1
  have ht2 : d1.last_tile = tile := by
    rw [ht]; split <;> rfl
  rw [ht2]
  by_cases hne : tile = parse_tile hdr
  · subst hne
    simp only [ne_eq, not_true_eq_false, if_false, pure_bind, if_true]
    by_cases ha : gst_adapter_available d1.pu_adapter = 0 <;>
      by_cases hm : parse_MHF hdr &&& 2 = 0 <;>
      simp only [ha, hm, if_true, if_false, not_true_eq_false, not_false_eq_true]
  · simp only [ne_eq, hne, not_false_eq_true, if_true, bind_assoc, pure_bind, Bool.false_eq_true,
      if_false]

theorem sop_tile_check_witness :
    gst_rtp_j2k_depay_process 10 sot_tile1_state ⟨sop_header_T1 1 ++ sop_body, false⟩
        = Except.ok { sot_tile1_state with
            pu_adapter := [sop_body]
            t_adapter := [[0xFF, 0x90, 0, 10, 0, 1, 0, 0, 0, 0, 0, 1, 0xFF, 0x93]]
            next_frag := 20
            have_sync := true } ∧
      gst_rtp_j2k_depay_process 10 { sot_tile1_state with last_tile := 2 }
          ⟨sop_header_T1 1 ++ sop_body, false⟩
        = Except.ok { sot_tile1_state with
            last_tile := U32 - 1
            pu_adapter := []
            t_adapter := []
            next_frag := 20
            have_sync := false } :=
  ⟨(sop_tile_check 10 sot_tile1_state (sop_header_T1 1) sop_body false rfl (by decide)
      (by decide) rfl (Or.inr rfl) rfl rfl).trans rfl,
    (sop_tile_check 10 { sot_tile1_state with last_tile := 2 } (sop_header_T1 1) sop_body false
      rfl (by decide) (by decide) rfl (Or.inr rfl) rfl rfl).trans rfl⟩

/-! ## The tile field of a packet with T = 1 -/

/-- Claim C39, failing input: after the first packet of tile-part 1, two
packets that are identical except in the tile number, both with T = 1 and a
body that begins with SOP. With the tile number 1 the body is appended to the
PU adapter and `have_sync` is true; with the tile number 0, the value the
payloader writes next to T = 1, the tile is flushed, `last_tile` becomes −1,
`have_sync` becomes false and the body is not stored: the depayloader compares
the tile field without reading T. -/
theorem tile_field_compared_with_T_set :
    depay_run 10 GstRtpJ2KDepay.new [sot_packet_tile1] = Except.ok sot_tile1_state ∧
      (sop_packet_T1 0).payload.getD 0 0 &&& 1 = 1 ∧
      (sop_packet_T1 1).payload.getD 0 0 &&& 1 = 1 ∧
      (sop_packet_T1 0).payload.take 3 = (sop_packet_T1 1).payload.take 3 ∧
      (sop_packet_T1 0).payload.drop 4 = (sop_packet_T1 1).payload.drop 4 ∧
      (sop_packet_T1 0).marker = (sop_packet_T1 1).marker ∧
      gst_rtp_j2k_depay_process 10 sot_tile1_state (sop_packet_T1 1)
        = Except.ok { sot_tile1_state with
            pu_adapter := [sop_body]
            t_adapter := [[0xFF, 0x90, 0, 10, 0, 1, 0, 0, 0, 0, 0, 1, 0xFF, 0x93]]
            next_frag := 20
            have_sync := true } ∧
      gst_rtp_j2k_depay_process 10 sot_tile1_state (sop_packet_T1 0)
        = Except.ok { sot_tile1_state with
            last_tile := U32 - 1
            pu_adapter := []
            t_adapter := []
            next_frag := 20
            have_sync := false } :=
  ⟨rfl, rfl, rfl, rfl, rfl, rfl, rfl, rfl⟩

/-! ## The header bytes of every packet and the header state -/

theorem append_take_header (hdr data : List Nat) (win : Option (Nat × Nat)) (out : List Nat)
    (hl : hdr.length = 8) (h : gst_buffer_append hdr data win = Except.ok out) :
    out.take 8 = hdr := by
  unfold gst_buffer_append at h
  split at h
  · rw [pure_ok_iff] at h; subst h
    rw [← hl]; exact List.take_length _
  · split at h
    · rw [pure_ok_iff] at h; subst h
      rw [← hl]; exact List.take_left _ _
    · rw [throw_ne_ok] at h; exact h.elim

theorem map_bind_eq {α β γ : Type} (x : Except Fault α) (F : α → Except Fault β)
    (G : α → Except Fault γ) (g : β → γ) (h : ∀ a, (F a).map g = G a) :
    (x >>= F).map g = (x >>= G) := by
  cases x with
  | error e => rfl
  | ok a => exact h a

/-- The packets recorded by `emit_loop_headers` are the packets of
`emit_loop`. -/
theorem emit_loop_headers_map (data : List Nat) (mtu end_ : Nat) :
    ∀ fuel pu offset mk st (tr : List (RtpJ2KHeader × Packet)),
      (emit_loop_headers fuel data mtu end_ pu offset mk st tr).map
          (fun r => (r.1, r.2.map Prod.snd))
        = emit_loop fuel data mtu end_ pu offset mk st (tr.map Prod.snd) := by
  intro fuel
  induction fuel with
  | zero => intro pu offset mk st tr; rfl
  | succ n ih =>
    intro pu offset mk st tr
    rw [emit_loop_headers, emit_loop]
    split
    · rfl
    · dsimp only
      refine map_bind_eq _ _ _ _ (fun out => ?_)
      rw [ih]
      simp only [List.map_append, List.map_cons, List.map_nil]

/-- The packets recorded by `outer_loop_headers` are the packets of
`outer_loop`. -/
theorem outer_loop_headers_map (data : List Nat) (mtu max_size : Nat) :
    ∀ fuel offset pos end_ st (tr : List (RtpJ2KHeader × Packet)),
      (outer_loop_headers fuel data mtu max_size offset pos end_ st tr).map (List.map Prod.snd)
        = outer_loop fuel data mtu max_size offset pos end_ st (tr.map Prod.snd) := by
  intro fuel
  induction fuel with
  | zero => intro offset pos end_ st tr; rfl
  | succ n ih =>
    intro offset pos end_ st tr
    rw [outer_loop_headers, outer_loop]
    refine map_bind_eq _ _ _ _ (fun r => ?_)
    obtain ⟨pu, pos1, end1, st1⟩ := r
    dsimp only
    rw [← emit_loop_headers_map]
    cases emit_loop_headers (n + 1) data mtu end1 pu offset false st1 tr with
    | error e => rfl
    | ok r2 =>
      obtain ⟨st2, tr1⟩ := r2
      show Except.map _ (if pos1 < data.length then _ else _) = (if pos1 < data.length then _ else _)
      split
      · exact ih _ _ _ _ _
      · rfl

/-- The packets recorded by `gst_rtp_j2k_pay_handle_buffer_headers` are the
packets of `gst_rtp_j2k_pay_handle_buffer`. -/
theorem handle_buffer_headers_map (fuel : Nat) (data : List Nat) (mtu : Nat) :
    (gst_rtp_j2k_pay_handle_buffer_headers fuel data mtu).map (List.map Prod.snd)
      = gst_rtp_j2k_pay_handle_buffer fuel data mtu := by
  unfold gst_rtp_j2k_pay_handle_buffer_headers gst_rtp_j2k_pay_handle_buffer
  dsimp only
  split
  · rfl
  · exact outer_loop_headers_map data mtu _ fuel 0 0 0 initial_state []

theorem RecordOK_intro (h : RtpJ2KHeader) (p : Packet) (a : HdrOK h) (b : h.offset < 16777216)
    (c : p.payload.take 8 = header_bytes h) : RecordOK (h, p) := ⟨a, b, c⟩

theorem emit_loop_headers_spec (data : List Nat) (mtu end_ : Nat) :
    ∀ fuel pu offset mk st (tr : List (RtpJ2KHeader × Packet)) st1 tr1,
      HdrOK st.header → st.header.offset < 16777216 → (∀ x ∈ tr, RecordOK x) →
      emit_loop_headers fuel data mtu end_ pu offset mk st tr = Except.ok (st1, tr1) →
      HdrOK st1.header ∧ st1.header.offset < 16777216 ∧ ∀ x ∈ tr1, RecordOK x := by
  intro fuel
  induction fuel with
  | zero =>
    intro pu offset mk st tr st1 tr1 _ _ _ h
    rw [emit_loop_headers, throw_ne_ok] at h
    exact h.elim
  | succ n ih =>
    intro pu offset mk st tr st1 tr1 hh ho htr h
    rw [emit_loop_headers] at h
    split at h
    · rw [pure_ok_iff] at h
      simp only [Prod.mk.injEq] at h
      obtain ⟨rfl, rfl⟩ := h
      exact ⟨hh, ho, htr⟩
    · dsimp only at h
      generalize sub32 (if add32 pu HEADER_SIZE > mtu then mtu else add32 pu HEADER_SIZE)
        HEADER_SIZE = d at h
      rw [bind_ok_iff] at h
      obtain ⟨outbuf, hout, h⟩ := h
      have hh1 : HdrOK (RtpJ2KHeader.mk st.header.tp 0 st.header.mh_id 1 st.header.priority 0
          (add32 offset d % 16777216)) := by
        obtain ⟨a1, a2, a3, a4, a5, a6⟩ := hh
        exact ⟨a1, by norm_num, a3, by norm_num, a5, by norm_num⟩
      have ho1 : (RtpJ2KHeader.mk st.header.tp 0 st.header.mh_id 1 st.header.priority 0
          (add32 offset d % 16777216)).offset < 16777216 := Nat.mod_lt _ (by norm_num)
      have hM : HdrOK (RtpJ2KHeader.mk st.header.tp
          (if sub32 pu d = 0 ∧ st.header.MHF ≠ 0 then (if offset = 0 then 3 else 2)
            else st.header.MHF)
          st.header.mh_id st.header.T st.header.priority st.header.tile st.header.offset) := by
        obtain ⟨a1, a2, a3, a4, a5, a6⟩ := hh
        refine ⟨a1, ?_, a3, a4, a5, a6⟩
        show (if sub32 pu d = 0 ∧ st.header.MHF ≠ 0 then (if offset = 0 then 3 else 2)
            else st.header.MHF) < 4
        split
        · split <;> norm_num
        · exact a2
      have hrec : RecordOK (RtpJ2KHeader.mk st.header.tp
          (if sub32 pu d = 0 ∧ st.header.MHF ≠ 0 then (if offset = 0 then 3 else 2)
            else st.header.MHF)
          st.header.mh_id st.header.T st.header.priority st.header.tile st.header.offset,
          Packet.mk outbuf (if sub32 pu d = 0 ∧ end_ ≥ data.length then true else mk)) :=
        by
          have h3 := append_take_header _ _ _ _ (header_bytes_length _) hout
          exact RecordOK_intro _ _ hM ho h3
      refine ih _ _ _ _ _ _ _ hh1 ho1 ?_ h
      intro x hx
      rcases List.mem_append.mp hx with hx | hx
      · exact htr x hx
      · rw [List.mem_singleton] at hx
        rw [hx]
        exact hrec

theorem outer_loop_headers_spec (data : List Nat) (mtu max_size : Nat) (hs : data.length < U32) :
    ∀ fuel offset pos end_ st (tr : List (RtpJ2KHeader × Packet)) tr1,
      pos ≤ data.length → end_ ≤ data.length →
      HdrOK st.header → st.header.offset < 16777216 → (∀ x ∈ tr, RecordOK x) →
      outer_loop_headers fuel data mtu max_size offset pos end_ st tr = Except.ok tr1 →
      ∀ x ∈ tr1, RecordOK x := by
  intro fuel
  induction fuel with
  | zero =>
    intro offset pos end_ st tr tr1 _ _ _ _ _ h
    rw [outer_loop_headers, throw_ne_ok] at h
    exact h.elim
  | succ n ih =>
    intro offset pos end_ st tr tr1 hp he hh ho htr h
    rw [outer_loop_headers, bind_ok_iff] at h
    obtain ⟨⟨pu, pos1, end1, st1⟩, hpack, h⟩ := h
    dsimp only at h
    rw [bind_ok_iff] at h
    obtain ⟨⟨st2, tr2⟩, hemit, h⟩ := h
    dsimp only at h
    obtain ⟨_, hp1, he1, hh1, ho1⟩ := pack_loop_spec _ _ _ _ hs _ _ _ _ _ _ _ hp he hh hpack
    obtain ⟨hh2, ho2, htr2⟩ := emit_loop_headers_spec data mtu end1 _ _ _ _ _ _ _ _ hh1
      (by rw [ho1]; exact ho) htr hemit
    split at h
    · exact ih _ _ _ _ _ _ hp1 he1 hh2 ho2 htr2 h
    · rw [pure_ok_iff] at h
      subst h
      exact htr2

theorem handle_buffer_headers_spec (fuel : Nat) (data : List Nat) (mtu : Nat)
    (tr : List (RtpJ2KHeader × Packet)) (hs : data.length < U32)
    (h : gst_rtp_j2k_pay_handle_buffer_headers fuel data mtu = Except.ok tr) :
    ∀ x ∈ tr, RecordOK x := by
  unfold gst_rtp_j2k_pay_handle_buffer_headers at h
  dsimp only at h
  split at h
  · rw [throw_ne_ok] at h; exact h.elim
  · exact outer_loop_headers_spec data mtu _ hs fuel 0 0 0 initial_state [] tr (Nat.zero_le _)
      (Nat.zero_le _) initial_state_HdrOK (by decide) (fun x hx => by simp at hx) h

theorem map_ok_inv {α β : Type} (x : Except Fault α) (g : α → β) (b : β)
    (h : x.map g = Except.ok b) : ∃ a, x = Except.ok a ∧ g a = b := by
  cases x with
  | error e => cases h
  | ok a => exact ⟨a, rfl, by injection h⟩

/-- C6: in the list the payloader returns, every packet starts with the eight
header bytes written from the header state of the pass that emits it (the
record `state.header` with the MHF of the pass, as recorded next to the packet
by `gst_rtp_j2k_pay_handle_buffer_headers`): `tp = 0`, `mh_id = 0` and
`priority = 255` in that record, and the bytes are `16*MHF + T`, `255`, the
tile number of the record big-endian, `0` (reserved) and the 24-bit fragment
offset of the record big-endian.  The three offset bytes are those of the
number of codestream bytes carried by the packets before it, reduced modulo
`2^24`. -/
theorem header_layout (fuel : Nat) (data : List Nat) (mtu : Nat) (pkts : List Packet)
    (hm : 8 < mtu) (hs : data.length < U32)
    (h : gst_rtp_j2k_pay_handle_buffer fuel data mtu = Except.ok pkts) :
    (∃ tr, gst_rtp_j2k_pay_handle_buffer_headers fuel data mtu = Except.ok tr ∧
      tr.map Prod.snd = pkts ∧
      ∀ x ∈ tr, x.1.tp = 0 ∧ x.1.mh_id = 0 ∧ x.1.priority = 255 ∧ x.1.MHF < 4 ∧ x.1.T < 2 ∧
        x.1.tile < 65536 ∧ x.1.offset < 16777216 ∧
        x.2.payload.take 8 = [16 * x.1.MHF + x.1.T, 255, x.1.tile / 256, x.1.tile % 256, 0,
          x.1.offset / 65536, x.1.offset / 256 % 256, x.1.offset % 256]) ∧
    ∀ (pre : List Packet) (p : Packet) (post : List Packet), pkts = pre ++ p :: post →
      (p.payload.take 8).drop 5 =
        [((pre.map (fun q => q.data.length)).sum) % 16777216 / 65536,
          ((pre.map (fun q => q.data.length)).sum) % 16777216 / 256 % 256,
          ((pre.map (fun q => q.data.length)).sum) % 16777216 % 256] := by
  constructor
  · have hmap := handle_buffer_headers_map fuel data mtu
    rw [h] at hmap
    obtain ⟨tr, htr, hp⟩ := map_ok_inv _ _ _ hmap
    refine ⟨tr, htr, hp, ?_⟩
    intro x hx
    obtain ⟨hh, ho, hb⟩ := handle_buffer_headers_spec fuel data mtu tr hs htr x hx
    rw [header_bytes_layout x.1 hh ho] at hb
    exact ⟨hh.1, hh.2.2.1, hh.2.2.2.2.1, hh.2.1, hh.2.2.2.1, hh.2.2.2.2.2, ho, hb⟩
  · intro pre p post hp
    have hc := handle_buffer_cover fuel data mtu pkts hm hs h
    rw [hp] at hc
    obtain ⟨MHF, T, tile, _, _, _, hl⟩ := Cover_layout data mtu pre p post 0 _ hc
    rw [hl]
    simp

theorem header_layout_witness :
    gst_rtp_j2k_pay_handle_buffer_headers 40 tile_258_codestream 1500
        = Except.ok [ (⟨0, 3, 0, 1, 255, 0, 0⟩, ⟨[49, 255, 0, 0, 0, 0, 0, 0, 255, 79], false⟩),
          (⟨0, 0, 0, 0, 255, 258, 2⟩,
            ⟨[0, 255, 1, 2, 0, 0, 0, 2, 255, 144, 0, 10, 1, 2, 0, 0, 0, 16, 0, 1, 255, 147,
              5, 6, 255, 217], true⟩) ] ∧
      (Packet.mk [0, 255, 1, 2, 0, 0, 0, 2, 255, 144, 0, 10, 1, 2, 0, 0, 0, 16, 0, 1, 255,
          147, 5, 6, 255, 217] true).payload.take 8
        = [16 * 0 + 0, 255, 258 / 256, 258 % 256, 0, 2 / 65536, 2 / 256 % 256, 2 % 256] ∧
      ((Packet.mk [0, 255, 1, 2, 0, 0, 0, 2, 255, 144, 0, 10, 1, 2, 0, 0, 0, 16, 0, 1, 255,
          147, 5, 6, 255, 217] true).payload.take 8).drop 5
        = [(([Packet.mk [49, 255, 0, 0, 0, 0, 0, 0, 255, 79] false].map
              (fun q => q.data.length)).sum) % 16777216 / 65536,
          (([Packet.mk [49, 255, 0, 0, 0, 0, 0, 0, 255, 79] false].map
              (fun q => q.data.length)).sum) % 16777216 / 256 % 256,
          (([Packet.mk [49, 255, 0, 0, 0, 0, 0, 0, 255, 79] false].map
              (fun q => q.data.length)).sum) % 16777216 % 256] := by
  obtain ⟨⟨tr, h1, _, h3⟩, h4⟩ :=
    header_layout 40 tile_258_codestream 1500 tile_258_packets (by decide) (by decide) rfl
  have e : tr = [ (⟨0, 3, 0, 1, 255, 0, 0⟩, ⟨[49, 255, 0, 0, 0, 0, 0, 0, 255, 79], false⟩),
      (⟨0, 0, 0, 0, 255, 258, 2⟩,
        ⟨[0, 255, 1, 2, 0, 0, 0, 2, 255, 144, 0, 10, 1, 2, 0, 0, 0, 16, 0, 1, 255, 147,
          5, 6, 255, 217], true⟩) ] := by
    have h0 : gst_rtp_j2k_pay_handle_buffer_headers 40 tile_258_codestream 1500
        = Except.ok [ (⟨0, 3, 0, 1, 255, 0, 0⟩,
            ⟨[49, 255, 0, 0, 0, 0, 0, 0, 255, 79], false⟩),
          (⟨0, 0, 0, 0, 255, 258, 2⟩,
            ⟨[0, 255, 1, 2, 0, 0, 0, 2, 255, 144, 0, 10, 1, 2, 0, 0, 0, 16, 0, 1, 255, 147,
              5, 6, 255, 217], true⟩) ] := rfl
    rw [h0] at h1
    injection h1 with h1
    exact h1.symm
  subst e
  refine ⟨h1, ?_, ?_⟩
  · exact (h3 _ (List.mem_cons_of_mem _ (List.mem_singleton.mpr rfl))).2.2.2.2.2.2.2
  · exact h4 [⟨[49, 255, 0, 0, 0, 0, 0, 0, 255, 79], false⟩]
      ⟨[0, 255, 1, 2, 0, 0, 0, 2, 255, 144, 0, 10, 1, 2, 0, 0, 0, 16, 0, 1, 255, 147,
        5, 6, 255, 217], true⟩ [] rfl

end RtpJ2K
